import Mathlib

/-! # AI Resume Optimizer: the optimization pipeline

A shallow embedding of `backend/services/geminiService.js`,
`backend/services/diffService.js`, `backend/controllers/optimizeController.js`
and `backend/controllers/jobController.js`, followed by the properties proved
about them.

Part 1 holds the definitions, Part 2 the lemmas and theorems.
-/

namespace ResumeOptimizer

/-! ## Part 1: definitions -/

/-! ### JavaScript strings -/

/-- A JavaScript string is a sequence of UTF-16 code units. -/
abbrev JSString := List Nat

/-- UTF-16 encoding of one Unicode scalar value. -/
def utf16Char (c : Char) : List Nat :=
  if c.toNat < 65536 then [c.toNat]
  else [55296 + (c.toNat - 65536) / 1024, 56320 + (c.toNat - 65536) % 1024]

/-- The JavaScript string written by a literal. -/
def utf16 (s : String) : JSString := s.toList.flatMap utf16Char

/-- Code units that `String.prototype.trim` strips and that `\s` matches:
WhiteSpace and LineTerminator of ECMA-262. -/
def isWhiteSpace (c : Nat) : Bool :=
  c == 9 || c == 10 || c == 11 || c == 12 || c == 13 || c == 32 || c == 160 ||
  c == 5760 || (8192 ≤ c && c ≤ 8202) || c == 8232 || c == 8233 || c == 8239 ||
  c == 8287 || c == 12288 || c == 65279

/-- The method `String.prototype.trimStart`. -/
def trimStart (s : JSString) : JSString := s.dropWhile isWhiteSpace

/-- The method `String.prototype.trimEnd`. -/
def trimEnd (s : JSString) : JSString := (s.reverse.dropWhile isWhiteSpace).reverse

/-- The method `String.prototype.trim`. -/
def trim (s : JSString) : JSString := trimEnd (trimStart s)

/-- Search for the first occurrence of `pat` in `s`, `i` being the index of
the head of `s` in the whole string. -/
def indexOfFrom (pat : JSString) : JSString → Nat → Option Nat
  | [], i => if pat.isPrefixOf [] then some i else none
  | c :: cs, i => if pat.isPrefixOf (c :: cs) then some i else indexOfFrom pat cs (i + 1)

/-- The method `String.prototype.indexOf(pat)`; `none` stands for `-1`. -/
def indexOf (s pat : JSString) : Option Nat := indexOfFrom pat s 0

/-- The method `String.prototype.substring(a, b)` on non-negative integers: both
ends are clamped to the length and swapped when `a > b`. -/
def substring (s : JSString) (a b : Nat) : JSString :=
  let a' := min a s.length
  let b' := min b s.length
  (s.drop (min a' b')).take (max a' b' - min a' b')

/-- Decimal rendering of a number inside a template literal. -/
def numberToString (n : Nat) : JSString := utf16 (toString n)

/-! ### The `diff` package

`diffService.js` delegates to `Diff.diffLines` and `Diff.diffWords` of the npm
package `diff`, which is a dependency and not part of the repository sources.
-/

namespace Diff

/-- Modelled from the spec: a change object of the package `diff`, whose sources are
not under src/: a text segment tagged unchanged, added or removed; `none` stands
for `undefined`. -/
structure Change where
  /-- The joined tokens of the part. -/
  value : JSString
  /-- Set to `true` on a part present only in the new text. -/
  added : Option Bool
  /-- Set to `true` on a part present only in the old text. -/
  removed : Option Bool
  /-- Number of tokens of the part. -/
  count : Nat
deriving DecidableEq, Repr

/-- One step of an edit script over tokens. -/
inductive Op where
  /-- A token of the old text matched with a token of the new text. -/
  | keep (old new : JSString)
  /-- A token of the old text without a match. -/
  | remove (old : JSString)
  /-- A token of the new text without a match. -/
  | add (new : JSString)
deriving DecidableEq, Repr

/-- Number of removals and additions of a script. -/
def cost : List Op → Nat
  | [] => 0
  | Op.keep _ _ :: rest => cost rest
  | _ :: rest => cost rest + 1

/-- Modelled from the spec: one row of the search for an edit script inside the
package `diff`, whose sources are not under src/: the scripts from `x :: xs` to
every list of new tokens, `prev` giving the scripts from `xs`. -/
def scriptRow (eq : JSString → JSString → Bool) (x : JSString) (xs : List JSString)
    (prev : List JSString → List Op) : List JSString → List Op
  | [] => (x :: xs).map Op.remove
  | y :: ys =>
    if eq x y then Op.keep x y :: prev ys
    else
      let removal := Op.remove x :: prev (y :: ys)
      let addition := Op.add y :: scriptRow eq x xs prev ys
      if cost removal ≤ cost addition then removal else addition

/-- Modelled from the spec: the edit script computed inside the package `diff`,
whose sources are not under src/. The spec asks for a partition into unchanged,
added and removed segments that covers the transformation from the old text to
the new one; this is an edit script with the fewest removals and additions,
tokens being matched by the comparison `eq`. -/
def script (eq : JSString → JSString → Bool) : List JSString → List JSString → List Op
  | [] => fun ys => ys.map Op.add
  | x :: xs => scriptRow eq x xs (script eq xs)

/-- The change object of a single step; an unchanged part takes its text from the
new tokens. -/
def Change.ofOp : Op → Change
  | Op.keep _ new => ⟨new, none, none, 1⟩
  | Op.remove old => ⟨old, none, some true, 1⟩
  | Op.add new => ⟨new, some true, none, 1⟩

/-- Modelled from the spec: the change objects built inside the package `diff`, whose
sources are not under src/: consecutive steps of one kind are joined into one
segment. -/
def buildValues : List Op → List Change
  | [] => []
  | op :: rest =>
    match buildValues rest with
    | [] => [Change.ofOp op]
    | c :: cs =>
      if (Change.ofOp op).added = c.added ∧ (Change.ofOp op).removed = c.removed then
        { c with value := (Change.ofOp op).value ++ c.value, count := c.count + 1 } :: cs
      else Change.ofOp op :: c :: cs

/-- The step keeps a token. -/
def isKeep : Op → Bool
  | Op.keep _ _ => true
  | _ => false

/-- Empty tokens are dropped before the comparison. -/
def removeEmpty (tokens : List JSString) : List JSString := tokens.filter (fun t => !t.isEmpty)

/-- Modelled from the spec: the method `diff` shared by `diffLines` and `diffWords` of
the package `diff`, whose sources are not under src/: tokenize both texts, find
an edit script, join its steps into change objects. Texts without a difference
give a single unchanged part holding the new text. -/
def diff (eq : JSString → JSString → Bool) (tokenize : JSString → List JSString)
    (oldStr newStr : JSString) : List Change :=
  let oldTokens := removeEmpty (tokenize oldStr)
  let newTokens := removeEmpty (tokenize newStr)
  let ops := script eq oldTokens newTokens
  if ops.all isKeep then [⟨newTokens.flatten, none, none, newTokens.length⟩]
  else buildValues ops

/-- Modelled from the spec: the line tokenizer of the package `diff`, whose sources
are not under src/: the lines of a text, each with its line terminator. -/
def tokenizeLines : JSString → List JSString
  | [] => []
  | c :: cs =>
    if c = 10 then [c] :: tokenizeLines cs
    else
      match tokenizeLines cs with
      | [] => [[c]]
      | t :: ts => (c :: t) :: ts

/-- Modelled from the spec: `Diff.diffLines` of the package `diff`, whose sources are
not under src/. The spec asks for a line-partitioned sequence of unchanged, added
and removed segments; lines are compared as strings. -/
def diffLines (oldStr newStr : JSString) : List Change :=
  diff (fun a b => a == b) tokenizeLines oldStr newStr

/-- Classes of code units for the word tokenizer. -/
inductive UnitClass where
  /-- White space other than CR and LF. -/
  | blank
  /-- Brackets, quotes, CR and LF: tokens of their own. -/
  | special
  /-- A unit matched by `\w`. -/
  | word
  /-- Any other unit. -/
  | other
deriving DecidableEq, Repr

/-- Units matched by `\w`. -/
def isWordUnit (c : Nat) : Bool :=
  (48 ≤ c && c ≤ 57) || (65 ≤ c && c ≤ 90) || c == 95 || (97 ≤ c && c ≤ 122)

/-- Brackets, quotes, CR and LF. -/
def isSpecialUnit (c : Nat) : Bool :=
  c == 40 || c == 41 || c == 91 || c == 93 || c == 123 || c == 125 || c == 39 || c == 34 ||
  c == 13 || c == 10

/-- The class of a code unit. -/
def classify (c : Nat) : UnitClass :=
  if isSpecialUnit c then .special
  else if isWhiteSpace c then .blank
  else if isWordUnit c then .word
  else .other

/-- Put a code unit in front of a token list: it joins the first token when both
are of one class other than `special`. -/
def pushUnit (c : Nat) : List JSString → List JSString
  | (d :: token) :: rest =>
    if classify c ≠ .special ∧ classify c = classify d then (c :: d :: token) :: rest
    else [c] :: (d :: token) :: rest
  | rest => [c] :: rest

/-- Runs of white space, single special units, and the text between them cut at
word boundaries. -/
def splitWords (s : JSString) : List JSString := s.foldr pushUnit []

/-- Letters of the basic and extended Latin ranges. -/
def isExtendedLetter (c : Nat) : Bool :=
  (65 ≤ c && c ≤ 90) || (97 ≤ c && c ≤ 122) || (192 ≤ c && c ≤ 710) || (712 ≤ c && c ≤ 727) ||
  (734 ≤ c && c ≤ 767) || (7680 ≤ c && c ≤ 7935)

/-- A non-empty token made of Latin letters only. -/
def isExtendedWord (t : JSString) : Bool := !t.isEmpty && t.all isExtendedLetter

/-- Neighbouring tokens made of Latin letters are one word. -/
def joinExtended : List JSString → List JSString
  | [] => []
  | t :: rest =>
    match joinExtended rest with
    | [] => [t]
    | u :: more =>
      if isExtendedWord t && isExtendedWord u then (t ++ u) :: more else t :: u :: more

/-- Modelled from the spec: the word tokenizer of the package `diff`, whose sources
are not under src/: words, punctuation and runs of white space of a text. -/
def tokenizeWords (s : JSString) : List JSString := joinExtended (splitWords s)

/-- The token holds white space only. -/
def isBlank (t : JSString) : Bool := t.all isWhiteSpace

/-- The comparison of word tokens by `Diff.diffWords`. It is taken from the
documentation of the package `diff`, whose sources are not under src/, and not
from the spec: `diffWords` is documented as ignoring white space (the variant
that does not is `diffWordsWithSpace`), so two tokens of white space are equal
whatever they hold, where the spec's words ask for the exact texts. -/
def wordEquals (left right : JSString) : Bool := left == right || (isBlank left && isBlank right)

/-- Modelled from the spec: `Diff.diffWords` of the package `diff`, whose sources are
not under src/. The spec asks for a word-partitioned sequence of unchanged, added
and removed segments used for highlighting; only the comparison of tokens is
not the spec's but the documented one of the package, `wordEquals`. -/
def diffWords (oldStr newStr : JSString) : List Change :=
  diff wordEquals tokenizeWords oldStr newStr

/-- The old tokens a script consumes. -/
def oldSide : List Op → List JSString
  | [] => []
  | Op.keep old _ :: rest => old :: oldSide rest
  | Op.remove old :: rest => old :: oldSide rest
  | Op.add _ :: rest => oldSide rest

/-- The new tokens a script produces. -/
def newSide : List Op → List JSString
  | [] => []
  | Op.keep _ new :: rest => new :: newSide rest
  | Op.remove _ :: rest => newSide rest
  | Op.add new :: rest => new :: newSide rest

/-- The tokens shown by the unchanged and removed parts: an unchanged part shows
the new token. -/
def shownOld : List Op → List JSString
  | [] => []
  | Op.keep _ new :: rest => new :: shownOld rest
  | Op.remove old :: rest => old :: shownOld rest
  | Op.add _ :: rest => shownOld rest

/-- Every kept pair of tokens is equal for the comparison. -/
def Matched (eq : JSString → JSString → Bool) : List Op → Prop
  | [] => True
  | Op.keep old new :: rest => eq old new = true ∧ Matched eq rest
  | _ :: rest => Matched eq rest

/-- The values of the change objects that are not removed, concatenated. -/
def revisedOf : List Change → JSString
  | [] => []
  | c :: cs => if c.removed.getD false then revisedOf cs else c.value ++ revisedOf cs

/-- The values of the change objects that are not added, concatenated. -/
def originalOf : List Change → JSString
  | [] => []
  | c :: cs => if c.added.getD false then originalOf cs else c.value ++ originalOf cs

end Diff

/-! ### diffService.js -/

/-- An element of `formattedLineDiff` and `formattedWordDiff`. -/
structure DiffPart where
  /-- Field `value`. -/
  value : JSString
  /-- Field `added`. -/
  added : Bool
  /-- Field `removed`. -/
  removed : Bool
  /-- Field `count`. -/
  count : Nat
deriving DecidableEq, Repr

/-- The object returned by `generateDiff`. -/
structure DiffResult where
  /-- Field `lineDiff`. -/
  lineDiff : List DiffPart
  /-- Field `wordDiff`. -/
  wordDiff : List DiffPart
deriving DecidableEq, Repr

/-- The callback of the two `map` calls: `part.added || false` and
`part.removed || false` turn `undefined` into `false`. -/
def formatPart (part : Diff.Change) : DiffPart :=
  { value := part.value
    added := part.added.getD false
    removed := part.removed.getD false
    count := part.count }

/-- The function `generateDiff(originalText, optimizedText)`. -/
def generateDiff (originalText optimizedText : JSString) : DiffResult :=
  let lineDiff := Diff.diffLines originalText optimizedText
  let wordDiff := Diff.diffWords originalText optimizedText
  { lineDiff := lineDiff.map formatPart
    wordDiff := wordDiff.map formatPart }

/-- The object returned by `getDiffStats`. -/
structure DiffStats where
  /-- Field `additions`. -/
  additions : Nat
  /-- Field `deletions`. -/
  deletions : Nat
  /-- Field `unchanged`. -/
  unchanged : Nat
  /-- Field `total`. -/
  total : Nat
deriving DecidableEq, Repr

/-- The expression `(part.value.match(/\n/g) || []).length || 1`. -/
def lineCount (value : JSString) : Nat :=
  if value.count 10 = 0 then 1 else value.count 10

/-- The function `getDiffStats(lineDiff)`; the accumulator holds `additions`,
`deletions` and `unchanged`. -/
def getDiffStats (lineDiff : List DiffPart) : DiffStats :=
  let counts := lineDiff.foldl
    (fun (acc : Nat × Nat × Nat) part =>
      if part.added then (acc.1 + lineCount part.value, acc.2.1, acc.2.2)
      else if part.removed then (acc.1, acc.2.1 + lineCount part.value, acc.2.2)
      else (acc.1, acc.2.1, acc.2.2 + lineCount part.value))
    (0, 0, 0)
  { additions := counts.1
    deletions := counts.2.1
    unchanged := counts.2.2
    total := counts.1 + counts.2.1 + counts.2.2 }

/-- The values of the segments with `removed = false`, concatenated in order. -/
def textWithoutRemoved (parts : List DiffPart) : JSString :=
  ((parts.filter (fun part => !part.removed)).map (fun part => part.value)).flatten

/-- The values of the segments with `added = false`, concatenated in order. -/
def textWithoutAdded (parts : List DiffPart) : JSString :=
  ((parts.filter (fun part => !part.added)).map (fun part => part.value)).flatten

/-- A text without its white space. -/
def stripWhiteSpace (s : JSString) : JSString := s.filter (fun c => !isWhiteSpace c)

/-! ### geminiService.js: the AI client -/

/-- What one `axios.post` to the Gemini endpoint settles to. -/
inductive Outcome where
  /-- A 2xx reply; `text` is `response.data?.candidates?.[0]?.content?.parts?.[0]?.text`,
  `none` when the optional chain yields `undefined`. -/
  | reply (text : Option JSString)
  /-- A rejection carrying `error.response.status` and `error.message`. -/
  | httpError (status : Nat) (message : JSString)
  /-- A rejection without `error.response` (timeout, connection failure). -/
  | networkError (message : JSString)
deriving DecidableEq, Repr

/-- Observable actions of `callGeminiAPI`. -/
inductive Event where
  /-- One `axios.post`; `attempt` is the loop counter. -/
  | request (attempt : Nat)
  /-- One `await delay(ms)`. -/
  | wait (ms : Nat)
deriving DecidableEq, Repr

/-- The error caught by the `catch` block of `callGeminiAPI`. -/
structure CaughtError where
  /-- Value of `error.response?.status`. -/
  status : Option Nat
  /-- Value of `error.message`. -/
  message : JSString
deriving DecidableEq, Repr

/-- Result of the `try` block for one attempt: the returned text, or the
error thrown into the `catch` block. -/
def tryAttempt : Outcome → Except CaughtError JSString
  | .reply (some text) =>
      if text ≠ [] then .ok text
      else .error ⟨none, utf16 "Invalid response structure from Gemini API"⟩
  | .reply none => .error ⟨none, utf16 "Invalid response structure from Gemini API"⟩
  | .httpError status message => .error ⟨some status, message⟩
  | .networkError message => .error ⟨none, message⟩

/-- The message of the error raised on the last attempt. -/
def failedAfter (retries : Nat) (message : JSString) : JSString :=
  utf16 "Gemini API call failed after " ++ numberToString retries ++
    utf16 " attempts: " ++ message

/-- The message of the `throw` that follows the loop. -/
def maxRetriesExceeded : JSString := utf16 "Gemini API call failed: max retries exceeded"

/-- The `for (attempt = 1; attempt <= retries; attempt++)` loop of
`callGeminiAPI`, entered at `attempt` with `remaining = retries + 1 - attempt`
iterations left; `net k` is what the request of attempt `k` settles to.
Returns the actions performed and the value returned or the message thrown. -/
def callGeminiLoop (net : Nat → Outcome) (retries : Nat) :
    Nat → Nat → List Event × Except JSString JSString
  | 0, _ => ([], .error maxRetriesExceeded)
  | remaining + 1, attempt =>
    match tryAttempt (net attempt) with
    | .ok text => ([Event.request attempt], .ok text)
    | .error error =>
      let isRateLimit := error.status == some 429
      let isLastAttempt := attempt == retries
      if isRateLimit && !isLastAttempt then
        let waitTime := 2 ^ attempt * 1000
        let rest := callGeminiLoop net retries remaining (attempt + 1)
        (Event.request attempt :: Event.wait waitTime :: rest.1, rest.2)
      else if isLastAttempt then
        ([Event.request attempt], .error (failedAfter retries error.message))
      else
        let rest := callGeminiLoop net retries remaining (attempt + 1)
        (Event.request attempt :: Event.wait (1000 * attempt) :: rest.1, rest.2)

/-- The function `callGeminiAPI(systemPrompt, userPrompt, retries)`. The reply of
the remote service is not determined by the program, so the prompts do not
appear: `net` ranges over every behaviour of the service. -/
def callGeminiAPI (net : Nat → Outcome) (retries : Nat) : List Event × Except JSString JSString :=
  callGeminiLoop net retries retries 1

/-- Number of requests sent in a run. -/
def countRequests : List Event → Nat
  | [] => 0
  | Event.request _ :: rest => countRequests rest + 1
  | Event.wait _ :: rest => countRequests rest

/-- Milliseconds spent in `delay` in a run. -/
def totalWait : List Event → Nat
  | [] => 0
  | Event.request _ :: rest => totalWait rest
  | Event.wait ms :: rest => ms + totalWait rest

/-- Attempt `j` of a run over `net` ends in the `catch` block. -/
def AttemptFails (net : Nat → Outcome) (j : Nat) : Prop :=
  ∃ error, tryAttempt (net j) = .error error

/-- A service that is rate-limited, then times out, then answers. -/
def sampleFlakyNet (k : Nat) : Outcome :=
  if k = 1 then .httpError 429 (utf16 "Request failed with status code 429")
  else if k = 2 then .networkError (utf16 "timeout of 60000ms exceeded")
  else .reply (some (utf16 "ok"))

/-- A service whose first reply lacks the text field and whose second reply is complete. -/
def sampleMalformedNet (k : Nat) : Outcome :=
  if k = 1 then .reply none else .reply (some (utf16 "ok"))

/-- A service that is always rate-limited. -/
def sampleDownNet (_ : Nat) : Outcome :=
  .httpError 429 (utf16 "Request failed with status code 429")

/-- The default value of the `retries` parameter. -/
def defaultRetries : Nat := 3

/-- The marker that opens the optimized text. -/
def startMarker : JSString := utf16 "---START_OPTIMIZED---"

/-- The marker that closes the optimized text. -/
def endMarker : JSString := utf16 "---END_OPTIMIZED---"

/-- Lines 84-99 of `optimizeResume`: what is returned for the raw response. -/
def extractOptimizedText (response : JSString) : JSString :=
  match indexOf response startMarker, indexOf response endMarker with
  | some startIndex, some endIndex =>
      trim (substring response (startIndex + startMarker.length) endIndex)
  | _, _ => trim response

/-- The function `optimizeResume(jobDescription, baseResumeText)` of geminiService.js.
The prompt built from the two arguments goes out with every request; what the
service replies is `net`. The `catch` block logs and rethrows. -/
def optimizeResume (net : Nat → Outcome) : List Event × Except JSString JSString :=
  match callGeminiAPI net defaultRetries with
  | (events, .ok response) => (events, .ok (extractOptimizedText response))
  | (events, .error message) => (events, .error message)

/-! ### JSON values -/

/-- A number token of a JSON text, denoting `(-1) ^ negative * mantissa * 10 ^ exponent`. -/
structure JsonNumber where
  negative : Bool
  mantissa : Nat
  exponent : Int
deriving DecidableEq, Repr

/-- A value produced by `JSON.parse`. -/
inductive Json where
  | null
  | bool (b : Bool)
  | num (n : JsonNumber)
  | str (s : JSString)
  | arr (items : List Json)
  | obj (members : List (JSString × Json))

/-- The number is `0` or `-0` as an IEEE double: the mantissa is zero, or the
value is at most `2 ^ -1075` and rounds to zero. -/
def JsonNumber.isZero (n : JsonNumber) : Bool :=
  n.mantissa == 0 || (decide (n.exponent < 0) && decide (n.mantissa * 2 ^ 1075 ≤ 10 ^ n.exponent.natAbs))

/-- Skip JSON white space: space, tab, line feed, carriage return. -/
def skipWs (s : JSString) : JSString :=
  s.dropWhile fun c => c == 32 || c == 9 || c == 10 || c == 13

/-- Value of a hexadecimal digit. -/
def hexDigit (c : Nat) : Option Nat :=
  if 48 ≤ c && c ≤ 57 then some (c - 48)
  else if 97 ≤ c && c ≤ 102 then some (c - 87)
  else if 65 ≤ c && c ≤ 70 then some (c - 55)
  else none

/-- Read a JSON string after its opening quote: the decoded code units (in `acc`,
reversed) and the text after the closing quote. -/
def parseString : JSString → JSString → Option (JSString × JSString)
  | [], _ => none
  | 34 :: rest, acc => some (acc.reverse, rest)
  | 92 :: 117 :: a :: b :: c :: d :: rest, acc =>
    match hexDigit a, hexDigit b, hexDigit c, hexDigit d with
    | some a, some b, some c, some d =>
      parseString rest ((a * 4096 + b * 256 + c * 16 + d) :: acc)
    | _, _, _, _ => none
  | 92 :: e :: rest, acc =>
    if e == 34 || e == 92 || e == 47 then parseString rest (e :: acc)
    else if e == 98 then parseString rest (8 :: acc)
    else if e == 102 then parseString rest (12 :: acc)
    else if e == 110 then parseString rest (10 :: acc)
    else if e == 114 then parseString rest (13 :: acc)
    else if e == 116 then parseString rest (9 :: acc)
    else none
  | c :: rest, acc => if c < 32 || c == 92 then none else parseString rest (c :: acc)

/-- Decimal digits. -/
def isDigit (c : Nat) : Bool := 48 ≤ c && c ≤ 57

/-- Append decimal digits to the value `start`. -/
def digitsValue (ds : JSString) (start : Nat) : Nat := ds.foldl (fun v c => v * 10 + (c - 48)) start

/-- Read a JSON number token. -/
def parseNumber (s : JSString) : Option (JsonNumber × JSString) :=
  let (negative, s1) := match s with
    | 45 :: rest => (true, rest)
    | _ => (false, s)
  let intDigits := s1.takeWhile isDigit
  let s2 := s1.dropWhile isDigit
  if intDigits = [] || (intDigits.length > 1 && intDigits.head? == some 48) then none else
  let (fracOk, fracDigits, s3) := match s2 with
    | 46 :: rest => (!(rest.takeWhile isDigit).isEmpty, rest.takeWhile isDigit, rest.dropWhile isDigit)
    | _ => (true, [], s2)
  if !fracOk then none else
  let mantissa := digitsValue fracDigits (digitsValue intDigits 0)
  let finish (expNeg : Bool) (rest : JSString) : Option (JsonNumber × JSString) :=
    let expDigits := rest.takeWhile isDigit
    if expDigits = [] then none else
    let e : Int := digitsValue expDigits 0
    some (⟨negative, mantissa, (if expNeg then -e else e) - fracDigits.length⟩, rest.dropWhile isDigit)
  match s3 with
  | 101 :: 43 :: rest => finish false rest
  | 101 :: 45 :: rest => finish true rest
  | 101 :: rest => finish false rest
  | 69 :: 43 :: rest => finish false rest
  | 69 :: 45 :: rest => finish true rest
  | 69 :: rest => finish false rest
  | _ => some (⟨negative, mantissa, - (fracDigits.length : Int)⟩, s3)

mutual
/-- Read one JSON value; `fuel` bounds the number of nested calls. -/
def parseValue : Nat → JSString → Option (Json × JSString)
  | 0, _ => none
  | fuel + 1, s =>
    match skipWs s with
    | 123 :: rest =>
      match skipWs rest with
      | 125 :: rest1 => some (.obj [], rest1)
      | rest1 => parseMembers fuel rest1 []
    | 91 :: rest =>
      match skipWs rest with
      | 93 :: rest1 => some (.arr [], rest1)
      | rest1 => parseElements fuel rest1 []
    | 34 :: rest =>
      match parseString rest [] with
      | some (str, rest1) => some (.str str, rest1)
      | none => none
    | 116 :: 114 :: 117 :: 101 :: rest => some (.bool true, rest)
    | 102 :: 97 :: 108 :: 115 :: 101 :: rest => some (.bool false, rest)
    | 110 :: 117 :: 108 :: 108 :: rest => some (.null, rest)
    | s1 =>
      match parseNumber s1 with
      | some (n, rest) => some (.num n, rest)
      | none => none
/-- Read the elements of an array after `[`, up to and including `]`. -/
def parseElements : Nat → JSString → List Json → Option (Json × JSString)
  | 0, _, _ => none
  | fuel + 1, s, acc =>
    match parseValue fuel s with
    | none => none
    | some (v, rest) =>
      match skipWs rest with
      | 44 :: rest1 => parseElements fuel rest1 (v :: acc)
      | 93 :: rest1 => some (.arr (v :: acc).reverse, rest1)
      | _ => none
/-- Read the members of an object after `{`, up to and including `}`. -/
def parseMembers : Nat → JSString → List (JSString × Json) → Option (Json × JSString)
  | 0, _, _ => none
  | fuel + 1, s, acc =>
    match skipWs s with
    | 34 :: rest =>
      match parseString rest [] with
      | none => none
      | some (key, rest1) =>
        match skipWs rest1 with
        | 58 :: rest2 =>
          match parseValue fuel rest2 with
          | none => none
          | some (v, rest3) =>
            match skipWs rest3 with
            | 44 :: rest4 => parseMembers fuel rest4 ((key, v) :: acc)
            | 125 :: rest4 => some (.obj ((key, v) :: acc).reverse, rest4)
            | _ => none
        | _ => none
    | _ => none
end

/-- The built-in `JSON.parse` on a string, after ECMA-404; `none` stands for the
`SyntaxError` it throws. It belongs to the runtime, not to the repository, and
is used here to evaluate `summarizeChanges` on concrete responses. -/
def jsonParse (text : JSString) : Option Json :=
  match parseValue (2 * text.length + 2) text with
  | some (v, rest) => if skipWs rest = [] then some v else none
  | none => none

/-- Own property `key` of an object built from `members`: the last member of that
name, `none` standing for `undefined`. -/
def Json.member (key : JSString) : List (JSString × Json) → Option Json
  | [] => none
  | (k, v) :: rest =>
    match Json.member key rest with
    | some later => some later
    | none => if k = key then some v else none

/-- The property read `parsed.key`: `undefined` on a value without that property,
a `TypeError` (here `.error ()`) on `null`. -/
def Json.get (parsed : Json) (key : JSString) : Except Unit (Option Json) :=
  match parsed with
  | .null => .error ()
  | .obj members => .ok (Json.member key members)
  | _ => .ok none

/-- The conversion `ToBoolean`. -/
def Json.truthy : Json → Bool
  | .null => false
  | .bool b => b
  | .num n => !n.isZero
  | .str s => !s.isEmpty
  | .arr _ => true
  | .obj _ => true

/-- The expression `value || fallback`, `none` standing for `undefined`. -/
def orDefault (value : Option Json) (fallback : Json) : Json :=
  match value with
  | some v => if v.truthy then v else fallback
  | none => fallback

/-! ### geminiService.js: the change summary -/

/-- The object returned by `summarizeChanges`. -/
structure ChangeSummary where
  /-- Field `headline`. -/
  headline : Json
  /-- Field `summary`. -/
  summary : Json
  /-- Field `keywordsAdded`. -/
  keywordsAdded : Json

/-- The match of the regular expression `\{[\s\S]*\}`: from the first `{` through
the last `}` that follows it. -/
def matchBraces (response : JSString) : Option JSString :=
  match ((response.dropWhile (· != 123)).reverse.dropWhile (· != 125)).reverse with
  | [] => none
  | span => some span

/-- The default headline. -/
def defaultHeadline : JSString := utf16 "Resume optimized for job requirements"

/-- The default summary. -/
def defaultSummary : JSString :=
  utf16 "Enhanced resume with relevant keywords and improved phrasing."

/-- The fallback response of `summarizeChanges`. -/
def fallbackSummary (response : JSString) : ChangeSummary :=
  { headline := .str defaultHeadline
    summary := .str (substring response 0 200)
    keywordsAdded := .arr [] }

/-- Lines 114-135 of `summarizeChanges`: what is returned for the raw response.
`parse` is `JSON.parse`, `none` standing for the exception it throws. -/
def parseChangeSummary (parse : JSString → Option Json) (response : JSString) : ChangeSummary :=
  match matchBraces response with
  | none => fallbackSummary response
  | some span =>
    match parse span with
    | none => fallbackSummary response
    | some parsed =>
      match parsed.get (utf16 "headline"), parsed.get (utf16 "summary"),
        parsed.get (utf16 "keywordsAdded") with
      | .ok headline, .ok summary, .ok keywordsAdded =>
        { headline := orDefault headline (.str defaultHeadline)
          summary := orDefault summary (.str defaultSummary)
          keywordsAdded := orDefault keywordsAdded (.arr []) }
      | _, _, _ => fallbackSummary response

/-- The function `summarizeChanges(baseResumeText, optimizedResumeText)` of
geminiService.js. The prompt built from the two arguments goes out with every
request; what the service replies is `net`. The outer `catch` block logs and
rethrows. -/
def summarizeChanges (parse : JSString → Option Json) (net : Nat → Outcome) :
    List Event × Except JSString ChangeSummary :=
  match callGeminiAPI net defaultRetries with
  | (events, .ok response) => (events, .ok (parseChangeSummary parse response))
  | (events, .error message) => (events, .error message)

/-! ### The document store -/

/-- An `ObjectId`. -/
abbrev Id := Nat

/-- An element of `Resume.files`. -/
structure UploadedFile where
  /-- Field `filename`. -/
  filename : JSString
  /-- Field `path`. -/
  path : JSString
  /-- Field `mimeType`. -/
  mimeType : JSString
  /-- Field `uploadedAt`. -/
  uploadedAt : Nat

/-- A document of the model `Resume`. The value assigned to `keywordsAdded` is kept
as assigned; the casts of the schema are not modelled. -/
structure Resume where
  /-- Field `_id`. -/
  id : Id
  /-- Field `ownerJob`. -/
  ownerJob : Option Id
  /-- Field `baseResumeText`. -/
  baseResumeText : Option JSString
  /-- Field `optimizedResumeText`. -/
  optimizedResumeText : Option JSString
  /-- Field `files`. -/
  files : List UploadedFile
  /-- Field `keywordsAdded`. -/
  keywordsAdded : Json

/-- The values of `Job.status`. -/
inductive JobStatus where
  /-- The value `Pending Optimization`. -/
  | pendingOptimization
  /-- The value `Optimized`. -/
  | optimized
deriving DecidableEq, Repr

/-- A document of the model `Job`. The value assigned to `changesSummary` is kept as
assigned; the casts of the schema are not modelled. -/
structure Job where
  /-- Field `_id`. -/
  id : Id
  /-- Field `clientName`. -/
  clientName : JSString
  /-- Field `companyName`. -/
  companyName : JSString
  /-- Field `position`. -/
  position : JSString
  /-- Field `jobDescription`. -/
  jobDescription : JSString
  /-- Field `jobApplicationLink`. -/
  jobApplicationLink : Option JSString
  /-- Field `status`. -/
  status : JobStatus
  /-- Field `baseResume`. -/
  baseResume : Option Id
  /-- Field `latestOptimizedResume`. -/
  latestOptimizedResume : Option Id
  /-- Field `optimizedOn`. -/
  optimizedOn : Option Nat
  /-- Field `changesSummary`. -/
  changesSummary : Option Json

/-- The two collections, and the next `ObjectId` to be generated. -/
structure Store where
  /-- The collection of jobs. -/
  jobs : List Job
  /-- The collection of resumes. -/
  resumes : List Resume
  /-- The next identifier that `new Resume(...)` or `new Job(...)` receives. -/
  nextId : Id

/-- The query `Job.findById(id)`. -/
def Store.findJob (st : Store) (id : Id) : Option Job := st.jobs.find? (fun job => job.id == id)

/-- The query `Resume.findById(id)`. -/
def Store.findResume (st : Store) (id : Id) : Option Resume :=
  st.resumes.find? (fun resume => resume.id == id)

/-- The call `resume.save()`: the stored document of that id is replaced, a new
document is inserted. -/
def Store.saveResume (st : Store) (resume : Resume) : Store :=
  if st.resumes.any (fun r => r.id == resume.id) then
    { st with resumes := st.resumes.map (fun r => if r.id == resume.id then resume else r) }
  else { st with resumes := st.resumes ++ [resume] }

/-- The call `job.save()` on a document read from the store. -/
def Store.saveJob (st : Store) (job : Job) : Store :=
  { st with jobs := st.jobs.map (fun j => if j.id == job.id then job else j) }

/-! ### optimizeController.js -/

namespace optimizeController

/-- An identifier in a request body. -/
inductive RequestId where
  /-- The field is missing or falsy. -/
  | absent
  /-- The field is no `ObjectId`: `findById` throws a cast error with this message. -/
  | malformed (message : JSString)
  /-- The field is the text of an `ObjectId`. -/
  | valid (id : Id)

/-- The request: `req.body.jobId`, `req.body.resumeId`, and whether `req.io` is set. -/
structure Request where
  /-- Field `jobId` of the body. -/
  jobId : RequestId
  /-- Field `resumeId` of the body. -/
  resumeId : RequestId
  /-- Whether `req.io` is set. -/
  io : Bool

/-- What the handler does not control: the replies of the AI service to the
rewrite call and to the summary call, `JSON.parse`, and the clock. -/
structure Env where
  /-- Replies to the requests of `geminiService.optimizeResume`. -/
  rewriteNet : Nat → Outcome
  /-- Replies to the requests of `geminiService.summarizeChanges`. -/
  summaryNet : Nat → Outcome
  /-- The built-in `JSON.parse`. -/
  parse : JSString → Option Json
  /-- The value of `new Date()`. -/
  now : Nat

/-- The field `updatedJob` of the answer. -/
structure UpdatedJob where
  /-- Field `status`. -/
  status : JobStatus
  /-- Field `optimizedOn`. -/
  optimizedOn : Option Nat
  /-- Field `changesSummary`. -/
  changesSummary : Option Json

/-- The body of the answer to a successful call. -/
structure OptimizeResult where
  /-- Field `jobId`. -/
  jobId : Id
  /-- Field `optimizedResumeText`. -/
  optimizedResumeText : JSString
  /-- Field `changesSummary`. -/
  changesSummary : ChangeSummary
  /-- Field `updatedJob`. -/
  updatedJob : UpdatedJob
  /-- Field `diff`, without its statistics. -/
  diff : DiffResult
  /-- Field `diff.stats`. -/
  stats : DiffStats

/-- The answer sent with `res.status(...).json(...)` or `res.json(...)`. -/
inductive Response where
  /-- An error answer: HTTP status, `error.code`, `error.message`, `error.details`. -/
  | error (status : Nat) (code : JSString) (message : JSString) (details : Option JSString)
  /-- The answer of a successful call, HTTP 200. -/
  | ok (result : OptimizeResult)

/-- The event `job:updated` with the populated job. -/
structure Notification where
  /-- The job. -/
  job : Job
  /-- The populated `baseResume`. -/
  baseResume : Option Resume
  /-- The populated `latestOptimizedResume`. -/
  latestOptimizedResume : Option Resume

/-- What one call of the handler does. -/
structure HandlerResult where
  /-- The answer sent. -/
  response : Response
  /-- The store after the call. -/
  store : Store
  /-- The requests sent to the AI service and the waits between them. -/
  aiEvents : List Event
  /-- The events emitted on `req.io`. -/
  emitted : List Notification

/-- The `catch` block of `optimizeResume`. -/
def handleError (st : Store) (aiEvents : List Event) (message : JSString) : HandlerResult :=
  if (indexOf message (utf16 "Gemini API")).isSome then
    { response := .error 503 (utf16 "AI_SERVICE_ERROR")
        (utf16 "AI service temporarily unavailable") (some message)
      store := st, aiEvents := aiEvents, emitted := [] }
  else
    { response := .error 500 (utf16 "OPTIMIZE_ERROR")
        (utf16 "Failed to optimize resume") (some message)
      store := st, aiEvents := aiEvents, emitted := [] }

/-- Lines 69-141 of `optimizeResume`: the two AI calls, the writes and the answer,
for the job and the base text resolved before. `populatedBase` is the populated
`job.baseResume`, `resumeId` the identifier of the body when it is given. -/
def optimizeAndPersist (env : Env) (io : Bool) (st : Store) (job : Job)
    (populatedBase : Option Resume) (resumeId : Option Id) (baseResumeText : JSString) :
    HandlerResult :=
  match ResumeOptimizer.optimizeResume env.rewriteNet with
  | (events1, .error message) => handleError st events1 message
  | (events1, .ok optimizedResumeText) =>
    match summarizeChanges env.parse env.summaryNet with
    | (events2, .error message) => handleError st (events1 ++ events2) message
    | (events2, .ok changesSummary) =>
      let optimizedResume : Resume :=
        match job.latestOptimizedResume.bind st.findResume with
        | some existing =>
          { existing with
            optimizedResumeText := some optimizedResumeText
            keywordsAdded := changesSummary.keywordsAdded }
        | none =>
          { id := st.nextId
            ownerJob := some job.id
            baseResumeText := some baseResumeText
            optimizedResumeText := some optimizedResumeText
            files := []
            keywordsAdded := changesSummary.keywordsAdded }
      let st1 : Store :=
        match job.latestOptimizedResume.bind st.findResume with
        | some _ => st.saveResume optimizedResume
        | none => { st.saveResume optimizedResume with nextId := st.nextId + 1 }
      let updated : Job :=
        { job with
          status := .optimized
          optimizedOn := some env.now
          changesSummary := some changesSummary.headline
          latestOptimizedResume := some optimizedResume.id }
      let saved : Job :=
        match resumeId with
        | some id =>
          if some id ≠ populatedBase.map (fun resume => resume.id) then
            { updated with baseResume := some id }
          else updated
        | none => updated
      let st2 := st1.saveJob saved
      let emitted : List Notification :=
        if io then
          match st2.findJob saved.id with
          | some populated =>
            [{ job := populated
               baseResume := populated.baseResume.bind st2.findResume
               latestOptimizedResume := populated.latestOptimizedResume.bind st2.findResume }]
          | none => []
        else []
      let diff := generateDiff baseResumeText optimizedResumeText
      { response := .ok
          { jobId := saved.id
            optimizedResumeText := optimizedResumeText
            changesSummary := changesSummary
            updatedJob :=
              { status := saved.status
                optimizedOn := saved.optimizedOn
                changesSummary := saved.changesSummary }
            diff := diff
            stats := getDiffStats diff.lineDiff }
        store := st2
        aiEvents := events1 ++ events2
        emitted := emitted }

/-- Lines 58-67 of `optimizeResume`: the check of the base text, then the rest. -/
def checkTextAndOptimize (env : Env) (io : Bool) (st : Store) (job : Job)
    (populatedBase : Option Resume) (resumeId : Option Id) (baseResume : Resume) :
    HandlerResult :=
  match baseResume.baseResumeText with
  | none =>
    { response := .error 400 (utf16 "EMPTY_RESUME_ERROR") (utf16 "Resume has no text content") none
      store := st, aiEvents := [], emitted := [] }
  | some baseResumeText =>
    if baseResumeText.isEmpty || (trim baseResumeText).length == 0 then
      { response := .error 400 (utf16 "EMPTY_RESUME_ERROR")
          (utf16 "Resume has no text content") none
        store := st, aiEvents := [], emitted := [] }
    else optimizeAndPersist env io st job populatedBase resumeId baseResumeText

/-- The handler `exports.optimizeResume` of optimizeController.js, for the single-job
route. -/
def optimizeResume (env : Env) (req : Request) (st : Store) : HandlerResult :=
  match req.jobId with
  | .absent =>
    { response := .error 400 (utf16 "VALIDATION_ERROR") (utf16 "Missing jobId") none
      store := st, aiEvents := [], emitted := [] }
  | .malformed message => handleError st [] message
  | .valid jobId =>
    match st.findJob jobId with
    | none =>
      { response := .error 404 (utf16 "JOB_NOT_FOUND") (utf16 "Job not found") none
        store := st, aiEvents := [], emitted := [] }
    | some job =>
      let populatedBase := job.baseResume.bind st.findResume
      match req.resumeId with
      | .malformed message => handleError st [] message
      | .valid resumeId =>
        match st.findResume resumeId with
        | none =>
          { response := .error 404 (utf16 "RESUME_NOT_FOUND") (utf16 "Resume not found") none
            store := st, aiEvents := [], emitted := [] }
        | some baseResume =>
          checkTextAndOptimize env req.io st job populatedBase (some resumeId) baseResume
      | .absent =>
        match populatedBase with
        | some baseResume => checkTextAndOptimize env req.io st job populatedBase none baseResume
        | none =>
          { response := .error 400 (utf16 "NO_RESUME_ERROR")
              (utf16 "No resume associated with job")
              (some (utf16 "Job must have a baseResume or provide resumeId"))
            store := st, aiEvents := [], emitted := [] }

/-- A store with one pending job and its base resume. -/
def sampleStore : Store :=
  { jobs :=
      [{ id := 1
         clientName := utf16 "Jane Doe"
         companyName := utf16 "Acme"
         position := utf16 "Data Analyst"
         jobDescription := utf16 "SQL and ETL"
         jobApplicationLink := none
         status := .pendingOptimization
         baseResume := some 2
         latestOptimizedResume := none
         optimizedOn := none
         changesSummary := none }]
    resumes :=
      [{ id := 2
         ownerJob := none
         baseResumeText := some (utf16 "Jane Doe Resume")
         optimizedResumeText := none
         files := []
         keywordsAdded := .arr [] }]
    nextId := 3 }

/-- The AI service answers the rewrite call and is rate-limited during the
summary call. -/
def sampleSummaryDown : Env :=
  { rewriteNet := fun _ => .reply (some (utf16 "---START_OPTIMIZED---Jane---END_OPTIMIZED---"))
    summaryNet := sampleDownNet
    parse := jsonParse
    now := 1000 }

end optimizeController

namespace optimizeController

/-- The HTTP status of an answer. -/
def Response.status : Response → Nat
  | .error status _ _ _ => status
  | .ok _ => 200

/-- The AI service answers both calls: the rewrite with the text `Jane` between
the markers, the summary with a JSON object. -/
def sampleGoodEnv : Env :=
  { rewriteNet := fun _ => .reply (some (utf16 "---START_OPTIMIZED---Jane---END_OPTIMIZED---"))
    summaryNet := fun _ => .reply (some (utf16
      "\x7b\"headline\":\"Added SQL keywords\",\"summary\":\"x\",\"keywordsAdded\":[\"SQL\",\"ETL\"]\x7d"))
    parse := jsonParse
    now := 1000 }

/-- A store with one job that has no base resume. -/
def sampleStoreWithoutResume : Store :=
  { jobs :=
      [{ id := 1
         clientName := utf16 "Jane Doe"
         companyName := utf16 "Acme"
         position := utf16 "Data Analyst"
         jobDescription := utf16 "SQL and ETL"
         jobApplicationLink := none
         status := .pendingOptimization
         baseResume := none
         latestOptimizedResume := none
         optimizedOn := none
         changesSummary := none }]
    resumes := []
    nextId := 2 }

/-- A store with one job whose base resume holds blanks only. -/
def sampleStoreBlankResume : Store :=
  { jobs :=
      [{ id := 1
         clientName := utf16 "Jane Doe"
         companyName := utf16 "Acme"
         position := utf16 "Data Analyst"
         jobDescription := utf16 "SQL and ETL"
         jobApplicationLink := none
         status := .pendingOptimization
         baseResume := some 2
         latestOptimizedResume := none
         optimizedOn := none
         changesSummary := none }]
    resumes :=
      [{ id := 2
         ownerJob := none
         baseResumeText := some (utf16 "   ")
         optimizedResumeText := none
         files := []
         keywordsAdded := .arr [] }]
    nextId := 3 }

/-- The store after a first optimization of the job of `sampleStore`: resume 3 is
the optimized resume of job 1. -/
def sampleOptimizedStore : Store :=
  { jobs :=
      [{ id := 1
         clientName := utf16 "Jane Doe"
         companyName := utf16 "Acme"
         position := utf16 "Data Analyst"
         jobDescription := utf16 "SQL and ETL"
         jobApplicationLink := none
         status := .optimized
         baseResume := some 2
         latestOptimizedResume := some 3
         optimizedOn := some 900
         changesSummary := some (.str (utf16 "First pass")) }]
    resumes :=
      [{ id := 2
         ownerJob := none
         baseResumeText := some (utf16 "Jane Doe Resume")
         optimizedResumeText := none
         files := []
         keywordsAdded := .arr [] },
       { id := 3
         ownerJob := some 1
         baseResumeText := some (utf16 "Jane Doe Resume")
         optimizedResumeText := some (utf16 "Jane Doe, first pass")
         files := []
         keywordsAdded := .arr [.str (utf16 "Excel")] }]
    nextId := 4 }

end optimizeController

namespace optimizeController

/-- The document `optimizedResume` of `optimizeAndPersist` before it is saved: the
resume that `job.latestOptimizedResume` resolves to, with the two fields
assigned, or a new resume. -/
def optimizedResumeOf (st : Store) (job : Job) (baseResumeText optimizedResumeText : JSString)
    (changesSummary : ChangeSummary) : Resume :=
  match job.latestOptimizedResume.bind st.findResume with
  | some existing =>
    { existing with
      optimizedResumeText := some optimizedResumeText
      keywordsAdded := changesSummary.keywordsAdded }
  | none =>
    { id := st.nextId
      ownerJob := some job.id
      baseResumeText := some baseResumeText
      optimizedResumeText := some optimizedResumeText
      files := []
      keywordsAdded := changesSummary.keywordsAdded }

/-- The store of `optimizeAndPersist` after `optimizedResume.save()`. -/
def storeAfterResume (st : Store) (job : Job) (optimizedResume : Resume) : Store :=
  match job.latestOptimizedResume.bind st.findResume with
  | some _ => st.saveResume optimizedResume
  | none => { st.saveResume optimizedResume with nextId := st.nextId + 1 }

/-- The document `job` of `optimizeAndPersist` when `job.save()` is called. -/
def savedJobOf (env : Env) (job : Job) (populatedBase : Option Resume) (resumeId : Option Id)
    (changesSummary : ChangeSummary) (optimizedResume : Resume) : Job :=
  let updated : Job :=
    { job with
      status := .optimized
      optimizedOn := some env.now
      changesSummary := some changesSummary.headline
      latestOptimizedResume := some optimizedResume.id }
  match resumeId with
  | some id =>
    if some id ≠ populatedBase.map (fun resume => resume.id) then
      { updated with baseResume := some id }
    else updated
  | none => updated

end optimizeController

namespace optimizeController

/-- The store after the job of `sampleOptimizedStore` has been optimized again with
`resumeId = 3`: resume 3 is both the base resume and the optimized resume of
job 1. -/
def sampleAliasedStore : Store :=
  { sampleOptimizedStore with
    jobs := sampleOptimizedStore.jobs.map (fun job => { job with baseResume := some 3 }) }

end optimizeController

namespace optimizeController

/-- Failures of the storage and notification collaborators while one job of a batch
is processed: `some message` where the awaited call rejects with that message. -/
structure Faults where
  /-- The query `Job.findById(jobId).populate('baseResume')`. -/
  findJob : Option JSString
  /-- The call `optimizedResume.save()`. -/
  saveResume : Option JSString
  /-- The call `job.save()`. -/
  saveJob : Option JSString
  /-- The query for the populated job and `req.io.emit`. -/
  notify : Option JSString

/-- No call of the collaborators fails. -/
def noFaults : Faults :=
  { findJob := none, saveResume := none, saveJob := none, notify := none }

/-- What `batchOptimize` does not control while it processes one job. -/
structure JobEnv where
  /-- The AI service, `JSON.parse` and the clock. -/
  env : Env
  /-- The failures of storage and notification. -/
  faults : Faults

/-- Observable actions of `batchOptimize`. -/
inductive BatchEvent where
  /-- A request to the AI service or a wait of `callGeminiAPI`. -/
  | ai (event : Event)
  /-- The pause `await new Promise((resolve) => setTimeout(resolve, ms))` of the loop. -/
  | pause (ms : Nat)

/-- An element of `results`. -/
structure BatchSuccess where
  /-- Field `jobId`. -/
  jobId : RequestId
  /-- Field `status`. -/
  status : JSString

/-- An element of `errors`. -/
structure BatchFailure where
  /-- Field `jobId`. -/
  jobId : RequestId
  /-- Field `error`. -/
  error : JSString

/-- The variables of the loop of `batchOptimize`, with the store and what has been
observed so far. -/
structure BatchState where
  /-- The store. -/
  store : Store
  /-- The array `results`. -/
  results : List BatchSuccess
  /-- The array `errors`. -/
  errors : List BatchFailure
  /-- The requests, waits and pauses so far. -/
  trace : List BatchEvent
  /-- The events emitted on `req.io` so far. -/
  emitted : List Notification

/-- The statement `errors.push(...)` followed by `continue`, and the `catch` block of
the loop body. -/
def recordError (jobId : RequestId) (message : JSString) (s : BatchState) : BatchState :=
  { s with errors := s.errors ++ [{ jobId := jobId, error := message }] }

/-- Lines 200-235 of `batchOptimize`: the two AI calls, the writes, the entry in
`results`, the notification and the pause, for a job with a base text. -/
def batchPersist (io : Bool) (jenv : JobEnv) (jobId : RequestId) (job : Job)
    (baseResumeText : JSString) (s : BatchState) : BatchState :=
  match ResumeOptimizer.optimizeResume jenv.env.rewriteNet with
  | (events1, .error message) =>
    recordError jobId message { s with trace := s.trace ++ events1.map BatchEvent.ai }
  | (events1, .ok optimizedResumeText) =>
    match summarizeChanges jenv.env.parse jenv.env.summaryNet with
    | (events2, .error message) =>
      recordError jobId message
        { s with trace := s.trace ++ (events1 ++ events2).map BatchEvent.ai }
    | (events2, .ok changesSummary) =>
      let s1 : BatchState := { s with trace := s.trace ++ (events1 ++ events2).map BatchEvent.ai }
      let optimizedResume : Resume :=
        { id := s.store.nextId
          ownerJob := some job.id
          baseResumeText := some baseResumeText
          optimizedResumeText := some optimizedResumeText
          files := []
          keywordsAdded := changesSummary.keywordsAdded }
      match jenv.faults.saveResume with
      | some message => recordError jobId message s1
      | none =>
        let st1 : Store := { s.store.saveResume optimizedResume with nextId := s.store.nextId + 1 }
        let saved : Job :=
          { job with
            status := .optimized
            optimizedOn := some jenv.env.now
            changesSummary := some changesSummary.headline
            latestOptimizedResume := some optimizedResume.id }
        match jenv.faults.saveJob with
        | some message => recordError jobId message { s1 with store := st1 }
        | none =>
          let st2 := st1.saveJob saved
          let s2 : BatchState :=
            { s1 with
              store := st2
              results := s1.results ++ [{ jobId := jobId, status := utf16 "success" }] }
          if io then
            match jenv.faults.notify with
            | some message => recordError jobId message s2
            | none =>
              let emitted : List Notification :=
                match st2.findJob saved.id with
                | some populated =>
                  [{ job := populated
                     baseResume := populated.baseResume.bind st2.findResume
                     latestOptimizedResume :=
                       populated.latestOptimizedResume.bind st2.findResume }]
                | none => []
              { s2 with
                emitted := s2.emitted ++ emitted
                trace := s2.trace ++ [BatchEvent.pause 2000] }
          else { s2 with trace := s2.trace ++ [BatchEvent.pause 2000] }

/-- The body of the loop of `batchOptimize` for one element of `jobIds`. A `null`
element finds no job, an element that is no `ObjectId` makes `findById` throw. -/
def processJob (io : Bool) (jenv : JobEnv) (jobId : RequestId) (s : BatchState) : BatchState :=
  match jobId with
  | .malformed message => recordError jobId message s
  | .absent =>
    match jenv.faults.findJob with
    | some message => recordError jobId message s
    | none => recordError jobId (utf16 "Job not found") s
  | .valid id =>
    match jenv.faults.findJob with
    | some message => recordError jobId message s
    | none =>
      match s.store.findJob id with
      | none => recordError jobId (utf16 "Job not found") s
      | some job =>
        match (job.baseResume.bind s.store.findResume).bind
          (fun resume => resume.baseResumeText) with
        | none => recordError jobId (utf16 "No resume text available") s
        | some baseResumeText =>
          if baseResumeText.isEmpty then recordError jobId (utf16 "No resume text available") s
          else batchPersist io jenv jobId job baseResumeText s

/-- The loop `for (const jobId of jobIds)`; `envs i` is the environment of the
element at position `i`. -/
def batchLoop (io : Bool) (envs : Nat → JobEnv) : List RequestId → Nat → BatchState → BatchState
  | [], _, s => s
  | jobId :: rest, i, s => batchLoop io envs rest (i + 1) (processJob io (envs i) jobId s)

/-- The request of the batch route: `req.body.jobIds`, `none` when it is no array,
and whether `req.io` is set. -/
structure BatchRequest where
  /-- Field `jobIds` of the body. -/
  jobIds : Option (List RequestId)
  /-- Whether `req.io` is set. -/
  io : Bool

/-- The field `summary` of the answer. -/
structure BatchSummary where
  /-- Field `total`. -/
  total : Nat
  /-- Field `successful`. -/
  successful : Nat
  /-- Field `failed`. -/
  failed : Nat
deriving DecidableEq, Repr

/-- The body of the answer of `batchOptimize` after the loop. -/
structure BatchPayload where
  /-- Field `message`. -/
  message : JSString
  /-- Field `results`. -/
  results : List BatchSuccess
  /-- Field `errors`. -/
  errors : List BatchFailure
  /-- Field `summary`. -/
  summary : BatchSummary

/-- The answer of `batchOptimize`. -/
inductive BatchResponse where
  /-- An error answer: HTTP status, `error.code`, `error.message`. -/
  | error (status : Nat) (code : JSString) (message : JSString)
  /-- The answer sent with `res.json` after the loop, HTTP 200. -/
  | ok (payload : BatchPayload)

/-- What one call of `batchOptimize` does. -/
structure BatchResult where
  /-- The answer sent. -/
  response : BatchResponse
  /-- The store after the call. -/
  store : Store
  /-- The requests, waits and pauses of the call. -/
  trace : List BatchEvent
  /-- The events emitted on `req.io`. -/
  emitted : List Notification

/-- The answer to a body whose `jobIds` is no array or is empty. -/
def batchRejected (st : Store) : BatchResult :=
  { response := .error 400 (utf16 "VALIDATION_ERROR") (utf16 "jobIds must be a non-empty array")
    store := st, trace := [], emitted := [] }

/-- The handler `exports.batchOptimize` of optimizeController.js. -/
def batchOptimize (envs : Nat → JobEnv) (req : BatchRequest) (st : Store) : BatchResult :=
  match req.jobIds with
  | none => batchRejected st
  | some [] => batchRejected st
  | some (jobId :: rest) =>
    let final := batchLoop req.io envs (jobId :: rest) 0
      { store := st, results := [], errors := [], trace := [], emitted := [] }
    { response := .ok
        { message := utf16 "Batch optimization completed"
          results := final.results
          errors := final.errors
          summary :=
            { total := (jobId :: rest).length
              successful := final.results.length
              failed := final.errors.length } }
      store := final.store
      trace := final.trace
      emitted := final.emitted }

/-- Number of pauses of the loop in a run. -/
def countPauses : List BatchEvent → Nat
  | [] => 0
  | BatchEvent.pause _ :: rest => countPauses rest + 1
  | BatchEvent.ai _ :: rest => countPauses rest

/-- Every job of the batch meets the same environment, without failures of storage
or notification. -/
def sampleBatchEnv (_ : Nat) : JobEnv := { env := sampleGoodEnv, faults := noFaults }

/-- The query for the populated job fails after `job.save()`. -/
def sampleNotifyDown (_ : Nat) : JobEnv :=
  { env := sampleGoodEnv
    faults := { noFaults with notify := some (utf16 "connection lost") } }

/-- A store with the jobs 1 and 3, each with the base resume 2. -/
def sampleTwoJobs : Store :=
  { jobs := sampleStore.jobs ++ sampleStore.jobs.map (fun job => { job with id := 3 })
    resumes := sampleStore.resumes
    nextId := 4 }

end optimizeController

namespace optimizeController

/-- The payload of an answer sent after the loop. -/
def BatchResponse.payload? : BatchResponse → Option BatchPayload
  | .ok payload => some payload
  | .error _ _ _ => none

end optimizeController

/-! ### jobController.js -/

namespace jobController

/-- The answer of a handler of jobController.js; `error.details` and the events
emitted on `req.io` are not recorded. -/
inductive Response where
  /-- An error answer: HTTP status, `error.code`, `error.message`. -/
  | error (status : Nat) (code : JSString) (message : JSString)
  /-- The answer that carries the job, with its HTTP status. -/
  | job (status : Nat) (job : Job)
  /-- The answer of `deleteJob`. -/
  | deleted (jobId : Id)

/-- What one call of a handler does. -/
structure Result where
  /-- The answer sent. -/
  response : Response
  /-- The store after the call. -/
  store : Store

/-- The fields that `createJob` reads from the body; `none` stands for a field that
is missing. -/
structure CreateBody where
  /-- Field `clientName`. -/
  clientName : Option JSString
  /-- Field `companyName`. -/
  companyName : Option JSString
  /-- Field `position`. -/
  position : Option JSString
  /-- Field `jobDescription`. -/
  jobDescription : Option JSString
  /-- Field `jobApplicationLink`. -/
  jobApplicationLink : Option JSString
  /-- Field `baseResumeId`. -/
  baseResumeId : optimizeController.RequestId

/-- The test `!field` on a field of the body. -/
def isMissing (field : Option JSString) : Bool :=
  match field with
  | none => true
  | some text => text.isEmpty

/-- The handler `exports.createJob`. The schema trims `clientName`, `companyName`,
`position` and `jobApplicationLink`, and `job.save()` rejects a required field
that is empty after the trim. -/
def createJob (body : CreateBody) (st : Store) : Result :=
  if isMissing body.clientName || isMissing body.companyName || isMissing body.position ||
      isMissing body.jobDescription then
    { response := .error 400 (utf16 "VALIDATION_ERROR") (utf16 "Missing required fields")
      store := st }
  else
    let insert : Result :=
      let job : Job :=
        { id := st.nextId
          clientName := trim (body.clientName.getD [])
          companyName := trim (body.companyName.getD [])
          position := trim (body.position.getD [])
          jobDescription := body.jobDescription.getD []
          jobApplicationLink := body.jobApplicationLink.map trim
          status := .pendingOptimization
          baseResume :=
            match body.baseResumeId with
            | .valid id => some id
            | _ => none
          latestOptimizedResume := none
          optimizedOn := none
          changesSummary := none }
      if job.clientName.isEmpty || job.companyName.isEmpty || job.position.isEmpty then
        { response := .error 500 (utf16 "CREATE_JOB_ERROR") (utf16 "Failed to create job")
          store := st }
      else
        { response := .job 201 job
          store := { st with jobs := st.jobs ++ [job], nextId := st.nextId + 1 } }
    match body.baseResumeId with
    | .absent => insert
    | .malformed _ =>
      { response := .error 500 (utf16 "CREATE_JOB_ERROR") (utf16 "Failed to create job")
        store := st }
    | .valid id =>
      match st.findResume id with
      | none =>
        { response := .error 404 (utf16 "RESUME_NOT_FOUND") (utf16 "Base resume not found")
          store := st }
      | some _ => insert

/-- The statement `delete updates.key`. -/
def deleteKey (key : JSString) (members : List (JSString × Json)) : List (JSString × Json) :=
  members.filter (fun member => member.1 != key)

/-- The text of an `ObjectId`: 24 hexadecimal digits. -/
def objectIdOfString (text : JSString) : Option Id :=
  if text.length = 24 then
    text.foldl (fun acc c => acc.bind (fun n => (hexDigit c).map (fun d => n * 16 + d))) (some 0)
  else none

/-- What the schema of `Job` makes of one assignment of an update. -/
inductive Cast where
  /-- The path is not in the schema: the assignment is dropped. -/
  | ignored
  /-- The value has no cast to the type of the path, or a validator fails. -/
  | rejected
  /-- An assignment that is outside this model. -/
  | unmodelled
  /-- The assignment, as a change of the stored job. -/
  | assign (change : Job → Job)

/-- The cast and the validation of the assignment `key: value` by the schema of
models/Job.js, for values that are strings or `null`. -/
def castAssignment (key : JSString) (value : Json) : Cast :=
  if key = utf16 "clientName" then
    match value with
    | .str text => if (trim text).isEmpty then .rejected
        else .assign (fun job => { job with clientName := trim text })
    | .null => .rejected
    | _ => .unmodelled
  else if key = utf16 "companyName" then
    match value with
    | .str text => if (trim text).isEmpty then .rejected
        else .assign (fun job => { job with companyName := trim text })
    | .null => .rejected
    | _ => .unmodelled
  else if key = utf16 "position" then
    match value with
    | .str text => if (trim text).isEmpty then .rejected
        else .assign (fun job => { job with position := trim text })
    | .null => .rejected
    | _ => .unmodelled
  else if key = utf16 "jobDescription" then
    match value with
    | .str text => if text.isEmpty then .rejected
        else .assign (fun job => { job with jobDescription := text })
    | .null => .rejected
    | _ => .unmodelled
  else if key = utf16 "jobApplicationLink" then
    match value with
    | .str text => .assign (fun job => { job with jobApplicationLink := some (trim text) })
    | .null => .assign (fun job => { job with jobApplicationLink := none })
    | _ => .unmodelled
  else if key = utf16 "status" then
    match value with
    | .str text =>
      if text = utf16 "Optimized" then .assign (fun job => { job with status := .optimized })
      else if text = utf16 "Pending Optimization" then
        .assign (fun job => { job with status := .pendingOptimization })
      else .rejected
    | _ => .unmodelled
  else if key = utf16 "baseResume" then
    match value with
    | .str text =>
      match objectIdOfString text with
      | some id => .assign (fun job => { job with baseResume := some id })
      | none => .rejected
    | .null => .assign (fun job => { job with baseResume := none })
    | _ => .unmodelled
  else if key = utf16 "latestOptimizedResume" then
    match value with
    | .str text =>
      match objectIdOfString text with
      | some id => .assign (fun job => { job with latestOptimizedResume := some id })
      | none => .rejected
    | .null => .assign (fun job => { job with latestOptimizedResume := none })
    | _ => .unmodelled
  else if key = utf16 "optimizedOn" then
    match value with
    | .null => .assign (fun job => { job with optimizedOn := none })
    | _ => .unmodelled
  else if key = utf16 "changesSummary" then
    match value with
    | .str text => .assign (fun job => { job with changesSummary := some (.str text) })
    | .null => .assign (fun job => { job with changesSummary := none })
    | _ => .unmodelled
  else if key = utf16 "_id" || key = utf16 "createdAt" || key = utf16 "updatedAt" ||
      key = utf16 "__v" || key.contains 46 then .unmodelled
  else .ignored

/-- The assignments of an update document: the members of its `$set` operator,
followed by its members outside update operators, which are assignments too
and win over `$set`. `none` for a document with another update operator, or
with a `$set` that is no object: such a document is outside this model. -/
def assignmentsOf (updates : List (JSString × Json)) : Option (List (JSString × Json)) :=
  let plain := updates.filter (fun member => member.1.head? != some 36)
  let operators := updates.filter (fun member => member.1.head? == some 36)
  if operators.all (fun member => member.1 == utf16 "$set") then
    match Json.member (utf16 "$set") updates with
    | none => some plain
    | some (.obj members) => some (members ++ plain)
    | some _ => none
  else none

/-- The casts of a list of assignments, applied in order: `none` when one of them is
outside the model, `some none` when one of them is rejected. -/
def castAll : List (JSString × Json) → Option (Option (Job → Job))
  | [] => some (some id)
  | (key, value) :: rest =>
    match castAssignment key value, castAll rest with
    | .unmodelled, _ => none
    | _, none => none
    | .rejected, some _ => some none
    | _, some none => some none
    | .ignored, some (some later) => some (some later)
    | .assign change, some (some later) => some (some (fun job => later (change job)))

/-- The handler `exports.updateJob`: the three `delete` statements, then
`Job.findByIdAndUpdate(id, updates, { new: true, runValidators: true })`, whose
update document may hold assignments and the update operator `$set`. `none`
for a body that is outside this model. -/
def updateJob (id : optimizeController.RequestId) (body : List (JSString × Json)) (st : Store) :
    Option Result :=
  let updates := deleteKey (utf16 "changesSummary")
    (deleteKey (utf16 "optimizedOn") (deleteKey (utf16 "status") body))
  match assignmentsOf updates with
  | none => none
  | some assignments =>
    match castAll assignments with
    | none => none
    | some none =>
      some { response := .error 500 (utf16 "UPDATE_JOB_ERROR") (utf16 "Failed to update job")
             store := st }
    | some (some change) =>
      match id with
      | .malformed _ =>
        some { response := .error 500 (utf16 "UPDATE_JOB_ERROR") (utf16 "Failed to update job")
               store := st }
      | .absent =>
        some { response := .error 404 (utf16 "JOB_NOT_FOUND") (utf16 "Job not found")
               store := st }
      | .valid jobId =>
        match st.findJob jobId with
        | none =>
          some { response := .error 404 (utf16 "JOB_NOT_FOUND") (utf16 "Job not found")
                 store := st }
        | some job =>
          some { response := .job 200 (change job)
                 store := st.saveJob (change job) }

/-- The handler `exports.deleteJob`. -/
def deleteJob (id : optimizeController.RequestId) (st : Store) : Result :=
  match id with
  | .malformed _ =>
    { response := .error 500 (utf16 "DELETE_JOB_ERROR") (utf16 "Failed to delete job")
      store := st }
  | .absent =>
    { response := .error 404 (utf16 "JOB_NOT_FOUND") (utf16 "Job not found"), store := st }
  | .valid jobId =>
    match st.findJob jobId with
    | none =>
      { response := .error 404 (utf16 "JOB_NOT_FOUND") (utf16 "Job not found"), store := st }
    | some _ =>
      { response := .deleted jobId
        store := { st with jobs := st.jobs.filter (fun job => job.id != jobId) } }

/-- A body for `createJob` with the four required fields. -/
def sampleCreateBody : CreateBody :=
  { clientName := some (utf16 "Jane Doe")
    companyName := some (utf16 "Acme")
    position := some (utf16 "Data Analyst")
    jobDescription := some (utf16 "SQL and ETL")
    jobApplicationLink := none
    baseResumeId := .absent }

/-- The members of the body `{"$set": {"status": "Optimized"}}`. -/
def sampleSetStatus : List (JSString × Json) :=
  [(utf16 "$set", .obj [(utf16 "status", .str (utf16 "Optimized"))])]

end jobController

/-! ### The states of the store -/

/-- The store before any call. -/
def emptyStore : Store := { jobs := [], resumes := [], nextId := 0 }

/-- The stores reached from the empty store by calls of `createJob`, `updateJob`,
`deleteJob`, the single-job `optimizeResume` and `batchOptimize`. -/
inductive Reachable : Store → Prop where
  /-- The empty store. -/
  | empty : Reachable emptyStore
  /-- A call of `createJob`. -/
  | createJob (st : Store) (body : jobController.CreateBody) :
      Reachable st → Reachable (jobController.createJob body st).store
  /-- A call of `updateJob`. -/
  | updateJob (st : Store) (id : optimizeController.RequestId)
      (body : List (JSString × Json)) (result : jobController.Result) :
      Reachable st → jobController.updateJob id body st = some result → Reachable result.store
  /-- A call of `deleteJob`. -/
  | deleteJob (st : Store) (id : optimizeController.RequestId) :
      Reachable st → Reachable (jobController.deleteJob id st).store
  /-- A call of the single-job handler. -/
  | optimizeResume (st : Store) (env : optimizeController.Env)
      (req : optimizeController.Request) :
      Reachable st → Reachable (optimizeController.optimizeResume env req st).store
  /-- A call of the batch handler. -/
  | batchOptimize (st : Store) (envs : Nat → optimizeController.JobEnv)
      (req : optimizeController.BatchRequest) :
      Reachable st → Reachable (optimizeController.batchOptimize envs req st).store

/-- The invariant of a job: its status is `Optimized` exactly when
`latestOptimizedResume` and `optimizedOn` are both set. -/
def JobInvariant (job : Job) : Prop :=
  job.status = .optimized ↔
    (job.latestOptimizedResume.isSome = true ∧ job.optimizedOn.isSome = true)

/-! ### optimizeController.js: the diff of a job -/

namespace optimizeController

/-- The body of the answer of `getDiff` for a job with both resumes. -/
structure DiffPayload where
  /-- Field `jobId`. -/
  jobId : Id
  /-- Field `diff`, without its statistics. -/
  diff : DiffResult
  /-- Field `diff.stats`. -/
  stats : DiffStats
  /-- Field `changesSummary`. -/
  changesSummary : Option Json
  /-- Field `keywordsAdded`. -/
  keywordsAdded : Json

/-- The answer of `getDiff`. -/
inductive DiffResponse where
  /-- An error answer: HTTP status, `error.code`, `error.message`, `error.details`. -/
  | error (status : Nat) (code : JSString) (message : JSString) (details : Option JSString)
  /-- The answer sent with `res.json`, HTTP 200. -/
  | ok (payload : DiffPayload)

/-- The expression `text || ''` on a field that holds a string or nothing. -/
def textOrEmpty (text : Option JSString) : JSString :=
  match text with
  | some value => if value.isEmpty then [] else value
  | none => []

/-- The handler `exports.getDiff` of optimizeController.js; `jobId` is the route
parameter. The query populates `baseResume` and `latestOptimizedResume`: a
reference that is unset or resolves to no resume is `null`. An identifier that
is no `ObjectId` makes `findById` throw, which the `catch` block answers. -/
def getDiff (jobId : RequestId) (st : Store) : DiffResponse :=
  match jobId with
  | .malformed message =>
    .error 500 (utf16 "DIFF_ERROR") (utf16 "Failed to generate diff") (some message)
  | .absent => .error 404 (utf16 "JOB_NOT_FOUND") (utf16 "Job not found") none
  | .valid id =>
    match st.findJob id with
    | none => .error 404 (utf16 "JOB_NOT_FOUND") (utf16 "Job not found") none
    | some job =>
      match job.baseResume.bind st.findResume, job.latestOptimizedResume.bind st.findResume with
      | some baseResume, some latestOptimizedResume =>
        let baseText := textOrEmpty baseResume.baseResumeText
        let optimizedText := textOrEmpty latestOptimizedResume.optimizedResumeText
        let diff := generateDiff baseText optimizedText
        let diffStats := getDiffStats diff.lineDiff
        .ok
          { jobId := job.id
            diff := diff
            stats := diffStats
            changesSummary := job.changesSummary
            keywordsAdded := latestOptimizedResume.keywordsAdded }
      | _, _ =>
        .error 400 (utf16 "MISSING_RESUMES_ERROR")
          (utf16 "Job does not have both base and optimized resumes") none

end optimizeController

/-! ### The outcome of one job of a batch, in the words of the claims -/

namespace optimizeController

/-- The steps of the loop body of `batchOptimize` that follow the check of the base
text, read as the claims name them: the message of the first step that fails,
in the order rewrite call, summary call, `optimizedResume.save()`, `job.save()`
and, when `req.io` is set, the notification; `none` when no step fails. -/
def persistFailure (io : Bool) (jenv : JobEnv) : Option JSString :=
  match (ResumeOptimizer.optimizeResume jenv.env.rewriteNet).2 with
  | .error message => some message
  | .ok _ =>
    match (summarizeChanges jenv.env.parse jenv.env.summaryNet).2 with
    | .error message => some message
    | .ok _ =>
      match jenv.faults.saveResume with
      | some message => some message
      | none =>
        match jenv.faults.saveJob with
        | some message => some message
        | none => if io then jenv.faults.notify else none

/-- Both AI calls return and both writes are made. -/
def persistSaved (jenv : JobEnv) : Bool :=
  match (ResumeOptimizer.optimizeResume jenv.env.rewriteNet).2,
    (summarizeChanges jenv.env.parse jenv.env.summaryNet).2,
    jenv.faults.saveResume, jenv.faults.saveJob with
  | .ok _, .ok _, none, none => true
  | _, _, _, _ => false

/-- The failure of the job id `jobId` met in the state `s`, read as the claims name
it: the message of the cast or of the query when the query fails, `Job not
found`, `No resume text available`, or the message of the first later step that
fails; `none` for a job id without a failure. -/
def failureOf (io : Bool) (jenv : JobEnv) (jobId : RequestId) (s : BatchState) :
    Option JSString :=
  match jobId with
  | .malformed message => some message
  | .absent =>
    match jenv.faults.findJob with
    | some message => some message
    | none => some (utf16 "Job not found")
  | .valid id =>
    match jenv.faults.findJob with
    | some message => some message
    | none =>
      match s.store.findJob id with
      | none => some (utf16 "Job not found")
      | some job =>
        match (job.baseResume.bind s.store.findResume).bind
          (fun resume => resume.baseResumeText) with
        | none => some (utf16 "No resume text available")
        | some baseResumeText =>
          if baseResumeText.isEmpty then some (utf16 "No resume text available")
          else persistFailure io jenv

/-- The job id `jobId` met in the state `s` succeeds: its job is found with a base
text that is not empty, both AI calls return and both writes are made. -/
def savedOf (jenv : JobEnv) (jobId : RequestId) (s : BatchState) : Bool :=
  match jobId with
  | .malformed _ => false
  | .absent => false
  | .valid id =>
    match jenv.faults.findJob with
    | some _ => false
    | none =>
      match s.store.findJob id with
      | none => false
      | some job =>
        match (job.baseResume.bind s.store.findResume).bind
          (fun resume => resume.baseResumeText) with
        | none => false
        | some baseResumeText => if baseResumeText.isEmpty then false else persistSaved jenv

/-- The first job of the batch meets an AI service that is rate-limited during the
summary call, the later ones the good service. -/
def sampleFirstDown (i : Nat) : JobEnv :=
  if i = 0 then { env := sampleSummaryDown, faults := noFaults } else sampleBatchEnv i

/-- The call `job.save()` fails for the first job of the batch. -/
def sampleFirstSaveDown (i : Nat) : JobEnv :=
  if i = 0 then
    { env := sampleGoodEnv, faults := { noFaults with saveJob := some (utf16 "disk full") } }
  else sampleBatchEnv i

end optimizeController

/-! ## Part 2: lemmas and theorems -/

/-! ### Searching and slicing -/

theorem indexOfFrom_first (pat : JSString) :
    ∀ (s : JSString) (i k : Nat), pat <+: s.drop k →
      (∀ j, j < k → ¬ pat <+: s.drop j) → indexOfFrom pat s i = some (i + k) := by
  intro s
  induction s with
  | nil =>
    intro i k hk hmin
    have hnil : pat <+: ([] : JSString) := by simpa using hk
    cases k with
    | zero => simp [indexOfFrom, List.isPrefixOf_iff_prefix.mpr hnil]
    | succ k => exact absurd (by simpa using hnil) (hmin 0 (Nat.succ_pos k))
  | cons c cs ih =>
    intro i k hk hmin
    cases k with
    | zero =>
      have h0 : pat <+: c :: cs := by simpa using hk
      simp [indexOfFrom, List.isPrefixOf_iff_prefix.mpr h0]
    | succ k =>
      have h0 : ¬ pat <+: c :: cs := by simpa using hmin 0 (Nat.succ_pos k)
      have hfalse : pat.isPrefixOf (c :: cs) = false := by
        cases hb : pat.isPrefixOf (c :: cs) with
        | false => rfl
        | true => exact absurd (List.isPrefixOf_iff_prefix.mp hb) h0
      have hrec := ih (i + 1) k (by simpa using hk)
        (fun j hj => by simpa using hmin (j + 1) (Nat.succ_lt_succ hj))
      simp only [indexOfFrom, hfalse]
      rw [hrec]
      simp only [Bool.false_eq_true, if_false]
      congr 1
      omega

theorem indexOfFrom_occurs (pat : JSString) :
    ∀ (s : JSString) (i j : Nat), indexOfFrom pat s i = some j → pat <:+: s := by
  intro s
  induction s with
  | nil =>
    intro i j h
    by_cases hp : pat.isPrefixOf ([] : JSString) = true
    · exact (List.isPrefixOf_iff_prefix.mp hp).isInfix
    · simp [indexOfFrom, hp] at h
  | cons c cs ih =>
    intro i j h
    by_cases hp : pat.isPrefixOf (c :: cs) = true
    · exact (List.isPrefixOf_iff_prefix.mp hp).isInfix
    · simp only [indexOfFrom, hp, if_false] at h
      exact (ih (i + 1) j h).trans (List.suffix_cons c cs).isInfix

theorem indexOf_none_of_absent (s pat : JSString) (h : ¬ pat <:+: s) :
    indexOf s pat = none := by
  cases hi : indexOf s pat with
  | none => rfl
  | some j => exact absurd (indexOfFrom_occurs pat s 0 j hi) h

theorem substring_middle (a m b : JSString) :
    substring (a ++ m ++ b) a.length (a.length + m.length) = m := by
  have h1 : min a.length (a ++ m ++ b).length = a.length := by
    simp only [List.length_append]; omega
  have h2 : min (a.length + m.length) (a ++ m ++ b).length = a.length + m.length := by
    simp only [List.length_append]; omega
  have h3 : min a.length (a.length + m.length) = a.length := by omega
  have h4 : max a.length (a.length + m.length) - a.length = m.length := by omega
  simp only [substring, h1, h2, h3, h4]
  rw [List.append_assoc, List.drop_left, List.take_left]

/-! ### Marker extraction -/

/-- C3, amended. When the raw response reads
`pre ++ startMarker ++ mid ++ endMarker ++ post`, these being the first
occurrences of the two markers, so that the first end marker begins at or after
the end of the first start marker, the extracted text is `mid` trimmed. -/
theorem extractOptimizedText_between (pre mid post : JSString)
    (hstart : ∀ k, k < pre.length →
      ¬ startMarker <+: (pre ++ startMarker ++ mid ++ endMarker ++ post).drop k)
    (hend : ∀ k, k < pre.length + startMarker.length + mid.length →
      ¬ endMarker <+: (pre ++ startMarker ++ mid ++ endMarker ++ post).drop k) :
    extractOptimizedText (pre ++ startMarker ++ mid ++ endMarker ++ post) = trim mid := by
  have hs : indexOf (pre ++ startMarker ++ mid ++ endMarker ++ post) startMarker
      = some pre.length := by
    have := indexOfFrom_first startMarker (pre ++ startMarker ++ mid ++ endMarker ++ post) 0
      pre.length (by simp [List.append_assoc]) hstart
    simpa [indexOf] using this
  have he : indexOf (pre ++ startMarker ++ mid ++ endMarker ++ post) endMarker
      = some (pre.length + startMarker.length + mid.length) := by
    have hdrop : (pre ++ startMarker ++ mid ++ endMarker ++ post).drop
        (pre.length + startMarker.length + mid.length) = endMarker ++ post := by
      have hlen : pre.length + startMarker.length + mid.length
          = (pre ++ startMarker ++ mid).length := by simp only [List.length_append]
      rw [hlen, List.append_assoc (pre ++ startMarker ++ mid), List.drop_left]
    have := indexOfFrom_first endMarker (pre ++ startMarker ++ mid ++ endMarker ++ post) 0
      (pre.length + startMarker.length + mid.length) (by rw [hdrop]; simp) hend
    rw [Nat.zero_add] at this
    exact this
  have hsub : substring (pre ++ startMarker ++ mid ++ endMarker ++ post)
      (pre.length + startMarker.length) (pre.length + startMarker.length + mid.length)
      = mid := by
    have := substring_middle (pre ++ startMarker) mid (endMarker ++ post)
    simpa [List.append_assoc] using this
  simp only [extractOptimizedText, hs, he, hsub]

set_option maxRecDepth 100000 in
/-- The spec's example for C3: the text between the markers of
`noise ---START_OPTIMIZED--- Jane Doe Resume ---END_OPTIMIZED--- trailing`. -/
theorem extractOptimizedText_between_witness :
    (∀ k, k < (utf16 "noise ").length →
      ¬ startMarker <+: (utf16 "noise " ++ startMarker ++ utf16 " Jane Doe Resume " ++
        endMarker ++ utf16 " trailing").drop k) ∧
    (∀ k, k < (utf16 "noise ").length + startMarker.length
        + (utf16 " Jane Doe Resume ").length →
      ¬ endMarker <+: (utf16 "noise " ++ startMarker ++ utf16 " Jane Doe Resume " ++
        endMarker ++ utf16 " trailing").drop k) ∧
    extractOptimizedText
      (utf16 "noise ---START_OPTIMIZED--- Jane Doe Resume ---END_OPTIMIZED--- trailing")
      = utf16 "Jane Doe Resume" :=
  ⟨by decide, by decide,
   extractOptimizedText_between (utf16 "noise ") (utf16 " Jane Doe Resume ")
    (utf16 " trailing") (by decide) (by decide)⟩

set_option maxRecDepth 100000 in
/-- C3, as stated, fails: in `---START_OPTIMIZED---END_OPTIMIZED---` both markers
occur and the start marker is found before the end marker, at 0 and at 18, the
last three hyphens of the one being the first three of the other. The call
`substring(21, 18)` swaps its bounds and the extracted text is `---`, hyphens
of both markers, although no text lies between the end of the start marker and
the beginning of the end marker. -/
theorem extractOptimizedText_overlapping_markers :
    indexOf (utf16 "---START_OPTIMIZED---END_OPTIMIZED---") startMarker = some 0 ∧
    indexOf (utf16 "---START_OPTIMIZED---END_OPTIMIZED---") endMarker = some 18 ∧
    extractOptimizedText (utf16 "---START_OPTIMIZED---END_OPTIMIZED---") = utf16 "---" ∧
    extractOptimizedText (utf16 "---START_OPTIMIZED---END_OPTIMIZED---") ≠ [] := by
  decide

/-- C4, as stated, fails: with the end marker before the start marker the
extracted text runs from the end marker through the start marker and is not
the whole response. -/
theorem extractOptimizedText_reversed_markers :
    indexOf (utf16 "a ---END_OPTIMIZED--- b ---START_OPTIMIZED--- c") endMarker = some 2 ∧
    indexOf (utf16 "a ---END_OPTIMIZED--- b ---START_OPTIMIZED--- c") startMarker = some 24 ∧
    extractOptimizedText (utf16 "a ---END_OPTIMIZED--- b ---START_OPTIMIZED--- c")
      = utf16 "---END_OPTIMIZED--- b ---START_OPTIMIZED---" ∧
    extractOptimizedText (utf16 "a ---END_OPTIMIZED--- b ---START_OPTIMIZED--- c")
      ≠ trim (utf16 "a ---END_OPTIMIZED--- b ---START_OPTIMIZED--- c") := by
  decide

/-- C4, amended. When one of the two markers does not occur in the raw response,
the extracted text is the whole response trimmed. -/
theorem extractOptimizedText_marker_missing (raw : JSString)
    (h : ¬ startMarker <:+: raw ∨ ¬ endMarker <:+: raw) :
    extractOptimizedText raw = trim raw := by
  rcases h with h | h
  · simp only [extractOptimizedText, indexOf_none_of_absent raw startMarker h]
  · simp only [extractOptimizedText, indexOf_none_of_absent raw endMarker h]
    cases indexOf raw startMarker <;> rfl

/-- A response without the end marker is returned whole, trimmed. -/
theorem extractOptimizedText_marker_missing_witness :
    (¬ startMarker <:+: utf16 " ---START_OPTIMIZED--- text " ∨
      ¬ endMarker <:+: utf16 " ---START_OPTIMIZED--- text ") ∧
    extractOptimizedText (utf16 " ---START_OPTIMIZED--- text ")
      = utf16 "---START_OPTIMIZED--- text" :=
  ⟨Or.inr (by decide),
   (extractOptimizedText_marker_missing (utf16 " ---START_OPTIMIZED--- text ")
      (Or.inr (by decide))).trans (by decide)⟩

/-! ### The retry loop -/

theorem callGeminiLoop_ok (net : Nat → Outcome) (retries remaining attempt : Nat)
    (text : JSString) (h : tryAttempt (net attempt) = .ok text) :
    callGeminiLoop net retries (remaining + 1) attempt = ([Event.request attempt], .ok text) := by
  simp only [callGeminiLoop, h]

theorem callGeminiLoop_last (net : Nat → Outcome) (retries remaining : Nat)
    (error : CaughtError) (h : tryAttempt (net retries) = .error error) :
    callGeminiLoop net retries (remaining + 1) retries
      = ([Event.request retries], .error (failedAfter retries error.message)) := by
  simp [callGeminiLoop, h]

theorem callGeminiLoop_rateLimit (net : Nat → Outcome) (retries remaining attempt : Nat)
    (error : CaughtError) (h : tryAttempt (net attempt) = .error error)
    (hne : attempt ≠ retries) (h429 : error.status = some 429) :
    callGeminiLoop net retries (remaining + 1) attempt
      = (Event.request attempt :: Event.wait (2 ^ attempt * 1000) ::
          (callGeminiLoop net retries remaining (attempt + 1)).1,
         (callGeminiLoop net retries remaining (attempt + 1)).2) := by
  simp [callGeminiLoop, h, hne, h429]

theorem callGeminiLoop_other (net : Nat → Outcome) (retries remaining attempt : Nat)
    (error : CaughtError) (h : tryAttempt (net attempt) = .error error)
    (hne : attempt ≠ retries) (h429 : error.status ≠ some 429) :
    callGeminiLoop net retries (remaining + 1) attempt
      = (Event.request attempt :: Event.wait (1000 * attempt) ::
          (callGeminiLoop net retries remaining (attempt + 1)).1,
         (callGeminiLoop net retries remaining (attempt + 1)).2) := by
  simp [callGeminiLoop, h, hne, h429]

theorem callGeminiLoop_head (net : Nat → Outcome) (retries remaining attempt : Nat) :
    ∃ rest, (callGeminiLoop net retries (remaining + 1) attempt).1
      = Event.request attempt :: rest := by
  cases h : tryAttempt (net attempt) with
  | ok text => exact ⟨[], by rw [callGeminiLoop_ok net retries remaining attempt text h]⟩
  | error error =>
    by_cases hlast : attempt = retries
    · subst hlast
      exact ⟨[], by rw [callGeminiLoop_last net attempt remaining error h]⟩
    · by_cases h429 : error.status = some 429
      · exact ⟨_, by rw [callGeminiLoop_rateLimit net retries remaining attempt error h hlast h429]⟩
      · exact ⟨_, by rw [callGeminiLoop_other net retries remaining attempt error h hlast h429]⟩

theorem callGeminiLoop_bounds (net : Nat → Outcome) (retries : Nat) :
    ∀ remaining attempt, attempt + remaining = retries →
      countRequests (callGeminiLoop net retries (remaining + 1) attempt).1 ≤ remaining + 1 ∧
      totalWait (callGeminiLoop net retries (remaining + 1) attempt).1 + 2 ^ attempt * 1000
        ≤ 2 ^ retries * 1000 := by
  intro remaining
  induction remaining with
  | zero =>
    intro attempt hsum
    have hlast : attempt = retries := by omega
    subst hlast
    cases h : tryAttempt (net attempt) with
    | ok text =>
      rw [callGeminiLoop_ok net attempt 0 attempt text h]
      simp [countRequests, totalWait]
    | error error =>
      rw [callGeminiLoop_last net attempt 0 error h]
      simp [countRequests, totalWait]
  | succ n ih =>
    intro attempt hsum
    have hne : attempt ≠ retries := by omega
    have hpow : 2 ^ attempt ≤ 2 ^ retries := Nat.pow_le_pow_right (by norm_num) (by omega)
    have hrec := ih (attempt + 1) (by omega)
    have hdouble : 2 ^ (attempt + 1) = 2 * 2 ^ attempt := by rw [pow_succ]; ring
    have hlin : attempt < 2 ^ attempt := Nat.lt_two_pow attempt
    cases h : tryAttempt (net attempt) with
    | ok text =>
      rw [callGeminiLoop_ok net retries (n + 1) attempt text h]
      simp only [countRequests, totalWait]
      omega
    | error error =>
      by_cases h429 : error.status = some 429
      · rw [callGeminiLoop_rateLimit net retries (n + 1) attempt error h hne h429]
        simp only [countRequests, totalWait]
        omega
      · rw [callGeminiLoop_other net retries (n + 1) attempt error h hne h429]
        simp only [countRequests, totalWait]
        omega

theorem countRequests_append (xs ys : List Event) :
    countRequests (xs ++ ys) = countRequests xs + countRequests ys := by
  induction xs with
  | nil => simp [countRequests]
  | cons x xs ih =>
    cases x with
    | request a =>
      show countRequests (xs ++ ys) + 1 = countRequests xs + 1 + countRequests ys
      omega
    | wait ms => exact ih

/-- Attempts that fail before the last one are passed over: the loop goes on
with the next attempt after one wait each. -/
theorem callGeminiLoop_skip (net : Nat → Outcome) (retries : Nat) :
    ∀ m remaining attempt, attempt + m ≤ retries →
      (∀ j, attempt ≤ j → j < attempt + m → AttemptFails net j) →
      ∃ pre, callGeminiLoop net retries (m + remaining) attempt
          = (pre ++ (callGeminiLoop net retries remaining (attempt + m)).1,
             (callGeminiLoop net retries remaining (attempt + m)).2) ∧
        countRequests pre = m := by
  intro m
  induction m with
  | zero =>
    intro remaining attempt _ _
    exact ⟨[], by simp, rfl⟩
  | succ m ih =>
    intro remaining attempt hle hfail
    obtain ⟨error, herr⟩ := hfail attempt (Nat.le_refl _) (by omega)
    have hne : attempt ≠ retries := by omega
    obtain ⟨pre, hpre, hcount⟩ := ih remaining (attempt + 1) (by omega)
      (fun j h1 h2 => hfail j (by omega) (by omega))
    have hshape : m + 1 + remaining = (m + remaining) + 1 := by omega
    have hidx : attempt + 1 + m = attempt + (m + 1) := by omega
    rw [hidx] at hpre
    by_cases h429 : error.status = some 429
    · refine ⟨Event.request attempt :: Event.wait (2 ^ attempt * 1000) :: pre, ?_, ?_⟩
      · rw [hshape, callGeminiLoop_rateLimit net retries _ attempt error herr hne h429, hpre]
        rfl
      · simp only [countRequests, hcount]
    · refine ⟨Event.request attempt :: Event.wait (1000 * attempt) :: pre, ?_, ?_⟩
      · rw [hshape, callGeminiLoop_other net retries _ attempt error herr hne h429, hpre]
        rfl
      · simp only [countRequests, hcount]

/-- The run reaches attempt `k` when the attempts before it have failed. -/
theorem callGeminiAPI_reach (net : Nat → Outcome) (retries k : Nat) (hk1 : 1 ≤ k)
    (hk : k ≤ retries) (hreached : ∀ j, 1 ≤ j → j < k → AttemptFails net j) :
    ∃ pre, callGeminiAPI net retries
        = (pre ++ (callGeminiLoop net retries (retries - k + 1) k).1,
           (callGeminiLoop net retries (retries - k + 1) k).2) ∧
      countRequests pre = k - 1 := by
  obtain ⟨pre, hpre, hcount⟩ := callGeminiLoop_skip net retries (k - 1) (retries - k + 1) 1
    (by omega) (fun j h1 h2 => hreached j h1 (by omega))
  have h1 : k - 1 + (retries - k + 1) = retries := by omega
  have h2 : 1 + (k - 1) = k := by omega
  rw [h1, h2] at hpre
  exact ⟨pre, hpre, hcount⟩

/-- A failed attempt before the last one is followed by one wait and by the
request of the next attempt. -/
theorem callGeminiAPI_retry (net : Nat → Outcome) (retries k : Nat) (error : CaughtError)
    (hk1 : 1 ≤ k) (hk : k < retries) (hreached : ∀ j, 1 ≤ j → j < k → AttemptFails net j)
    (hfail : tryAttempt (net k) = .error error) :
    [Event.request k,
      Event.wait (if error.status = some 429 then 2 ^ k * 1000 else k * 1000),
      Event.request (k + 1)] <:+: (callGeminiAPI net retries).1 := by
  obtain ⟨pre, hpre, _⟩ := callGeminiAPI_reach net retries k hk1 (by omega) hreached
  have hrem : retries - k = (retries - k - 1) + 1 := by omega
  obtain ⟨rest, hrest⟩ := callGeminiLoop_head net retries (retries - k - 1) (k + 1)
  rw [← hrem] at hrest
  rw [hpre]
  by_cases h429 : error.status = some 429
  · rw [callGeminiLoop_rateLimit net retries _ k error hfail (by omega) h429, hrest, if_pos h429]
    exact ⟨pre, rest, by simp⟩
  · rw [callGeminiLoop_other net retries _ k error hfail (by omega) h429, hrest, if_neg h429,
      Nat.mul_comm 1000 k]
    exact ⟨pre, rest, by simp⟩

/-- C7. In a run with three attempts, when attempt `k < 3` is made and fails, it is
followed by one wait and then by the request of attempt `k + 1`: the wait is
`2 ^ k` seconds after a rate-limit signal (HTTP 429) and `k` seconds after any
other error; the waits of a run total at most 6 seconds. -/
theorem callGeminiAPI_backoff (net : Nat → Outcome) (k : Nat) (error : CaughtError)
    (hk1 : 1 ≤ k) (hk3 : k < 3) (hreached : ∀ j, 1 ≤ j → j < k → AttemptFails net j)
    (hfail : tryAttempt (net k) = .error error) :
    [Event.request k,
      Event.wait (if error.status = some 429 then 2 ^ k * 1000 else k * 1000),
      Event.request (k + 1)] <:+: (callGeminiAPI net 3).1 ∧
    totalWait (callGeminiAPI net 3).1 ≤ 6000 := by
  refine ⟨callGeminiAPI_retry net 3 k error hk1 hk3 hreached hfail, ?_⟩
  have hbound := (callGeminiLoop_bounds net 3 2 1 (by decide)).2
  show totalWait (callGeminiLoop net 3 (2 + 1) 1).1 ≤ 6000
  omega

/-- A run that is rate-limited on attempt 1 waits 2 seconds before attempt 2. -/
theorem callGeminiAPI_backoff_witness :
    [Event.request 1, Event.wait 2000, Event.request 2]
      <:+: (callGeminiAPI sampleFlakyNet 3).1 ∧
    totalWait (callGeminiAPI sampleFlakyNet 3).1 ≤ 6000 :=
  callGeminiAPI_backoff sampleFlakyNet 1
    ⟨some 429, utf16 "Request failed with status code 429"⟩ (by decide) (by decide)
    (fun j h1 h2 => absurd h1 (by omega)) rfl

/-- C8, as stated, fails: a first reply without the text field is followed by a
1-second wait and a second request, whose text the call returns. -/
theorem callGeminiAPI_malformed_retried :
    callGeminiAPI sampleMalformedNet 3
      = ([Event.request 1, Event.wait 1000, Event.request 2], .ok (utf16 "ok")) := by
  rfl

/-- C8, amended. A reply without the text field is handled as any error that is not
a rate limit: on attempt `k < 3` the client waits `k` seconds and sends the
request of attempt `k + 1`; on attempt 3 the call raises, with the message
`Gemini API call failed after 3 attempts: Invalid response structure from Gemini API`,
and that request is the last action of the run. -/
theorem callGeminiAPI_malformed (net : Nat → Outcome) (k : Nat)
    (hk1 : 1 ≤ k) (hk3 : k ≤ 3) (hreached : ∀ j, 1 ≤ j → j < k → AttemptFails net j)
    (hmalformed : net k = .reply none) :
    (k < 3 → [Event.request k, Event.wait (k * 1000), Event.request (k + 1)]
      <:+: (callGeminiAPI net 3).1) ∧
    (k = 3 → (callGeminiAPI net 3).2 = .error (utf16
        "Gemini API call failed after 3 attempts: Invalid response structure from Gemini API") ∧
      (callGeminiAPI net 3).1.getLast? = some (Event.request 3)) := by
  have hfail : tryAttempt (net k)
      = .error ⟨none, utf16 "Invalid response structure from Gemini API"⟩ := by
    rw [hmalformed]; rfl
  constructor
  · intro hlt
    exact callGeminiAPI_retry net 3 k _ hk1 hlt hreached hfail
  · intro h3
    subst h3
    obtain ⟨pre, hpre, _⟩ := callGeminiAPI_reach net 3 3 hk1 (Nat.le_refl 3) hreached
    rw [hpre, callGeminiLoop_last net 3 _ _ hfail]
    refine ⟨?_, by simp⟩
    show Except.error (failedAfter 3 (utf16 "Invalid response structure from Gemini API")) = _
    congr 1

/-- A first reply without the text field: the request of attempt 2 follows after
1 second. -/
theorem callGeminiAPI_malformed_witness :
    (1 < 3 → [Event.request 1, Event.wait (1 * 1000), Event.request (1 + 1)]
      <:+: (callGeminiAPI sampleMalformedNet 3).1) ∧
    (1 = 3 → (callGeminiAPI sampleMalformedNet 3).2 = .error (utf16
        "Gemini API call failed after 3 attempts: Invalid response structure from Gemini API") ∧
      (callGeminiAPI sampleMalformedNet 3).1.getLast? = some (Event.request 3)) :=
  callGeminiAPI_malformed sampleMalformedNet 1 (by decide) (by decide)
    (fun j h1 h2 => absurd h1 (by omega)) rfl

/-- C9. A run with three attempts sends at most three requests. When attempt `k` is
the first to succeed, the call returns its text and the request of attempt `k`
is the last action of the run, the `k`-th request. When all three attempts
fail, the call raises `Gemini API call failed after 3 attempts: ` followed by the
message of the third error, and the third request is the last action of the
run, so no wait follows it. -/
theorem callGeminiAPI_bounded (net : Nat → Outcome) :
    countRequests (callGeminiAPI net 3).1 ≤ 3 ∧
    (∀ k text, 1 ≤ k → k ≤ 3 → (∀ j, 1 ≤ j → j < k → AttemptFails net j) →
      tryAttempt (net k) = .ok text →
      (callGeminiAPI net 3).2 = .ok text ∧
      (callGeminiAPI net 3).1.getLast? = some (Event.request k) ∧
      countRequests (callGeminiAPI net 3).1 = k) ∧
    (∀ error, (∀ j, 1 ≤ j → j < 3 → AttemptFails net j) →
      tryAttempt (net 3) = .error error →
      (callGeminiAPI net 3).2
        = .error (utf16 "Gemini API call failed after 3 attempts: " ++ error.message) ∧
      (callGeminiAPI net 3).1.getLast? = some (Event.request 3) ∧
      countRequests (callGeminiAPI net 3).1 = 3) := by
  refine ⟨(callGeminiLoop_bounds net 3 2 1 (by decide)).1, ?_, ?_⟩
  · intro k text hk1 hk3 hreached hok
    obtain ⟨pre, hpre, hcount⟩ := callGeminiAPI_reach net 3 k hk1 hk3 hreached
    rw [hpre, callGeminiLoop_ok net 3 _ k text hok]
    refine ⟨rfl, by simp, ?_⟩
    simp only [countRequests_append, hcount, countRequests]
    omega
  · intro error hreached hfail
    obtain ⟨pre, hpre, hcount⟩ := callGeminiAPI_reach net 3 3 (by decide) (Nat.le_refl 3) hreached
    rw [hpre, callGeminiLoop_last net 3 _ error hfail]
    refine ⟨rfl, by simp, ?_⟩
    simp only [countRequests_append, hcount, countRequests]

/-- A run that succeeds on attempt 3 returns that text after three requests; a
run that is rate-limited three times raises after the third request. -/
theorem callGeminiAPI_bounded_witness :
    countRequests (callGeminiAPI sampleFlakyNet 3).1 ≤ 3 ∧
    ((callGeminiAPI sampleFlakyNet 3).2 = .ok (utf16 "ok") ∧
      (callGeminiAPI sampleFlakyNet 3).1.getLast? = some (Event.request 3) ∧
      countRequests (callGeminiAPI sampleFlakyNet 3).1 = 3) ∧
    ((callGeminiAPI sampleDownNet 3).2
        = .error (utf16 "Gemini API call failed after 3 attempts: " ++
            utf16 "Request failed with status code 429") ∧
      (callGeminiAPI sampleDownNet 3).1.getLast? = some (Event.request 3) ∧
      countRequests (callGeminiAPI sampleDownNet 3).1 = 3) :=
  ⟨(callGeminiAPI_bounded sampleFlakyNet).1,
   (callGeminiAPI_bounded sampleFlakyNet).2.1 3 (utf16 "ok") (by decide) (by decide)
    (by
      intro j h1 h2
      have hj : j = 1 ∨ j = 2 := by omega
      rcases hj with rfl | rfl <;> exact ⟨_, rfl⟩) rfl,
   (callGeminiAPI_bounded sampleDownNet).2.2
    ⟨some 429, utf16 "Request failed with status code 429"⟩ (fun _ _ _ => ⟨_, rfl⟩) rfl⟩

/-! ### The diff engine -/

namespace Diff

theorem oldSide_map_remove (xs : List JSString) : oldSide (xs.map Op.remove) = xs := by
  induction xs with
  | nil => rfl
  | cons x xs ih => simp only [List.map_cons, oldSide, ih]

theorem newSide_map_remove (xs : List JSString) : newSide (xs.map Op.remove) = [] := by
  induction xs with
  | nil => rfl
  | cons x xs ih => simp only [List.map_cons, newSide, ih]

theorem matched_map_remove (eq : JSString → JSString → Bool) (xs : List JSString) :
    Matched eq (xs.map Op.remove) := by
  induction xs with
  | nil => trivial
  | cons x xs ih => simpa only [List.map_cons, Matched] using ih

theorem oldSide_map_add (ys : List JSString) : oldSide (ys.map Op.add) = [] := by
  induction ys with
  | nil => rfl
  | cons y ys ih => simp only [List.map_cons, oldSide, ih]

theorem newSide_map_add (ys : List JSString) : newSide (ys.map Op.add) = ys := by
  induction ys with
  | nil => rfl
  | cons y ys ih => simp only [List.map_cons, newSide, ih]

theorem matched_map_add (eq : JSString → JSString → Bool) (ys : List JSString) :
    Matched eq (ys.map Op.add) := by
  induction ys with
  | nil => trivial
  | cons y ys ih => simpa only [List.map_cons, Matched] using ih

/-- A row of scripts is sound when the row before it is. -/
theorem scriptRow_sound (eq : JSString → JSString → Bool) (x : JSString) (xs : List JSString)
    (prev : List JSString → List Op)
    (hprev : ∀ ys, oldSide (prev ys) = xs ∧ newSide (prev ys) = ys ∧ Matched eq (prev ys)) :
    ∀ ys, oldSide (scriptRow eq x xs prev ys) = x :: xs ∧
      newSide (scriptRow eq x xs prev ys) = ys ∧ Matched eq (scriptRow eq x xs prev ys) := by
  intro ys
  induction ys with
  | nil =>
    exact ⟨oldSide_map_remove (x :: xs), newSide_map_remove (x :: xs),
      matched_map_remove eq (x :: xs)⟩
  | cons y ys ih =>
    obtain ⟨hold, hnew, hmatched⟩ := ih
    by_cases hxy : eq x y = true
    · obtain ⟨h1, h2, h3⟩ := hprev ys
      simp only [scriptRow, hxy, if_true, oldSide, newSide, Matched, h1, h2, h3, and_self]
    · obtain ⟨h1, h2, h3⟩ := hprev (y :: ys)
      simp only [scriptRow, hxy, Bool.false_eq_true, if_false]
      split
      · simp only [oldSide, newSide, Matched, h1, h2, h3, and_self]
      · simp only [oldSide, newSide, Matched, hold, hnew, hmatched, and_self]

/-- The script consumes the old tokens, produces the new tokens and keeps only
pairs that the comparison equates. -/
theorem script_sound (eq : JSString → JSString → Bool) :
    ∀ xs ys, oldSide (script eq xs ys) = xs ∧ newSide (script eq xs ys) = ys ∧
      Matched eq (script eq xs ys) := by
  intro xs
  induction xs with
  | nil => exact fun ys => ⟨oldSide_map_add ys, newSide_map_add ys, matched_map_add eq ys⟩
  | cons x xs ih => exact scriptRow_sound eq x xs (script eq xs) ih

theorem buildValues_revised (ops : List Op) :
    revisedOf (buildValues ops) = (newSide ops).flatten := by
  induction ops with
  | nil => rfl
  | cons op rest ih =>
    simp only [buildValues]
    cases hrest : buildValues rest with
    | nil =>
      rw [hrest] at ih
      cases op <;>
        simp [revisedOf, Change.ofOp, newSide, ← ih]
    | cons c cs =>
      rw [hrest] at ih
      simp only [revisedOf] at ih
      cases op <;>
        · simp only [Change.ofOp, newSide, List.flatten_cons, ← ih]
          split
          · rename_i hflags
            simp [revisedOf, ← hflags.2]
          · simp [revisedOf]

theorem buildValues_original (ops : List Op) :
    originalOf (buildValues ops) = (shownOld ops).flatten := by
  induction ops with
  | nil => rfl
  | cons op rest ih =>
    simp only [buildValues]
    cases hrest : buildValues rest with
    | nil =>
      rw [hrest] at ih
      cases op <;>
        simp [originalOf, Change.ofOp, shownOld, ← ih]
    | cons c cs =>
      rw [hrest] at ih
      simp only [originalOf] at ih
      cases op <;>
        · simp only [Change.ofOp, shownOld, List.flatten_cons, ← ih]
          split
          · rename_i hflags
            simp [originalOf, ← hflags.1]
          · simp [originalOf]

/-- Under a reading `f` of texts that the comparison respects, the unchanged and
removed parts show the old tokens. -/
theorem shownOld_reads_old (f : JSString → JSString)
    (hf : ∀ a b, f (a ++ b) = f a ++ f b)
    (eq : JSString → JSString → Bool) (heq : ∀ a b, eq a b = true → f a = f b) :
    ∀ ops, Matched eq ops → f (shownOld ops).flatten = f (oldSide ops).flatten := by
  intro ops
  induction ops with
  | nil => intro _; rfl
  | cons op rest ih =>
    intro hm
    cases op with
    | keep old new =>
      simp only [Matched] at hm
      simp only [shownOld, oldSide, List.flatten_cons, hf, ih hm.2, heq old new hm.1]
    | remove old =>
      simp only [Matched] at hm
      simp only [shownOld, oldSide, List.flatten_cons, hf, ih hm]
    | add new =>
      simp only [Matched] at hm
      simp only [shownOld, oldSide, ih hm]

theorem shownOld_of_all_keep : ∀ ops : List Op, ops.all isKeep = true → shownOld ops = newSide ops
  | [], _ => rfl
  | Op.keep _ _ :: rest, h => by
    simp only [List.all_cons, isKeep, Bool.true_and] at h
    simp only [shownOld, newSide, shownOld_of_all_keep rest h]
  | Op.remove _ :: _, h => by simp [isKeep] at h
  | Op.add _ :: _, h => by simp [isKeep] at h

theorem removeEmpty_flatten (tokens : List JSString) :
    (removeEmpty tokens).flatten = tokens.flatten := by
  induction tokens with
  | nil => rfl
  | cons t ts ih =>
    cases t with
    | nil => simpa [removeEmpty] using ih
    | cons c cs =>
      have : removeEmpty ((c :: cs) :: ts) = (c :: cs) :: removeEmpty ts := by
        simp [removeEmpty]
      rw [this, List.flatten_cons, List.flatten_cons, ih]

/-- The change objects of `diff` show the new text and, under a reading `f` of
texts that the comparison respects, the old text. -/
theorem diff_reproduces (f : JSString → JSString)
    (hf : ∀ a b, f (a ++ b) = f a ++ f b)
    (eq : JSString → JSString → Bool) (heq : ∀ a b, eq a b = true → f a = f b)
    (tokenize : JSString → List JSString) (htok : ∀ s, (tokenize s).flatten = s)
    (oldStr newStr : JSString) :
    f (revisedOf (diff eq tokenize oldStr newStr)) = f newStr ∧
    f (originalOf (diff eq tokenize oldStr newStr)) = f oldStr := by
  obtain ⟨hold, hnew, hmatched⟩ :=
    script_sound eq (removeEmpty (tokenize oldStr)) (removeEmpty (tokenize newStr))
  have holdText : (removeEmpty (tokenize oldStr)).flatten = oldStr := by
    rw [removeEmpty_flatten, htok]
  have hnewText : (removeEmpty (tokenize newStr)).flatten = newStr := by
    rw [removeEmpty_flatten, htok]
  have hshown := shownOld_reads_old f hf eq heq _ hmatched
  rw [hold, holdText] at hshown
  simp only [diff]
  split
  · rename_i hall
    have hsame := shownOld_of_all_keep _ hall
    rw [hsame, hnew, hnewText] at hshown
    constructor
    · simp only [revisedOf, Option.getD_none, Bool.false_eq_true, if_false,
        List.append_nil, hnewText]
    · simp only [originalOf, Option.getD_none, Bool.false_eq_true, if_false,
        List.append_nil, hnewText]
      exact hshown
  · constructor
    · rw [buildValues_revised, hnew, hnewText]
    · rw [buildValues_original, hshown]

theorem tokenizeLines_flatten (s : JSString) : (tokenizeLines s).flatten = s := by
  induction s with
  | nil => rfl
  | cons c cs ih =>
    simp only [tokenizeLines]
    split
    · simp [ih]
    · cases hrest : tokenizeLines cs with
      | nil =>
        rw [hrest] at ih
        simp at ih
        simp [← ih]
      | cons t ts =>
        rw [hrest] at ih
        simp only [List.flatten_cons] at ih
        simp [ih]

theorem pushUnit_flatten (c : Nat) (tokens : List JSString) :
    (pushUnit c tokens).flatten = c :: tokens.flatten := by
  unfold pushUnit
  split
  · split <;> simp
  · simp

theorem splitWords_flatten (s : JSString) : (splitWords s).flatten = s := by
  induction s with
  | nil => rfl
  | cons c cs ih =>
    have : splitWords (c :: cs) = pushUnit c (splitWords cs) := rfl
    rw [this, pushUnit_flatten, ih]

theorem joinExtended_flatten (tokens : List JSString) :
    (joinExtended tokens).flatten = tokens.flatten := by
  induction tokens with
  | nil => rfl
  | cons t rest ih =>
    cases hrest : joinExtended rest with
    | nil =>
      rw [hrest] at ih
      simp only [joinExtended, hrest]
      simp [← ih]
    | cons u more =>
      rw [hrest] at ih
      simp only [List.flatten_cons] at ih
      simp only [joinExtended, hrest]
      split <;> simp [ih]

theorem tokenizeWords_flatten (s : JSString) : (tokenizeWords s).flatten = s := by
  rw [tokenizeWords, joinExtended_flatten, splitWords_flatten]

end Diff

theorem stripWhiteSpace_of_blank (t : JSString) (h : Diff.isBlank t = true) :
    stripWhiteSpace t = [] := by
  simp only [Diff.isBlank, List.all_eq_true] at h
  simp only [stripWhiteSpace, List.filter_eq_nil_iff]
  intro c hc
  simp [h c hc]

theorem stripWhiteSpace_of_wordEquals (a b : JSString) (h : Diff.wordEquals a b = true) :
    stripWhiteSpace a = stripWhiteSpace b := by
  simp only [Diff.wordEquals, Bool.or_eq_true, Bool.and_eq_true, beq_iff_eq] at h
  rcases h with h | ⟨ha, hb⟩
  · rw [h]
  · rw [stripWhiteSpace_of_blank a ha, stripWhiteSpace_of_blank b hb]

theorem textWithoutRemoved_format (cs : List Diff.Change) :
    textWithoutRemoved (cs.map formatPart) = Diff.revisedOf cs := by
  induction cs with
  | nil => rfl
  | cons c cs ih =>
    simp only [textWithoutRemoved] at ih
    cases hc : c.removed.getD false <;>
      simp [textWithoutRemoved, Diff.revisedOf, formatPart, List.filter_cons, hc, ih]

theorem textWithoutAdded_format (cs : List Diff.Change) :
    textWithoutAdded (cs.map formatPart) = Diff.originalOf cs := by
  induction cs with
  | nil => rfl
  | cons c cs ih =>
    simp only [textWithoutAdded] at ih
    cases hc : c.added.getD false <;>
      simp [textWithoutAdded, Diff.originalOf, formatPart, List.filter_cons, hc, ih]

/-- C1. For all texts `A` and `B`, the values of the segments of
`generateDiff(A, B).lineDiff` with `removed = false` concatenate to `B`, and the
values of the segments with `added = false` concatenate to `A`. -/
theorem generateDiff_lineDiff_reproduces (A B : JSString) :
    textWithoutRemoved (generateDiff A B).lineDiff = B ∧
    textWithoutAdded (generateDiff A B).lineDiff = A := by
  have h := Diff.diff_reproduces id (fun _ _ => rfl) (fun a b => a == b)
    (fun a b hab => by simpa using hab) Diff.tokenizeLines Diff.tokenizeLines_flatten A B
  simp only [generateDiff, textWithoutRemoved_format, textWithoutAdded_format, Diff.diffLines]
  exact h

/-- C2, as stated, fails: texts that differ in white space only give one unchanged
segment holding the new text, so the segments with `added = false` do not
concatenate to the old text. -/
theorem generateDiff_wordDiff_ignores_whitespace :
    textWithoutAdded (generateDiff (utf16 "a b") (utf16 "a  b")).wordDiff = utf16 "a  b" ∧
    textWithoutAdded (generateDiff (utf16 "a b") (utf16 "a  b")).wordDiff ≠ utf16 "a b" := by
  decide

/-- C2, amended. For all texts `A` and `B`, the values of the segments of
`generateDiff(A, B).wordDiff` with `removed = false` concatenate to `B` up to
white space, and the values of the segments with `added = false` concatenate to
`A` up to white space: the two sides are equal once their white space is
deleted. -/
theorem generateDiff_wordDiff_reproduces (A B : JSString) :
    stripWhiteSpace (textWithoutRemoved (generateDiff A B).wordDiff) = stripWhiteSpace B ∧
    stripWhiteSpace (textWithoutAdded (generateDiff A B).wordDiff) = stripWhiteSpace A := by
  have h := Diff.diff_reproduces stripWhiteSpace
    (fun a b => by simp only [stripWhiteSpace, List.filter_append]) Diff.wordEquals
    stripWhiteSpace_of_wordEquals Diff.tokenizeWords Diff.tokenizeWords_flatten A B
  simp only [generateDiff, textWithoutRemoved_format, textWithoutAdded_format, Diff.diffWords]
  exact h

/-! ### The change summary -/

/-- C5, as stated, fails: a `headline` that is present but empty is replaced by
the default headline. -/
theorem parseChangeSummary_empty_headline :
    matchBraces (utf16 "\x7b\"headline\":\"\",\"summary\":\"x\",\"keywordsAdded\":[\"SQL\"]\x7d")
      = some (utf16 "\x7b\"headline\":\"\",\"summary\":\"x\",\"keywordsAdded\":[\"SQL\"]\x7d") ∧
    jsonParse (utf16 "\x7b\"headline\":\"\",\"summary\":\"x\",\"keywordsAdded\":[\"SQL\"]\x7d")
      = some (.obj [(utf16 "headline", .str []), (utf16 "summary", .str (utf16 "x")),
          (utf16 "keywordsAdded", .arr [.str (utf16 "SQL")])]) ∧
    (parseChangeSummary jsonParse
        (utf16 "\x7b\"headline\":\"\",\"summary\":\"x\",\"keywordsAdded\":[\"SQL\"]\x7d")).headline
      = .str (utf16 "Resume optimized for job requirements") ∧
    (parseChangeSummary jsonParse
        (utf16 "\x7b\"headline\":\"\",\"summary\":\"x\",\"keywordsAdded\":[\"SQL\"]\x7d")).headline
      ≠ .str [] := by
  refine ⟨rfl, rfl, rfl, ?_⟩
  intro h
  have h2 : (Json.str (utf16 "Resume optimized for job requirements")) = .str [] := h
  injection h2 with h3
  exact absurd h3 (by decide)

/-- C5, amended. When the matched span parses to an object, each of `headline`,
`summary` and `keywordsAdded` of the result is the object's member of that
name when that member is present and truthy, and the fixed default when the
member is missing or falsy (`null`, `false`, zero or the empty string). -/
theorem parseChangeSummary_parsed (parse : JSString → Option Json) (raw span : JSString)
    (members : List (JSString × Json)) (hspan : matchBraces raw = some span)
    (hparse : parse span = some (.obj members)) :
    (∀ v, Json.member (utf16 "headline") members = some v → v.truthy = true →
      (parseChangeSummary parse raw).headline = v) ∧
    (∀ v, Json.member (utf16 "summary") members = some v → v.truthy = true →
      (parseChangeSummary parse raw).summary = v) ∧
    (∀ v, Json.member (utf16 "keywordsAdded") members = some v → v.truthy = true →
      (parseChangeSummary parse raw).keywordsAdded = v) ∧
    ((Json.member (utf16 "headline") members = none ∨
        ∃ v, Json.member (utf16 "headline") members = some v ∧ v.truthy = false) →
      (parseChangeSummary parse raw).headline
        = .str (utf16 "Resume optimized for job requirements")) ∧
    ((Json.member (utf16 "summary") members = none ∨
        ∃ v, Json.member (utf16 "summary") members = some v ∧ v.truthy = false) →
      (parseChangeSummary parse raw).summary
        = .str (utf16 "Enhanced resume with relevant keywords and improved phrasing.")) ∧
    ((Json.member (utf16 "keywordsAdded") members = none ∨
        ∃ v, Json.member (utf16 "keywordsAdded") members = some v ∧ v.truthy = false) →
      (parseChangeSummary parse raw).keywordsAdded = .arr []) := by
  have hshape : parseChangeSummary parse raw =
      { headline := orDefault (Json.member (utf16 "headline") members) (.str defaultHeadline)
        summary := orDefault (Json.member (utf16 "summary") members) (.str defaultSummary)
        keywordsAdded := orDefault (Json.member (utf16 "keywordsAdded") members) (.arr []) } := by
    simp only [parseChangeSummary, hspan, hparse, Json.get]
  rw [hshape]
  refine ⟨?_, ?_, ?_, ?_, ?_, ?_⟩
  · intro v hv ht
    simp only [hv, orDefault, ht, if_true]
  · intro v hv ht
    simp only [hv, orDefault, ht, if_true]
  · intro v hv ht
    simp only [hv, orDefault, ht, if_true]
  · rintro (hnone | ⟨v, hv, ht⟩)
    · simp only [hnone, orDefault]; rfl
    · simp only [hv, orDefault, ht]; rfl
  · rintro (hnone | ⟨v, hv, ht⟩)
    · simp only [hnone, orDefault]; rfl
    · simp only [hv, orDefault, ht]; rfl
  · rintro (hnone | ⟨v, hv, ht⟩)
    · simp only [hnone, orDefault]
    · simp only [hv, orDefault, ht]; rfl

set_option maxRecDepth 100000 in
/-- The spec's example for C5: the three fields of
`blah {"headline":"Added SQL keywords","summary":"x","keywordsAdded":["SQL","ETL"]} blah`. -/
theorem parseChangeSummary_parsed_witness :
    (parseChangeSummary jsonParse (utf16
      "blah \x7b\"headline\":\"Added SQL keywords\",\"summary\":\"x\",\"keywordsAdded\":[\"SQL\",\"ETL\"]\x7d blah")).headline
      = .str (utf16 "Added SQL keywords") ∧
    (parseChangeSummary jsonParse (utf16
      "blah \x7b\"headline\":\"Added SQL keywords\",\"summary\":\"x\",\"keywordsAdded\":[\"SQL\",\"ETL\"]\x7d blah")).summary
      = .str (utf16 "x") ∧
    (parseChangeSummary jsonParse (utf16
      "blah \x7b\"headline\":\"Added SQL keywords\",\"summary\":\"x\",\"keywordsAdded\":[\"SQL\",\"ETL\"]\x7d blah")).keywordsAdded
      = .arr [.str (utf16 "SQL"), .str (utf16 "ETL")] :=
  have h := parseChangeSummary_parsed jsonParse
    (utf16 "blah \x7b\"headline\":\"Added SQL keywords\",\"summary\":\"x\",\"keywordsAdded\":[\"SQL\",\"ETL\"]\x7d blah")
    (utf16 "\x7b\"headline\":\"Added SQL keywords\",\"summary\":\"x\",\"keywordsAdded\":[\"SQL\",\"ETL\"]\x7d")
    [(utf16 "headline", .str (utf16 "Added SQL keywords")), (utf16 "summary", .str (utf16 "x")),
      (utf16 "keywordsAdded", .arr [.str (utf16 "SQL"), .str (utf16 "ETL")])] rfl rfl
  ⟨h.1 _ rfl rfl, h.2.1 _ rfl rfl, h.2.2.1 _ rfl rfl⟩

/-- C6. When the raw response holds no `{ ... }` span, or `JSON.parse` rejects the span,
the result is the fallback: the default headline, the first 200 code units of the
raw response as summary (a leading segment of it, of length `min 200 |raw|`) and
no keywords. -/
theorem parseChangeSummary_fallback (parse : JSString → Option Json) (raw : JSString)
    (h : matchBraces raw = none ∨ ∃ span, matchBraces raw = some span ∧ parse span = none) :
    (parseChangeSummary parse raw).headline
      = .str (utf16 "Resume optimized for job requirements") ∧
    (parseChangeSummary parse raw).summary = .str (raw.take 200) ∧
    (parseChangeSummary parse raw).keywordsAdded = .arr [] ∧
    raw.take 200 <+: raw ∧ (raw.take 200).length = min 200 raw.length := by
  have hsub : substring raw 0 200 = raw.take 200 := by
    simp only [substring, Nat.zero_min, Nat.zero_le, min_eq_left, List.drop_zero, Nat.sub_zero,
      max_eq_right]
    rw [List.take_eq_take]
    simp
  have hshape : parseChangeSummary parse raw = fallbackSummary raw := by
    rcases h with hnone | ⟨span, hspan, hparse⟩
    · simp only [parseChangeSummary, hnone]
    · simp only [parseChangeSummary, hspan, hparse]
  rw [hshape]
  refine ⟨rfl, ?_, rfl, List.take_prefix 200 raw, List.length_take 200 raw⟩
  simp only [fallbackSummary, hsub]

/-- The spec's example for C6: `no json here` holds no span and yields the
fallback, with the whole response as summary. -/
theorem parseChangeSummary_fallback_witness :
    (matchBraces (utf16 "no json here") = none ∨
      ∃ span, matchBraces (utf16 "no json here") = some span ∧ jsonParse span = none) ∧
    (parseChangeSummary jsonParse (utf16 "no json here")).headline
      = .str (utf16 "Resume optimized for job requirements") ∧
    (parseChangeSummary jsonParse (utf16 "no json here")).summary
      = .str ((utf16 "no json here").take 200) ∧
    (parseChangeSummary jsonParse (utf16 "no json here")).keywordsAdded = .arr [] ∧
    (utf16 "no json here").take 200 <+: utf16 "no json here" ∧
    ((utf16 "no json here").take 200).length = min 200 (utf16 "no json here").length :=
  ⟨Or.inl rfl, parseChangeSummary_fallback jsonParse (utf16 "no json here") (Or.inl rfl)⟩

/-! ### The single-job handler -/

namespace optimizeController

theorem handleError_store (st : Store) (aiEvents : List Event) (message : JSString) :
    (handleError st aiEvents message).store = st := by
  unfold handleError
  split <;> rfl

/-- The writes of `optimizeAndPersist` follow both AI calls. -/
theorem optimizeAndPersist_store_of_failure (env : Env) (io : Bool) (st : Store) (job : Job)
    (populatedBase : Option Resume) (resumeId : Option Id) (baseResumeText : JSString)
    (hfail : (∃ message, (ResumeOptimizer.optimizeResume env.rewriteNet).2 = .error message) ∨
      (∃ message, (summarizeChanges env.parse env.summaryNet).2 = .error message)) :
    (optimizeAndPersist env io st job populatedBase resumeId baseResumeText).store = st := by
  unfold optimizeAndPersist
  rcases h1 : ResumeOptimizer.optimizeResume env.rewriteNet with ⟨events1, result1⟩
  cases result1 with
  | error message => exact handleError_store st events1 message
  | ok optimizedResumeText =>
    rcases h2 : summarizeChanges env.parse env.summaryNet with ⟨events2, result2⟩
    cases result2 with
    | error message => exact handleError_store st (events1 ++ events2) message
    | ok changesSummary =>
      rcases hfail with ⟨message, hm⟩ | ⟨message, hm⟩
      · rw [h1] at hm
        cases hm
      · rw [h2] at hm
        cases hm

theorem checkTextAndOptimize_store_of_failure (env : Env) (io : Bool) (st : Store) (job : Job)
    (populatedBase : Option Resume) (resumeId : Option Id) (baseResume : Resume)
    (hfail : (∃ message, (ResumeOptimizer.optimizeResume env.rewriteNet).2 = .error message) ∨
      (∃ message, (summarizeChanges env.parse env.summaryNet).2 = .error message)) :
    (checkTextAndOptimize env io st job populatedBase resumeId baseResume).store = st := by
  unfold checkTextAndOptimize
  split
  · rfl
  · split
    · rfl
    · exact optimizeAndPersist_store_of_failure env io st job populatedBase resumeId _ hfail

end optimizeController

/-- C10. When the rewrite call `optimizeResume` or the summary call `summarizeChanges`
of the AI service fails, the single-job handler leaves the store as it was: no
job and no resume is created or modified. -/
theorem optimizeResume_fail_clean (env : optimizeController.Env)
    (req : optimizeController.Request) (st : Store)
    (hfail : (∃ message, (optimizeResume env.rewriteNet).2 = .error message) ∨
      (∃ message, (summarizeChanges env.parse env.summaryNet).2 = .error message)) :
    (optimizeController.optimizeResume env req st).store = st := by
  unfold optimizeController.optimizeResume
  split
  · rfl
  · exact optimizeController.handleError_store st [] _
  · split
    · rfl
    · split
      · exact optimizeController.handleError_store st [] _
      · split
        · rfl
        · exact optimizeController.checkTextAndOptimize_store_of_failure env _ st _ _ _ _ hfail
      · dsimp only
        split
        · exact optimizeController.checkTextAndOptimize_store_of_failure env _ st _ _ _ _ hfail
        · rfl

/-- The summary call fails after a successful rewrite call on a job with a base
resume: the store is left as it was. -/
theorem optimizeResume_fail_clean_witness :
    ((∃ message, (optimizeResume optimizeController.sampleSummaryDown.rewriteNet).2
        = .error message) ∨
      (∃ message, (summarizeChanges optimizeController.sampleSummaryDown.parse
        optimizeController.sampleSummaryDown.summaryNet).2 = .error message)) ∧
    (optimizeController.optimizeResume optimizeController.sampleSummaryDown
      ⟨.valid 1, .absent, true⟩ optimizeController.sampleStore).store
      = optimizeController.sampleStore :=
  ⟨Or.inr ⟨_, rfl⟩,
   optimizeResume_fail_clean optimizeController.sampleSummaryDown ⟨.valid 1, .absent, true⟩
    optimizeController.sampleStore (Or.inr ⟨_, rfl⟩)⟩

/-! ### The store -/

theorem trim_of_blank (t : JSString) (h : t.all isWhiteSpace = true) : trim t = [] := by
  have hdrop : t.dropWhile isWhiteSpace = [] := by
    rw [List.dropWhile_eq_nil_iff]
    intro c hc
    exact List.all_eq_true.mp h c hc
  simp [trim, trimStart, trimEnd, hdrop]

theorem find_some_id {α : Type} (ident : α → Id) (l : List α) (i : Id) (x : α)
    (h : l.find? (fun y => ident y == i) = some x) : ident x = i := by
  have := List.find?_some h
  simpa using this

theorem find_map_replace {α : Type} (ident : α → Id) (l : List α) (i : Id) (x s : α)
    (h : l.find? (fun y => ident y == i) = some x) (hs : ident s = i) :
    (l.map (fun y => if ident y == i then s else y)).find? (fun y => ident y == i) = some s := by
  induction l with
  | nil => simp at h
  | cons a l ih =>
    by_cases ha : ident a = i
    · simp [List.find?_cons, ha, hs]
    · have hne : (ident a == i) = false := by simpa using ha
      rw [List.find?_cons, hne] at h
      simp only [List.map_cons, hne, Bool.false_eq_true, if_false, List.find?_cons]
      exact ih h

theorem find_map_other {α : Type} (ident : α → Id) (l : List α) (i k : Id) (s : α)
    (hs : ident s = i) (hk : k ≠ i) :
    (l.map (fun y => if ident y == i then s else y)).find? (fun y => ident y == k)
      = l.find? (fun y => ident y == k) := by
  induction l with
  | nil => rfl
  | cons a l ih =>
    by_cases ha : ident a = i
    · have h1 : (ident s == k) = false := by
        simp only [beq_eq_false_iff_ne, ne_eq, hs]
        exact fun h => hk h.symm
      have h2 : (i == k) = false := by
        simp only [beq_eq_false_iff_ne, ne_eq]
        exact fun h => hk h.symm
      simp only [List.map_cons, ha, beq_self_eq_true, if_true, List.find?_cons, h1, h2]
      exact ih
    · have hne : (ident a == i) = false := by simpa using ha
      simp only [List.map_cons, hne, Bool.false_eq_true, if_false, List.find?_cons, ih]

theorem findJob_id (st : Store) (i : Id) (job : Job) (h : st.findJob i = some job) :
    job.id = i :=
  find_some_id (fun j : Job => j.id) st.jobs i job h

theorem findResume_id (st : Store) (i : Id) (resume : Resume)
    (h : st.findResume i = some resume) : resume.id = i :=
  find_some_id (fun r : Resume => r.id) st.resumes i resume h

theorem findJob_saveJob (st : Store) (i : Id) (job saved : Job)
    (h : st.findJob i = some job) (hs : saved.id = i) :
    (st.saveJob saved).findJob i = some saved := by
  have := find_map_replace (fun j : Job => j.id) st.jobs i job saved h hs
  simpa [Store.saveJob, Store.findJob, hs] using this

theorem findResume_saveJob (st : Store) (saved : Job) (k : Id) :
    (st.saveJob saved).findResume k = st.findResume k := rfl

theorem findResume_saveResume_existing (st : Store) (existing updated : Resume)
    (h : st.findResume updated.id = some existing) :
    (st.saveResume updated).findResume updated.id = some updated ∧
    (st.saveResume updated).resumes.length = st.resumes.length ∧
    (st.saveResume updated).nextId = st.nextId ∧
    (st.saveResume updated).jobs = st.jobs ∧
    ∀ k, k ≠ updated.id → (st.saveResume updated).findResume k = st.findResume k := by
  have hany : st.resumes.any (fun r => r.id == updated.id) = true := by
    rw [List.any_eq_true]
    exact ⟨existing, List.mem_of_find?_eq_some h, by
      simpa using findResume_id st updated.id existing h⟩
  have hshape : st.saveResume updated
      = { st with resumes := st.resumes.map (fun r => if r.id == updated.id then updated else r) } := by
    simp only [Store.saveResume, hany, if_true]
  rw [hshape]
  refine ⟨?_, ?_, rfl, rfl, ?_⟩
  · exact find_map_replace (fun r : Resume => r.id) st.resumes updated.id existing updated h rfl
  · simp
  · intro k hk
    exact find_map_other (fun r : Resume => r.id) st.resumes updated.id k updated rfl hk

theorem findResume_saveResume (st : Store) (resume : Resume) :
    (st.saveResume resume).findResume resume.id = some resume := by
  cases hfind : st.findResume resume.id with
  | some existing => exact (findResume_saveResume_existing st existing resume hfind).1
  | none =>
    have hany : st.resumes.any (fun r => r.id == resume.id) = false := by
      rw [Bool.eq_false_iff]
      intro htrue
      rw [List.any_eq_true] at htrue
      obtain ⟨r, hr, hid⟩ := htrue
      have := List.find?_eq_none.mp hfind r hr
      exact this hid
    simp only [Store.saveResume, hany, Bool.false_eq_true, if_false, Store.findResume]
    rw [List.find?_append]
    have hnone : st.resumes.find? (fun r => r.id == resume.id) = none := hfind
    simp [hnone]

theorem saveResume_jobs (st : Store) (resume : Resume) :
    (st.saveResume resume).jobs = st.jobs := by
  unfold Store.saveResume
  split <;> rfl

namespace optimizeController

theorem handleError_not_ok (st : Store) (aiEvents : List Event) (message : JSString)
    (result : OptimizeResult) : (handleError st aiEvents message).response ≠ .ok result := by
  unfold handleError
  split <;> exact fun h => Response.noConfusion h

/-- The answer and the store of `optimizeAndPersist` when both AI calls succeed. -/
theorem optimizeAndPersist_of_ok (env : Env) (io : Bool) (st : Store) (job : Job)
    (populatedBase : Option Resume) (resumeId : Option Id) (baseResumeText : JSString)
    (events1 events2 : List Event) (optimizedResumeText : JSString)
    (changesSummary : ChangeSummary)
    (h1 : ResumeOptimizer.optimizeResume env.rewriteNet = (events1, .ok optimizedResumeText))
    (h2 : summarizeChanges env.parse env.summaryNet = (events2, .ok changesSummary)) :
    (optimizeAndPersist env io st job populatedBase resumeId baseResumeText).response
      = .ok
        { jobId := (savedJobOf env job populatedBase resumeId changesSummary
            (optimizedResumeOf st job baseResumeText optimizedResumeText changesSummary)).id
          optimizedResumeText := optimizedResumeText
          changesSummary := changesSummary
          updatedJob :=
            { status := (savedJobOf env job populatedBase resumeId changesSummary
                (optimizedResumeOf st job baseResumeText optimizedResumeText changesSummary)).status
              optimizedOn := (savedJobOf env job populatedBase resumeId changesSummary
                (optimizedResumeOf st job baseResumeText optimizedResumeText
                  changesSummary)).optimizedOn
              changesSummary := (savedJobOf env job populatedBase resumeId changesSummary
                (optimizedResumeOf st job baseResumeText optimizedResumeText
                  changesSummary)).changesSummary }
          diff := generateDiff baseResumeText optimizedResumeText
          stats := getDiffStats (generateDiff baseResumeText optimizedResumeText).lineDiff } ∧
    (optimizeAndPersist env io st job populatedBase resumeId baseResumeText).store
      = (storeAfterResume st job
          (optimizedResumeOf st job baseResumeText optimizedResumeText changesSummary)).saveJob
        (savedJobOf env job populatedBase resumeId changesSummary
          (optimizedResumeOf st job baseResumeText optimizedResumeText changesSummary)) ∧
    (optimizeAndPersist env io st job populatedBase resumeId baseResumeText).aiEvents
      = events1 ++ events2 := by
  refine ⟨?_, ?_, ?_⟩
  · simp only [optimizeAndPersist, h1, h2]
    rfl
  · simp only [optimizeAndPersist, h1, h2]
    rfl
  · simp only [optimizeAndPersist, h1, h2]

end optimizeController

namespace optimizeController

theorem savedJobOf_fields (env : Env) (job : Job) (populatedBase : Option Resume)
    (resumeId : Option Id) (changesSummary : ChangeSummary) (optimizedResume : Resume) :
    (savedJobOf env job populatedBase resumeId changesSummary optimizedResume).id = job.id ∧
    (savedJobOf env job populatedBase resumeId changesSummary optimizedResume).status
      = .optimized ∧
    (savedJobOf env job populatedBase resumeId changesSummary optimizedResume).optimizedOn
      = some env.now ∧
    (savedJobOf env job populatedBase resumeId changesSummary optimizedResume).changesSummary
      = some changesSummary.headline ∧
    (savedJobOf env job populatedBase resumeId changesSummary
      optimizedResume).latestOptimizedResume = some optimizedResume.id := by
  unfold savedJobOf
  cases resumeId with
  | none => exact ⟨rfl, rfl, rfl, rfl, rfl⟩
  | some id =>
    dsimp only
    split <;> exact ⟨rfl, rfl, rfl, rfl, rfl⟩

/-- After the call the job refers to the resume of the request when one is given,
and to its former base resume otherwise. -/
theorem savedJobOf_baseResume (env : Env) (st : Store) (job : Job) (resumeId : Option Id)
    (changesSummary : ChangeSummary) (optimizedResume : Resume) :
    (savedJobOf env job (job.baseResume.bind st.findResume) resumeId changesSummary
      optimizedResume).baseResume
      = (match resumeId with
        | some id => some id
        | none => job.baseResume) := by
  unfold savedJobOf
  cases resumeId with
  | none => rfl
  | some id =>
    dsimp only
    split
    · rfl
    · rename_i hsame
      have hsame2 : some id = Option.map (fun resume : Resume => resume.id)
          (job.baseResume.bind st.findResume) := by
        by_contra hne
        exact hsame hne
      show job.baseResume = some id
      cases hb : job.baseResume with
      | none => simp [hb] at hsame2
      | some b =>
        cases hf : st.findResume b with
        | none => simp [hb, hf] at hsame2
        | some r =>
          have hid : id = r.id := by simpa [hb, hf] using hsame2
          rw [hid, findResume_id st b r hf]

theorem optimizedResumeOf_fields (st : Store) (job : Job)
    (baseResumeText optimizedResumeText : JSString) (changesSummary : ChangeSummary) :
    (optimizedResumeOf st job baseResumeText optimizedResumeText
      changesSummary).optimizedResumeText = some optimizedResumeText ∧
    (optimizedResumeOf st job baseResumeText optimizedResumeText changesSummary).keywordsAdded
      = changesSummary.keywordsAdded := by
  unfold optimizedResumeOf
  split <;> exact ⟨rfl, rfl⟩

theorem storeAfterResume_jobs (st : Store) (job : Job) (resume : Resume) :
    (storeAfterResume st job resume).jobs = st.jobs := by
  unfold storeAfterResume
  split
  · exact saveResume_jobs st resume
  · exact saveResume_jobs st resume

theorem storeAfterResume_findResume (st : Store) (job : Job) (resume : Resume) :
    (storeAfterResume st job resume).findResume resume.id = some resume := by
  unfold storeAfterResume
  split
  · exact findResume_saveResume st resume
  · exact findResume_saveResume st resume

/-- When the job's latest optimized resume exists, the save replaces that document
and touches no other. -/
theorem storeAfterResume_existing (st : Store) (job : Job) (existing : Resume)
    (baseResumeText optimizedResumeText : JSString) (changesSummary : ChangeSummary)
    (hex : job.latestOptimizedResume.bind st.findResume = some existing) :
    optimizedResumeOf st job baseResumeText optimizedResumeText changesSummary
      = { existing with
          optimizedResumeText := some optimizedResumeText
          keywordsAdded := changesSummary.keywordsAdded } ∧
    job.latestOptimizedResume = some existing.id ∧
    (storeAfterResume st job (optimizedResumeOf st job baseResumeText optimizedResumeText
      changesSummary)).resumes.length = st.resumes.length ∧
    ∀ k, k ≠ existing.id →
      (storeAfterResume st job (optimizedResumeOf st job baseResumeText optimizedResumeText
        changesSummary)).findResume k = st.findResume k := by
  have hshape : optimizedResumeOf st job baseResumeText optimizedResumeText changesSummary
      = { existing with
          optimizedResumeText := some optimizedResumeText
          keywordsAdded := changesSummary.keywordsAdded } := by
    simp only [optimizedResumeOf, hex]
  have hlatest : job.latestOptimizedResume = some existing.id ∧
      st.findResume existing.id = some existing := by
    cases hl : job.latestOptimizedResume with
    | none => simp [hl] at hex
    | some l =>
      simp only [hl, Option.bind_some] at hex
      have := findResume_id st l existing hex
      rw [this]
      exact ⟨rfl, this ▸ hex⟩
  have hsave := findResume_saveResume_existing st existing
    { existing with
      optimizedResumeText := some optimizedResumeText
      keywordsAdded := changesSummary.keywordsAdded } hlatest.2
  refine ⟨hshape, hlatest.1, ?_, ?_⟩
  · rw [hshape]
    simp only [storeAfterResume, hex]
    exact hsave.2.1
  · intro k hk
    rw [hshape]
    simp only [storeAfterResume, hex]
    exact hsave.2.2.2.2 k hk

/-- A call that answers with a result has resolved a job and a resume with a base
text, and has gone through `optimizeAndPersist`. -/
theorem optimizeResume_ok_reaches (env : Env) (req : Request) (st : Store)
    (result : OptimizeResult) (hok : (optimizeResume env req st).response = .ok result) :
    ∃ jobId job resumeId baseResume baseResumeText,
      req.jobId = .valid jobId ∧ st.findJob jobId = some job ∧
      ((∃ r, req.resumeId = .valid r ∧ resumeId = some r ∧
          st.findResume r = some baseResume) ∨
        (req.resumeId = .absent ∧ resumeId = none ∧
          job.baseResume.bind st.findResume = some baseResume)) ∧
      baseResume.baseResumeText = some baseResumeText ∧
      optimizeResume env req st
        = optimizeAndPersist env req.io st job (job.baseResume.bind st.findResume) resumeId
            baseResumeText := by
  have hcheck : ∀ (job : Job) (resumeId : Option Id) (baseResume : Resume),
      (checkTextAndOptimize env req.io st job (job.baseResume.bind st.findResume) resumeId
        baseResume).response = .ok result →
      ∃ baseResumeText, baseResume.baseResumeText = some baseResumeText ∧
        checkTextAndOptimize env req.io st job (job.baseResume.bind st.findResume) resumeId
          baseResume
          = optimizeAndPersist env req.io st job (job.baseResume.bind st.findResume) resumeId
              baseResumeText := by
    intro job resumeId baseResume h
    unfold checkTextAndOptimize at h ⊢
    cases htext : baseResume.baseResumeText with
    | none => simp only [htext] at h; exact Response.noConfusion h
    | some text =>
      simp only [htext] at h ⊢
      split at h
      · exact Response.noConfusion h
      · rename_i hne
        exact ⟨text, rfl, by simp only [hne, Bool.false_eq_true, if_false]⟩
  unfold optimizeResume at hok
  cases hj : req.jobId with
  | absent => simp only [hj] at hok; exact Response.noConfusion hok
  | malformed message =>
    simp only [hj] at hok
    exact absurd hok (handleError_not_ok st [] message result)
  | valid jobId =>
    simp only [hj] at hok
    cases hf : st.findJob jobId with
    | none => simp only [hf] at hok; exact Response.noConfusion hok
    | some job =>
      simp only [hf] at hok
      cases hr : req.resumeId with
      | malformed message =>
        simp only [hr] at hok
        exact absurd hok (handleError_not_ok st [] message result)
      | valid r =>
        simp only [hr] at hok
        cases hfr : st.findResume r with
        | none => simp only [hfr] at hok; exact Response.noConfusion hok
        | some baseResume =>
          simp only [hfr] at hok
          obtain ⟨text, htext, heq⟩ := hcheck job (some r) baseResume hok
          refine ⟨jobId, job, some r, baseResume, text, rfl, hf,
            Or.inl ⟨r, rfl, rfl, hfr⟩, htext, ?_⟩
          rw [← heq]
          unfold optimizeResume
          simp only [hj, hf, hr, hfr]
      | absent =>
        simp only [hr] at hok
        cases hp : job.baseResume.bind st.findResume with
        | none => simp only [hp] at hok; exact Response.noConfusion hok
        | some baseResume =>
          simp only [hp] at hok
          have hok2 : (checkTextAndOptimize env req.io st job
              (job.baseResume.bind st.findResume) none baseResume).response = .ok result := by
            rw [hp]; exact hok
          obtain ⟨text, htext, heq⟩ := hcheck job none baseResume hok2
          refine ⟨jobId, job, none, baseResume, text, rfl, hf, Or.inr ⟨rfl, rfl, hp⟩, htext, ?_⟩
          rw [← heq]
          unfold optimizeResume
          simp only [hj, hf, hr, hp]

end optimizeController

namespace optimizeController

theorem optimizeAndPersist_ok_calls (env : Env) (io : Bool) (st : Store) (job : Job)
    (populatedBase : Option Resume) (resumeId : Option Id) (baseResumeText : JSString)
    (result : OptimizeResult)
    (hok : (optimizeAndPersist env io st job populatedBase resumeId baseResumeText).response
      = .ok result) :
    ∃ events1 events2 optimizedResumeText changesSummary,
      ResumeOptimizer.optimizeResume env.rewriteNet = (events1, .ok optimizedResumeText) ∧
      summarizeChanges env.parse env.summaryNet = (events2, .ok changesSummary) := by
  rcases h1 : ResumeOptimizer.optimizeResume env.rewriteNet with ⟨events1, result1⟩
  cases result1 with
  | error message =>
    simp only [optimizeAndPersist, h1] at hok
    exact absurd hok (handleError_not_ok st events1 message result)
  | ok optimizedResumeText =>
    rcases h2 : summarizeChanges env.parse env.summaryNet with ⟨events2, result2⟩
    cases result2 with
    | error message =>
      simp only [optimizeAndPersist, h1, h2] at hok
      exact absurd hok (handleError_not_ok st (events1 ++ events2) message result)
    | ok changesSummary => exact ⟨events1, events2, optimizedResumeText, changesSummary, rfl, rfl⟩

/-- What a call that answers with a result leaves in the store. -/
theorem optimizeResume_ok_store (env : Env) (req : Request) (st : Store)
    (result : OptimizeResult) (hok : (optimizeResume env req st).response = .ok result) :
    ∃ jobId job resumeId baseResume baseResumeText,
      req.jobId = .valid jobId ∧ st.findJob jobId = some job ∧
      ((∃ r, req.resumeId = .valid r ∧ resumeId = some r ∧
          st.findResume r = some baseResume) ∨
        (req.resumeId = .absent ∧ resumeId = none ∧
          job.baseResume.bind st.findResume = some baseResume)) ∧
      baseResume.baseResumeText = some baseResumeText ∧
      result.jobId = jobId ∧
      result.diff = generateDiff baseResumeText result.optimizedResumeText ∧
      (optimizeResume env req st).store
        = (storeAfterResume st job (optimizedResumeOf st job baseResumeText
            result.optimizedResumeText result.changesSummary)).saveJob
          (savedJobOf env job (job.baseResume.bind st.findResume) resumeId
            result.changesSummary
            (optimizedResumeOf st job baseResumeText result.optimizedResumeText
              result.changesSummary)) := by
  obtain ⟨jobId, job, resumeId, baseResume, text, hj, hf, hres, htext, heq⟩ :=
    optimizeResume_ok_reaches env req st result hok
  rw [heq] at hok
  obtain ⟨events1, events2, optimizedResumeText, changesSummary, h1, h2⟩ :=
    optimizeAndPersist_ok_calls env req.io st job _ resumeId text result hok
  obtain ⟨hresp, hstore, _⟩ := optimizeAndPersist_of_ok env req.io st job
    (job.baseResume.bind st.findResume) resumeId text events1 events2 optimizedResumeText
    changesSummary h1 h2
  rw [hresp] at hok
  have hresult := Response.ok.inj hok
  subst hresult
  refine ⟨jobId, job, resumeId, baseResume, text, hj, hf, hres, htext, ?_, rfl, ?_⟩
  · exact ((savedJobOf_fields env job _ resumeId changesSummary _).1).trans
      (findJob_id st jobId job hf)
  · rw [heq, hstore]

end optimizeController

/-- C11. When the resume resolved for the job (the resume of `resumeId` when it is
given, the job's base resume otherwise) has no `baseResumeText`, or one that is
empty or holds white space only, the single-job handler answers 400
`EMPTY_RESUME_ERROR`, sends no request to the AI service, and leaves the store
as it was. -/
theorem optimizeResume_empty_resume (env : optimizeController.Env)
    (req : optimizeController.Request) (st : Store) (jobId : Id) (job : Job)
    (baseResume : Resume)
    (hjob : req.jobId = .valid jobId) (hfind : st.findJob jobId = some job)
    (hresolved : (∃ r, req.resumeId = .valid r ∧ st.findResume r = some baseResume) ∨
      (req.resumeId = .absent ∧ job.baseResume.bind st.findResume = some baseResume))
    (hblank : baseResume.baseResumeText = none ∨
      ∃ text, baseResume.baseResumeText = some text ∧ text.all isWhiteSpace = true) :
    (optimizeController.optimizeResume env req st).response
      = .error 400 (utf16 "EMPTY_RESUME_ERROR") (utf16 "Resume has no text content") none ∧
    (optimizeController.optimizeResume env req st).aiEvents = [] ∧
    (optimizeController.optimizeResume env req st).store = st := by
  have hcheck : ∀ (populatedBase : Option Resume) (resumeId : Option Id),
      optimizeController.checkTextAndOptimize env req.io st job populatedBase resumeId
        baseResume
      = { response := .error 400 (utf16 "EMPTY_RESUME_ERROR")
            (utf16 "Resume has no text content") none
          store := st, aiEvents := [], emitted := [] } := by
    intro populatedBase resumeId
    unfold optimizeController.checkTextAndOptimize
    rcases hblank with hnone | ⟨text, hsome, hall⟩
    · simp only [hnone]
    · simp only [hsome, trim_of_blank text hall, List.length_nil, beq_self_eq_true,
        Bool.or_true, if_true]
  have hshape : optimizeController.optimizeResume env req st
      = { response := .error 400 (utf16 "EMPTY_RESUME_ERROR")
            (utf16 "Resume has no text content") none
          store := st, aiEvents := [], emitted := [] } := by
    unfold optimizeController.optimizeResume
    rcases hresolved with ⟨r, hr, hfr⟩ | ⟨hr, hp⟩
    · simp only [hjob, hfind, hr, hfr, hcheck]
    · simp only [hjob, hfind, hr, hp, hcheck]
  rw [hshape]
  exact ⟨rfl, rfl, rfl⟩

/-- A job whose base resume holds three blanks is answered with
`EMPTY_RESUME_ERROR`. -/
theorem optimizeResume_empty_resume_witness :
    (optimizeController.optimizeResume optimizeController.sampleGoodEnv
      ⟨.valid 1, .absent, true⟩ optimizeController.sampleStoreBlankResume).response
      = .error 400 (utf16 "EMPTY_RESUME_ERROR") (utf16 "Resume has no text content") none ∧
    (optimizeController.optimizeResume optimizeController.sampleGoodEnv
      ⟨.valid 1, .absent, true⟩ optimizeController.sampleStoreBlankResume).aiEvents = [] ∧
    (optimizeController.optimizeResume optimizeController.sampleGoodEnv
      ⟨.valid 1, .absent, true⟩ optimizeController.sampleStoreBlankResume).store
      = optimizeController.sampleStoreBlankResume :=
  optimizeResume_empty_resume optimizeController.sampleGoodEnv ⟨.valid 1, .absent, true⟩
    optimizeController.sampleStoreBlankResume 1 _
    { id := 2, ownerJob := none, baseResumeText := some (utf16 "   "),
      optimizedResumeText := none, files := [], keywordsAdded := .arr [] }
    rfl rfl (Or.inr ⟨rfl, rfl⟩) (Or.inr ⟨utf16 "   ", rfl, by decide⟩)

/-- C12, as stated, fails: the two failures carry the opposite classes. A job without
base resume and without `resumeId` is answered 400 `NO_RESUME_ERROR`, a bad
request and not a not-found answer; a `resumeId` that no resume has is answered
404 `RESUME_NOT_FOUND`, a not-found answer and not a validation error. -/
theorem optimizeResume_resolution_classes :
    (optimizeController.optimizeResume optimizeController.sampleGoodEnv
      ⟨.valid 1, .absent, true⟩ optimizeController.sampleStoreWithoutResume).response
      = .error 400 (utf16 "NO_RESUME_ERROR") (utf16 "No resume associated with job")
          (some (utf16 "Job must have a baseResume or provide resumeId")) ∧
    (optimizeController.optimizeResume optimizeController.sampleGoodEnv
      ⟨.valid 1, .absent, true⟩ optimizeController.sampleStoreWithoutResume).response.status
      ≠ 404 ∧
    (optimizeController.optimizeResume optimizeController.sampleGoodEnv
      ⟨.valid 1, .valid 99, true⟩ optimizeController.sampleStore).response
      = .error 404 (utf16 "RESUME_NOT_FOUND") (utf16 "Resume not found") none ∧
    (optimizeController.optimizeResume optimizeController.sampleGoodEnv
      ⟨.valid 1, .valid 99, true⟩ optimizeController.sampleStore).response.status
      ≠ 400 := by
  refine ⟨rfl, ?_, rfl, ?_⟩ <;> decide

/-- C12, amended. For a job that exists: a `resumeId` that no resume has is answered
404 `RESUME_NOT_FOUND` whatever the job's base resume is; without `resumeId`, a
job whose base resume does not resolve is answered 400 `NO_RESUME_ERROR`; in
both cases nothing is written and no request goes to the AI service. A
`resumeId` that resolves takes precedence: a successful call compares the base
text of that resume with the optimized text, and the job refers to that resume
afterwards. -/
theorem optimizeResume_resolution (env : optimizeController.Env)
    (req : optimizeController.Request) (st : Store) (jobId : Id) (job : Job)
    (hjob : req.jobId = .valid jobId) (hfind : st.findJob jobId = some job) :
    (∀ r, req.resumeId = .valid r → st.findResume r = none →
      (optimizeController.optimizeResume env req st).response
        = .error 404 (utf16 "RESUME_NOT_FOUND") (utf16 "Resume not found") none ∧
      (optimizeController.optimizeResume env req st).store = st ∧
      (optimizeController.optimizeResume env req st).aiEvents = []) ∧
    (req.resumeId = .absent → job.baseResume.bind st.findResume = none →
      (optimizeController.optimizeResume env req st).response
        = .error 400 (utf16 "NO_RESUME_ERROR") (utf16 "No resume associated with job")
            (some (utf16 "Job must have a baseResume or provide resumeId")) ∧
      (optimizeController.optimizeResume env req st).store = st ∧
      (optimizeController.optimizeResume env req st).aiEvents = []) ∧
    (∀ r supplied result, req.resumeId = .valid r → st.findResume r = some supplied →
      (optimizeController.optimizeResume env req st).response = .ok result →
      ∃ text saved, supplied.baseResumeText = some text ∧
        result.diff = generateDiff text result.optimizedResumeText ∧
        (optimizeController.optimizeResume env req st).store.findJob jobId = some saved ∧
        saved.baseResume = some r) := by
  refine ⟨?_, ?_, ?_⟩
  · intro r hr hnone
    have hshape : optimizeController.optimizeResume env req st
        = { response := .error 404 (utf16 "RESUME_NOT_FOUND") (utf16 "Resume not found") none
            store := st, aiEvents := [], emitted := [] } := by
      unfold optimizeController.optimizeResume
      simp only [hjob, hfind, hr, hnone]
    rw [hshape]
    exact ⟨rfl, rfl, rfl⟩
  · intro hr hnone
    have hshape : optimizeController.optimizeResume env req st
        = { response := .error 400 (utf16 "NO_RESUME_ERROR")
              (utf16 "No resume associated with job")
              (some (utf16 "Job must have a baseResume or provide resumeId"))
            store := st, aiEvents := [], emitted := [] } := by
      unfold optimizeController.optimizeResume
      simp only [hjob, hfind, hr, hnone]
    rw [hshape]
    exact ⟨rfl, rfl, rfl⟩
  · intro r supplied result hr hsupplied hok
    obtain ⟨jobId2, job2, resumeId, baseResume, text, hj2, hf2, hres, htext, _, hdiff, hstore⟩ :=
      optimizeController.optimizeResume_ok_store env req st result hok
    have hid : jobId2 = jobId := by
      rw [hjob] at hj2
      exact (optimizeController.RequestId.valid.inj hj2).symm
    subst hid
    have hjob2 : job2 = job := Option.some.inj (hf2.symm.trans hfind)
    subst hjob2
    rcases hres with ⟨r2, hr2, hrid, hfr2⟩ | ⟨habsent, _, _⟩
    · have hr' : r2 = r := by
        rw [hr] at hr2
        exact (optimizeController.RequestId.valid.inj hr2).symm
      subst hr'
      have hbase : baseResume = supplied := Option.some.inj (hfr2.symm.trans hsupplied)
      subst hbase
      subst hrid
      refine ⟨text, optimizeController.savedJobOf env job2 (job2.baseResume.bind st.findResume)
        (some r2) result.changesSummary (optimizeController.optimizedResumeOf st job2 text
          result.optimizedResumeText result.changesSummary), htext, hdiff, ?_, ?_⟩
      · rw [hstore]
        apply findJob_saveJob _ jobId2 job2
        · show (optimizeController.storeAfterResume st job2 _).jobs.find? _ = some job2
          rw [optimizeController.storeAfterResume_jobs]
          exact hf2
        · exact ((optimizeController.savedJobOf_fields env job2 _ _ _ _).1).trans
            (findJob_id st jobId2 job2 hf2)
      · exact optimizeController.savedJobOf_baseResume env st job2 (some r2) _ _
    · rw [hr] at habsent
      exact optimizeController.RequestId.noConfusion habsent

/-- A `resumeId` that no resume has, on a job that has a base resume: the answer is
404 `RESUME_NOT_FOUND` and nothing is written. -/
theorem optimizeResume_resolution_witness :
    (optimizeController.optimizeResume optimizeController.sampleGoodEnv
      ⟨.valid 1, .valid 99, true⟩ optimizeController.sampleStore).response
      = .error 404 (utf16 "RESUME_NOT_FOUND") (utf16 "Resume not found") none ∧
    (optimizeController.optimizeResume optimizeController.sampleGoodEnv
      ⟨.valid 1, .valid 99, true⟩ optimizeController.sampleStore).store
      = optimizeController.sampleStore ∧
    (optimizeController.optimizeResume optimizeController.sampleGoodEnv
      ⟨.valid 1, .valid 99, true⟩ optimizeController.sampleStore).aiEvents = [] :=
  (optimizeResume_resolution optimizeController.sampleGoodEnv ⟨.valid 1, .valid 99, true⟩
    optimizeController.sampleStore 1 _ rfl rfl).1 99 rfl rfl

/-- C13. After every single-job call that answers with a result, the stored job of
the answer's `jobId` has status `Optimized`, an `optimizedOn`, the headline of
the returned change summary as `changesSummary`, and as `latestOptimizedResume`
the id of a stored resume whose `optimizedResumeText` is the optimized text of
the answer. -/
theorem optimizeResume_success_persists (env : optimizeController.Env)
    (req : optimizeController.Request) (st : Store) (result : optimizeController.OptimizeResult)
    (hok : (optimizeController.optimizeResume env req st).response = .ok result) :
    ∃ job resume,
      (optimizeController.optimizeResume env req st).store.findJob result.jobId = some job ∧
      job.status = .optimized ∧
      job.optimizedOn.isSome = true ∧
      job.changesSummary = some result.changesSummary.headline ∧
      job.latestOptimizedResume = some resume.id ∧
      (optimizeController.optimizeResume env req st).store.findResume resume.id = some resume ∧
      resume.optimizedResumeText = some result.optimizedResumeText := by
  obtain ⟨jobId, job, resumeId, baseResume, text, _, hf, _, _, hid, _, hstore⟩ :=
    optimizeController.optimizeResume_ok_store env req st result hok
  obtain ⟨h1, h2, h3, h4, h5⟩ := optimizeController.savedJobOf_fields env job
    (job.baseResume.bind st.findResume) resumeId result.changesSummary
    (optimizeController.optimizedResumeOf st job text result.optimizedResumeText
      result.changesSummary)
  refine ⟨_, _, ?_, h2, ?_, h4, h5, ?_, ?_⟩
  · rw [hstore, hid]
    apply findJob_saveJob _ jobId job
    · show (optimizeController.storeAfterResume st job _).jobs.find? _ = some job
      rw [optimizeController.storeAfterResume_jobs]
      exact hf
    · exact h1.trans (findJob_id st jobId job hf)
  · rw [h3]; rfl
  · rw [hstore, findResume_saveJob]
    exact optimizeController.storeAfterResume_findResume st job _
  · exact (optimizeController.optimizedResumeOf_fields st job text result.optimizedResumeText
      result.changesSummary).1

set_option maxRecDepth 100000 in
/-- A first optimization of the job of the sample store: the call answers with a
result and the stored job is optimized. -/
theorem optimizeResume_success_persists_witness :
    ∃ result,
      (optimizeController.optimizeResume optimizeController.sampleGoodEnv
        ⟨.valid 1, .absent, true⟩ optimizeController.sampleStore).response = .ok result ∧
      ∃ job resume,
        (optimizeController.optimizeResume optimizeController.sampleGoodEnv
          ⟨.valid 1, .absent, true⟩ optimizeController.sampleStore).store.findJob result.jobId
          = some job ∧
        job.status = .optimized ∧
        job.optimizedOn.isSome = true ∧
        job.changesSummary = some result.changesSummary.headline ∧
        job.latestOptimizedResume = some resume.id ∧
        (optimizeController.optimizeResume optimizeController.sampleGoodEnv
          ⟨.valid 1, .absent, true⟩ optimizeController.sampleStore).store.findResume resume.id
          = some resume ∧
        resume.optimizedResumeText = some result.optimizedResumeText :=
  ⟨_, rfl, optimizeResume_success_persists optimizeController.sampleGoodEnv
    ⟨.valid 1, .absent, true⟩ optimizeController.sampleStore _ rfl⟩

set_option maxRecDepth 100000 in
/-- C14, as stated, fails: the base resume may be the very document that holds the
optimized text. Job 1 has resume 3 as base resume and as latest optimized
resume; the re-optimization succeeds and overwrites `optimizedResumeText` of
resume 3, so one field of the base resume has changed. -/
theorem optimizeResume_reoptimize_aliased :
    (optimizeController.sampleAliasedStore.findJob 1).map (fun job => job.baseResume)
      = some (some 3) ∧
    (optimizeController.sampleAliasedStore.findJob 1).map (fun job => job.latestOptimizedResume)
      = some (some 3) ∧
    (optimizeController.sampleAliasedStore.findResume 3).map
        (fun resume => resume.optimizedResumeText)
      = some (some (utf16 "Jane Doe, first pass")) ∧
    (optimizeController.optimizeResume optimizeController.sampleGoodEnv
      ⟨.valid 1, .absent, true⟩ optimizeController.sampleAliasedStore).response.status = 200 ∧
    ((optimizeController.optimizeResume optimizeController.sampleGoodEnv
      ⟨.valid 1, .absent, true⟩ optimizeController.sampleAliasedStore).store.findResume 3).map
        (fun resume => resume.optimizedResumeText)
      = some (some (utf16 "Jane")) := by
  refine ⟨rfl, rfl, rfl, rfl, rfl⟩

/-- C14, amended. When the job's `latestOptimizedResume` resolves to a stored resume
and the single-job call answers with a result, no resume is created, the job
keeps the same `latestOptimizedResume`, that resume differs from its former
state in `optimizedResumeText` and `keywordsAdded` only (its `baseResumeText`,
`ownerJob` and `files` are as before), and every other resume, the base resume
included when it is another document, is left as it was. -/
theorem optimizeResume_reoptimize (env : optimizeController.Env)
    (req : optimizeController.Request) (st : Store) (jobId : Id) (job : Job)
    (existing : Resume) (result : optimizeController.OptimizeResult)
    (hjob : req.jobId = .valid jobId) (hfind : st.findJob jobId = some job)
    (hlatest : job.latestOptimizedResume.bind st.findResume = some existing)
    (hok : (optimizeController.optimizeResume env req st).response = .ok result) :
    (optimizeController.optimizeResume env req st).store.resumes.length = st.resumes.length ∧
    (∃ saved, (optimizeController.optimizeResume env req st).store.findJob jobId = some saved ∧
      saved.latestOptimizedResume = job.latestOptimizedResume) ∧
    (optimizeController.optimizeResume env req st).store.findResume existing.id
      = some { existing with
          optimizedResumeText := some result.optimizedResumeText
          keywordsAdded := result.changesSummary.keywordsAdded } ∧
    ∀ k, k ≠ existing.id →
      (optimizeController.optimizeResume env req st).store.findResume k = st.findResume k := by
  obtain ⟨jobId2, job2, resumeId, baseResume, text, hj2, hf2, _, _, _, _, hstore⟩ :=
    optimizeController.optimizeResume_ok_store env req st result hok
  have hid : jobId2 = jobId := by
    rw [hjob] at hj2
    exact (optimizeController.RequestId.valid.inj hj2).symm
  subst hid
  have hjob2 : job2 = job := Option.some.inj (hf2.symm.trans hfind)
  subst hjob2
  obtain ⟨hshape, hsame, hlen, hframe⟩ := optimizeController.storeAfterResume_existing st job2
    existing text result.optimizedResumeText result.changesSummary hlatest
  obtain ⟨h1, _, _, _, h5⟩ := optimizeController.savedJobOf_fields env job2
    (job2.baseResume.bind st.findResume) resumeId result.changesSummary
    (optimizeController.optimizedResumeOf st job2 text result.optimizedResumeText
      result.changesSummary)
  refine ⟨?_, ⟨optimizeController.savedJobOf env job2 (job2.baseResume.bind st.findResume)
    resumeId result.changesSummary (optimizeController.optimizedResumeOf st job2 text
      result.optimizedResumeText result.changesSummary), ?_, ?_⟩, ?_, ?_⟩
  · rw [hstore]
    exact hlen
  · rw [hstore]
    apply findJob_saveJob _ jobId2 job2
    · show (optimizeController.storeAfterResume st job2 _).jobs.find? _ = some job2
      rw [optimizeController.storeAfterResume_jobs]
      exact hf2
    · exact h1.trans (findJob_id st jobId2 job2 hf2)
  · rw [h5, hsame, hshape]
  · rw [hstore, findResume_saveJob]
    have := optimizeController.storeAfterResume_findResume st job2
      (optimizeController.optimizedResumeOf st job2 text result.optimizedResumeText
        result.changesSummary)
    rw [hshape] at this
    rw [hshape]
    exact this
  · intro k hk
    rw [hstore, findResume_saveJob]
    exact hframe k hk

set_option maxRecDepth 100000 in
/-- A second optimization of job 1 of `sampleOptimizedStore`: resume 3 is overwritten
in place, the store still holds two resumes, and the base resume 2 is as
before. -/
theorem optimizeResume_reoptimize_witness :
    ∃ result,
      (optimizeController.optimizeResume optimizeController.sampleGoodEnv
        ⟨.valid 1, .absent, true⟩ optimizeController.sampleOptimizedStore).response
        = .ok result ∧
      (optimizeController.optimizeResume optimizeController.sampleGoodEnv
        ⟨.valid 1, .absent, true⟩ optimizeController.sampleOptimizedStore).store.resumes.length
        = optimizeController.sampleOptimizedStore.resumes.length ∧
      (∃ saved, (optimizeController.optimizeResume optimizeController.sampleGoodEnv
          ⟨.valid 1, .absent, true⟩ optimizeController.sampleOptimizedStore).store.findJob 1
          = some saved ∧
        saved.latestOptimizedResume = some 3) ∧
      (optimizeController.optimizeResume optimizeController.sampleGoodEnv
        ⟨.valid 1, .absent, true⟩ optimizeController.sampleOptimizedStore).store.findResume 3
        = some
          { id := 3
            ownerJob := some 1
            baseResumeText := some (utf16 "Jane Doe Resume")
            optimizedResumeText := some result.optimizedResumeText
            files := []
            keywordsAdded := result.changesSummary.keywordsAdded } ∧
      ∀ k, k ≠ 3 →
        (optimizeController.optimizeResume optimizeController.sampleGoodEnv
          ⟨.valid 1, .absent, true⟩ optimizeController.sampleOptimizedStore).store.findResume k
          = optimizeController.sampleOptimizedStore.findResume k :=
  ⟨_, rfl, optimizeResume_reoptimize optimizeController.sampleGoodEnv
    ⟨.valid 1, .absent, true⟩ optimizeController.sampleOptimizedStore 1 _
    { id := 3, ownerJob := some 1, baseResumeText := some (utf16 "Jane Doe Resume"),
      optimizedResumeText := some (utf16 "Jane Doe, first pass"), files := [],
      keywordsAdded := .arr [.str (utf16 "Excel")] } _ rfl rfl rfl rfl⟩

/-! ### The batch handler -/

namespace optimizeController

/-- One pass of the loop body appends at most one entry to `results` and at most
one to `errors`, at least one in all, each for the job id of the pass. -/
theorem processJob_step (io : Bool) (jenv : JobEnv) (jobId : RequestId) (s : BatchState) :
    ∃ rs es, (processJob io jenv jobId s).results = s.results ++ rs ∧
      (processJob io jenv jobId s).errors = s.errors ++ es ∧
      (∀ r, r ∈ rs → r.jobId = jobId ∧ r.status = utf16 "success") ∧
      (∀ e, e ∈ es → e.jobId = jobId) ∧
      (rs ≠ [] ∨ es ≠ []) := by
  have hfail : ∀ (message : JSString) (s0 : BatchState),
      s0.results = s.results → s0.errors = s.errors →
      ∃ rs es, (recordError jobId message s0).results = s.results ++ rs ∧
        (recordError jobId message s0).errors = s.errors ++ es ∧
        (∀ r, r ∈ rs → r.jobId = jobId ∧ r.status = utf16 "success") ∧
        (∀ e, e ∈ es → e.jobId = jobId) ∧
        (rs ≠ [] ∨ es ≠ []) := by
    intro message s0 hr he
    refine ⟨[], [{ jobId := jobId, error := message }], ?_, ?_, ?_, ?_, Or.inr (by simp)⟩
    · simp [recordError, hr]
    · simp [recordError, he]
    · intro r hmem; simp at hmem
    · intro e hmem
      simp only [List.mem_singleton] at hmem
      rw [hmem]
  have hpersist : ∀ (job : Job) (text : JSString),
      ∃ rs es, (batchPersist io jenv jobId job text s).results = s.results ++ rs ∧
        (batchPersist io jenv jobId job text s).errors = s.errors ++ es ∧
        (∀ r, r ∈ rs → r.jobId = jobId ∧ r.status = utf16 "success") ∧
        (∀ e, e ∈ es → e.jobId = jobId) ∧
        (rs ≠ [] ∨ es ≠ []) := by
    intro job text
    have hdone : ∀ (s0 : BatchState),
        s0.results = s.results ++ [{ jobId := jobId, status := utf16 "success" }] →
        s0.errors = s.errors →
        ∃ rs es, s0.results = s.results ++ rs ∧ s0.errors = s.errors ++ es ∧
          (∀ r, r ∈ rs → r.jobId = jobId ∧ r.status = utf16 "success") ∧
          (∀ e, e ∈ es → e.jobId = jobId) ∧
          (rs ≠ [] ∨ es ≠ []) := by
      intro s0 hr he
      refine ⟨[{ jobId := jobId, status := utf16 "success" }], [], hr, by simp [he], ?_, ?_,
        Or.inl (by simp)⟩
      · intro r hmem
        simp only [List.mem_singleton] at hmem
        rw [hmem]
        exact ⟨rfl, rfl⟩
      · intro e hmem; simp at hmem
    unfold batchPersist
    rcases ResumeOptimizer.optimizeResume jenv.env.rewriteNet with ⟨events1, result1⟩
    cases result1 with
    | error message => exact hfail message _ rfl rfl
    | ok optimizedResumeText =>
      rcases summarizeChanges jenv.env.parse jenv.env.summaryNet with ⟨events2, result2⟩
      cases result2 with
      | error message => exact hfail message _ rfl rfl
      | ok changesSummary =>
        dsimp only
        cases jenv.faults.saveResume with
        | some message => exact hfail message _ rfl rfl
        | none =>
          dsimp only
          cases jenv.faults.saveJob with
          | some message => exact hfail message _ rfl rfl
          | none =>
            dsimp only
            cases io with
            | false => exact hdone _ rfl rfl
            | true =>
              simp only [if_true]
              cases jenv.faults.notify with
              | none => exact hdone _ rfl rfl
              | some message =>
                refine ⟨[{ jobId := jobId, status := utf16 "success" }],
                  [{ jobId := jobId, error := message }], rfl, rfl, ?_, ?_, Or.inl (by simp)⟩
                · intro r hmem
                  simp only [List.mem_singleton] at hmem
                  rw [hmem]
                  exact ⟨rfl, rfl⟩
                · intro e hmem
                  simp only [List.mem_singleton] at hmem
                  rw [hmem]
  unfold processJob
  cases jobId with
  | malformed message => exact hfail message s rfl rfl
  | absent =>
    dsimp only
    cases jenv.faults.findJob with
    | some message => exact hfail message s rfl rfl
    | none => exact hfail _ s rfl rfl
  | valid id =>
    dsimp only
    cases jenv.faults.findJob with
    | some message => exact hfail message s rfl rfl
    | none =>
      dsimp only
      cases s.store.findJob id with
      | none => exact hfail _ s rfl rfl
      | some job =>
        dsimp only
        cases (job.baseResume.bind s.store.findResume).bind
            (fun resume => resume.baseResumeText) with
        | none => exact hfail _ s rfl rfl
        | some text =>
          dsimp only
          split
          · exact hfail _ s rfl rfl
          · exact hpersist job text

end optimizeController

namespace optimizeController

theorem sublist_of_step (jobId : RequestId) (ids : List RequestId) (step rest : List RequestId)
    (hstep : ∀ x, x ∈ step → x = jobId) (hlen : step.length ≤ 1)
    (hrest : rest.Sublist ids) : (step ++ rest).Sublist (jobId :: ids) := by
  cases step with
  | nil => exact List.Sublist.cons jobId hrest
  | cons x xs =>
    cases xs with
    | nil =>
      have hx : x = jobId := hstep x (by simp)
      rw [hx]
      exact List.Sublist.cons₂ jobId hrest
    | cons y ys => simp at hlen

/-- One pass appends at most one entry to each of the two arrays. -/
theorem processJob_step_length (io : Bool) (jenv : JobEnv) (jobId : RequestId)
    (s : BatchState) :
    (processJob io jenv jobId s).results.length ≤ s.results.length + 1 ∧
    (processJob io jenv jobId s).errors.length ≤ s.errors.length + 1 := by
  have hfail : ∀ (message : JSString) (s0 : BatchState),
      s0.results = s.results → s0.errors = s.errors →
      (recordError jobId message s0).results.length ≤ s.results.length + 1 ∧
      (recordError jobId message s0).errors.length ≤ s.errors.length + 1 := by
    intro message s0 hr he
    simp [recordError, hr, he]
  unfold processJob
  cases jobId with
  | malformed message => exact hfail message s rfl rfl
  | absent =>
    dsimp only
    cases jenv.faults.findJob with
    | some message => exact hfail message s rfl rfl
    | none => exact hfail _ s rfl rfl
  | valid id =>
    dsimp only
    cases jenv.faults.findJob with
    | some message => exact hfail message s rfl rfl
    | none =>
      dsimp only
      cases s.store.findJob id with
      | none => exact hfail _ s rfl rfl
      | some job =>
        dsimp only
        cases (job.baseResume.bind s.store.findResume).bind
            (fun resume => resume.baseResumeText) with
        | none => exact hfail _ s rfl rfl
        | some text =>
          dsimp only
          split
          · exact hfail _ s rfl rfl
          · unfold batchPersist
            rcases ResumeOptimizer.optimizeResume jenv.env.rewriteNet with ⟨events1, result1⟩
            cases result1 with
            | error message => exact hfail message _ rfl rfl
            | ok optimizedResumeText =>
              rcases summarizeChanges jenv.env.parse jenv.env.summaryNet with ⟨events2, result2⟩
              cases result2 with
              | error message => exact hfail message _ rfl rfl
              | ok changesSummary =>
                dsimp only
                cases jenv.faults.saveResume with
                | some message => exact hfail message _ rfl rfl
                | none =>
                  dsimp only
                  cases jenv.faults.saveJob with
                  | some message => exact hfail message _ rfl rfl
                  | none =>
                    dsimp only
                    cases io with
                    | false => simp
                    | true =>
                      simp only [if_true]
                      cases jenv.faults.notify with
                      | none => simp
                      | some message => simp [recordError]

/-- The loop appends to the two arrays, in the order of the job ids, and leaves an
entry for every job id. -/
theorem batchLoop_entries (io : Bool) (envs : Nat → JobEnv) :
    ∀ (ids : List RequestId) (i : Nat) (s : BatchState),
      ∃ rs es, (batchLoop io envs ids i s).results = s.results ++ rs ∧
        (batchLoop io envs ids i s).errors = s.errors ++ es ∧
        (rs.map (fun r => r.jobId)).Sublist ids ∧
        (es.map (fun e => e.jobId)).Sublist ids ∧
        (∀ id, id ∈ ids → id ∈ rs.map (fun r => r.jobId) ∨ id ∈ es.map (fun e => e.jobId)) ∧
        (∀ r, r ∈ rs → r.status = utf16 "success") := by
  intro ids
  induction ids with
  | nil =>
    intro i s
    exact ⟨[], [], by simp [batchLoop], by simp [batchLoop], List.Sublist.slnil,
      List.Sublist.slnil, by simp, by simp⟩
  | cons jobId rest ih =>
    intro i s
    obtain ⟨rs1, es1, hr1, he1, hrs1, hes1, hsome⟩ := processJob_step io (envs i) jobId s
    obtain ⟨hlr, hle⟩ := processJob_step_length io (envs i) jobId s
    obtain ⟨rs2, es2, hr2, he2, hsub_r, hsub_e, hall, hstatus⟩ :=
      ih (i + 1) (processJob io (envs i) jobId s)
    have hlen_r : rs1.length ≤ 1 := by
      rw [hr1, List.length_append] at hlr
      omega
    have hlen_e : es1.length ≤ 1 := by
      rw [he1, List.length_append] at hle
      omega
    refine ⟨rs1 ++ rs2, es1 ++ es2, ?_, ?_, ?_, ?_, ?_, ?_⟩
    · simp only [batchLoop, hr2, hr1, List.append_assoc]
    · simp only [batchLoop, he2, he1, List.append_assoc]
    · rw [List.map_append]
      apply sublist_of_step jobId rest _ _ _ (by simpa using hlen_r) hsub_r
      intro x hx
      obtain ⟨r, hr, rfl⟩ := List.mem_map.mp hx
      exact (hrs1 r hr).1
    · rw [List.map_append]
      apply sublist_of_step jobId rest _ _ _ (by simpa using hlen_e) hsub_e
      intro x hx
      obtain ⟨e, he, rfl⟩ := List.mem_map.mp hx
      exact hes1 e he
    · intro id hid
      rcases List.mem_cons.mp hid with rfl | hrest
      · rcases hsome with hne | hne
        · left
          obtain ⟨r, rs', hcons⟩ := List.exists_cons_of_ne_nil hne
          have hr : r ∈ rs1 := by rw [hcons]; simp
          rw [List.map_append, List.mem_append]
          exact Or.inl (List.mem_map.mpr ⟨r, hr, (hrs1 r hr).1⟩)
        · right
          obtain ⟨e, es', hcons⟩ := List.exists_cons_of_ne_nil hne
          have he : e ∈ es1 := by rw [hcons]; simp
          rw [List.map_append, List.mem_append]
          exact Or.inl (List.mem_map.mpr ⟨e, he, hes1 e he⟩)
      · rcases hall id hrest with h | h
        · left
          rw [List.map_append, List.mem_append]
          exact Or.inr h
        · right
          rw [List.map_append, List.mem_append]
          exact Or.inr h
    · intro r hr
      rcases List.mem_append.mp hr with h | h
      · exact (hrs1 r h).2
      · exact hstatus r h

/-- The answer of `batchOptimize` to a non-empty array. -/
theorem batchOptimize_of_nonempty (envs : Nat → JobEnv) (io : Bool) (st : Store)
    (ids : List RequestId) (hne : ids ≠ []) :
    batchOptimize envs ⟨some ids, io⟩ st
      = { response := .ok
            { message := utf16 "Batch optimization completed"
              results := (batchLoop io envs ids 0
                { store := st, results := [], errors := [], trace := [], emitted := [] }).results
              errors := (batchLoop io envs ids 0
                { store := st, results := [], errors := [], trace := [], emitted := [] }).errors
              summary :=
                { total := ids.length
                  successful := (batchLoop io envs ids 0
                    { store := st, results := [], errors := [], trace := [],
                      emitted := [] }).results.length
                  failed := (batchLoop io envs ids 0
                    { store := st, results := [], errors := [], trace := [],
                      emitted := [] }).errors.length } }
          store := (batchLoop io envs ids 0
            { store := st, results := [], errors := [], trace := [], emitted := [] }).store
          trace := (batchLoop io envs ids 0
            { store := st, results := [], errors := [], trace := [], emitted := [] }).trace
          emitted := (batchLoop io envs ids 0
            { store := st, results := [], errors := [], trace := [], emitted := [] }).emitted } := by
  cases ids with
  | nil => exact absurd rfl hne
  | cons jobId rest => rfl

end optimizeController

theorem find_map_replace_none {α : Type} (ident : α → Id) (l : List α) (i k : Id) (s : α)
    (hs : ident s = i) (h : l.find? (fun y => ident y == k) = none) :
    (l.map (fun y => if ident y == i then s else y)).find? (fun y => ident y == k) = none := by
  rw [List.find?_eq_none] at h ⊢
  intro y hy
  obtain ⟨x, hx, rfl⟩ := List.mem_map.mp hy
  have hxk := h x hx
  by_cases hxi : ident x = i
  · simp only [hxi, beq_self_eq_true, if_true, hs]
    rw [← hxi]
    exact hxk
  · have hne : (ident x == i) = false := by simpa using hxi
    simp only [hne, Bool.false_eq_true, if_false]
    exact hxk

namespace optimizeController

/-- The jobs of the store after the persistence step: as before, or with the job of
the pass replaced by a job of the same id. -/
theorem batchPersist_jobs (io : Bool) (jenv : JobEnv) (jobId : RequestId) (job : Job)
    (text : JSString) (s : BatchState) :
    (batchPersist io jenv jobId job text s).store.jobs = s.store.jobs ∨
    ∃ saved : Job, saved.id = job.id ∧
      (batchPersist io jenv jobId job text s).store.jobs
        = s.store.jobs.map (fun j => if j.id == saved.id then saved else j) := by
  unfold batchPersist
  rcases ResumeOptimizer.optimizeResume jenv.env.rewriteNet with ⟨events1, result1⟩
  cases result1 with
  | error message => exact Or.inl rfl
  | ok optimizedResumeText =>
    rcases summarizeChanges jenv.env.parse jenv.env.summaryNet with ⟨events2, result2⟩
    cases result2 with
    | error message => exact Or.inl rfl
    | ok changesSummary =>
      dsimp only
      cases jenv.faults.saveResume with
      | some message => exact Or.inl rfl
      | none =>
        dsimp only
        cases jenv.faults.saveJob with
        | some message => exact Or.inl (saveResume_jobs s.store _)
        | none =>
          dsimp only
          right
          refine ⟨{ job with
            status := .optimized
            optimizedOn := some jenv.env.now
            changesSummary := some changesSummary.headline
            latestOptimizedResume := some s.store.nextId }, rfl, ?_⟩
          cases io with
          | false =>
            show (s.store.saveResume _).jobs.map _ = _
            rw [saveResume_jobs]
          | true =>
            simp only [if_true]
            cases jenv.faults.notify with
            | none =>
              show (s.store.saveResume _).jobs.map _ = _
              rw [saveResume_jobs]
            | some message =>
              show (s.store.saveResume _).jobs.map _ = _
              rw [saveResume_jobs]

/-- The persistence step adds no job id to the store. -/
theorem batchPersist_findJob_none (io : Bool) (jenv : JobEnv) (jobId : RequestId) (job : Job)
    (text : JSString) (s : BatchState) (k : Id) (h : s.store.findJob k = none) :
    (batchPersist io jenv jobId job text s).store.findJob k = none := by
  rcases batchPersist_jobs io jenv jobId job text s with hsame | ⟨saved, _, hmap⟩
  · show (batchPersist io jenv jobId job text s).store.jobs.find? _ = none
    rw [hsame]
    exact h
  · show (batchPersist io jenv jobId job text s).store.jobs.find? _ = none
    rw [hmap]
    exact find_map_replace_none (fun j : Job => j.id) s.store.jobs saved.id k saved rfl h

/-- One pass of the loop body adds no job id to the store, and adds no entry to
`results` for a job id that resolves to no job. -/
theorem processJob_unresolved (io : Bool) (jenv : JobEnv) (jobId : RequestId)
    (s : BatchState) :
    (∀ k, s.store.findJob k = none → (processJob io jenv jobId s).store.findJob k = none) ∧
    ((∀ k, jobId = .valid k → s.store.findJob k = none) →
      (processJob io jenv jobId s).results = s.results) := by
  unfold processJob
  cases jobId with
  | malformed message => exact ⟨fun _ h => h, fun _ => rfl⟩
  | absent =>
    dsimp only
    cases jenv.faults.findJob with
    | some message => exact ⟨fun _ h => h, fun _ => rfl⟩
    | none => exact ⟨fun _ h => h, fun _ => rfl⟩
  | valid id =>
    dsimp only
    cases jenv.faults.findJob with
    | some message => exact ⟨fun _ h => h, fun _ => rfl⟩
    | none =>
      dsimp only
      cases hfind : s.store.findJob id with
      | none => exact ⟨fun _ h => h, fun _ => rfl⟩
      | some job =>
        dsimp only
        cases (job.baseResume.bind s.store.findResume).bind
            (fun resume => resume.baseResumeText) with
        | none => exact ⟨fun _ h => h, fun _ => rfl⟩
        | some text =>
          dsimp only
          split
          · exact ⟨fun _ h => h, fun _ => rfl⟩
          · refine ⟨fun k h => batchPersist_findJob_none io jenv _ job text s k h, ?_⟩
            intro hnone
            have := hnone id rfl
            rw [hfind] at this
            exact Option.noConfusion this

/-- The loop adds no entry to `results` for a job id that resolves to no job of the
store. -/
theorem batchLoop_unresolved (io : Bool) (envs : Nat → JobEnv) (id : RequestId) :
    ∀ (ids : List RequestId) (i : Nat) (s : BatchState),
      (∀ k, id = .valid k → s.store.findJob k = none) →
      id ∉ s.results.map (fun r => r.jobId) →
      id ∉ (batchLoop io envs ids i s).results.map (fun r => r.jobId) := by
  intro ids
  induction ids with
  | nil => intro i s _ h; exact h
  | cons jobId rest ih =>
    intro i s hnone hnot
    obtain ⟨hkeep, hres⟩ := processJob_unresolved io (envs i) jobId s
    obtain ⟨rs, es, hr, _, hrs, _, _⟩ := processJob_step io (envs i) jobId s
    apply ih (i + 1) (processJob io (envs i) jobId s)
    · intro k hk
      exact hkeep k (hnone k hk)
    · by_cases hsame : jobId = id
      · rw [hres (by rw [hsame]; exact hnone)]
        exact hnot
      · rw [hr, List.map_append, List.mem_append]
        rintro (h | h)
        · exact hnot h
        · obtain ⟨r, hr', hid⟩ := List.mem_map.mp h
          exact hsame ((hrs r hr').1.symm.trans hid)

end optimizeController

namespace optimizeController

/-- What the steps after the check of the base text record: the message of the
first step that fails in `errors`, and `success` in `results` once both writes
are made. -/
theorem batchPersist_records (io : Bool) (jenv : JobEnv) (jobId : RequestId) (job : Job)
    (baseResumeText : JSString) (s : BatchState) :
    (batchPersist io jenv jobId job baseResumeText s).errors
      = s.errors ++ (persistFailure io jenv).toList.map
          (fun message => { jobId := jobId, error := message }) ∧
    (batchPersist io jenv jobId job baseResumeText s).results
      = s.results ++ (if persistSaved jenv then [{ jobId := jobId, status := utf16 "success" }]
          else []) := by
  unfold batchPersist persistFailure persistSaved
  rcases h1 : ResumeOptimizer.optimizeResume jenv.env.rewriteNet with ⟨events1, result1⟩
  cases result1 with
  | error message => simp [recordError]
  | ok optimizedResumeText =>
    rcases h2 : summarizeChanges jenv.env.parse jenv.env.summaryNet with ⟨events2, result2⟩
    cases result2 with
    | error message => simp [recordError]
    | ok changesSummary =>
      cases hsr : jenv.faults.saveResume with
      | some message => simp [recordError]
      | none =>
        cases hsj : jenv.faults.saveJob with
        | some message => simp [recordError]
        | none =>
          cases io with
          | false => simp
          | true =>
            cases hn : jenv.faults.notify with
            | some message => simp [recordError]
            | none => simp

/-- What one pass of the loop body records for its job id. -/
theorem processJob_records (io : Bool) (jenv : JobEnv) (jobId : RequestId) (s : BatchState) :
    (processJob io jenv jobId s).errors
      = s.errors ++ (failureOf io jenv jobId s).toList.map
          (fun message => { jobId := jobId, error := message }) ∧
    (processJob io jenv jobId s).results
      = s.results ++ (if savedOf jenv jobId s then [{ jobId := jobId, status := utf16 "success" }]
          else []) := by
  unfold processJob failureOf savedOf
  cases jobId with
  | malformed message => simp [recordError]
  | absent =>
    cases jenv.faults.findJob with
    | some message => simp [recordError]
    | none => simp [recordError]
  | valid id =>
    cases jenv.faults.findJob with
    | some message => simp [recordError]
    | none =>
      cases hjob : s.store.findJob id with
      | none => simp [recordError, hjob]
      | some job =>
        cases htext : (job.baseResume.bind s.store.findResume).bind
            (fun resume => resume.baseResumeText) with
        | none => simp [recordError, hjob, htext]
        | some text =>
          cases text with
          | nil => simp [recordError, hjob, htext]
          | cons c cs =>
            simp only [hjob, htext, List.isEmpty_cons, Bool.false_eq_true, if_false]
            exact batchPersist_records io jenv (.valid id) job (c :: cs) s

/-- The loop over a list of job ids that is cut in two. -/
theorem batchLoop_append (io : Bool) (envs : Nat → JobEnv) :
    ∀ (xs ys : List RequestId) (i : Nat) (s : BatchState),
      batchLoop io envs (xs ++ ys) i s
        = batchLoop io envs ys (i + xs.length) (batchLoop io envs xs i s) := by
  intro xs
  induction xs with
  | nil => intro ys i s; rfl
  | cons x xs ih =>
    intro ys i s
    have hidx : i + (x :: xs).length = i + 1 + xs.length := by
      simp only [List.length_cons]; omega
    rw [hidx]
    exact ih ys (i + 1) (processJob io (envs i) x s)

end optimizeController

/-- C17. For every non-empty array of job ids and every behaviour of the AI service,
the storage and the notification, `batchOptimize` answers with the payload;
the job ids of `results` and the job ids of `errors` follow the order of the
array, every job id of the array has an entry in `results` or in `errors`
whatever happened to the ids before it, every entry of `results` has status
`success`, a job id that resolves to no job of the store has no entry in
`results` (so its entry is in `errors`), and `summary.total` is the length of
the array. Each job id of the array is recorded when it is reached: after the
entries of the ids before it, `errors` holds its entry with the message of its
failure (cast or query error, `Job not found`, `No resume text available`, the
error of an AI call, of a write or of the notification) when it fails and no
entry of it otherwise, `results` holds its entry `success` when both writes
are made and no entry of it otherwise, and the entries of the later ids
follow. -/
theorem batchOptimize_isolation (envs : Nat → optimizeController.JobEnv) (io : Bool)
    (st : Store) (ids : List optimizeController.RequestId) (hne : ids ≠ []) :
    (∃ payload,
      (optimizeController.batchOptimize envs ⟨some ids, io⟩ st).response = .ok payload ∧
      (payload.results.map (fun r => r.jobId)).Sublist ids ∧
      (payload.errors.map (fun e => e.jobId)).Sublist ids ∧
      (∀ id, id ∈ ids → id ∈ payload.results.map (fun r => r.jobId) ∨
        id ∈ payload.errors.map (fun e => e.jobId)) ∧
      (∀ r, r ∈ payload.results → r.status = utf16 "success") ∧
      (∀ id, (∀ k, id = .valid k → st.findJob k = none) →
        id ∉ payload.results.map (fun r => r.jobId)) ∧
      payload.summary.total = ids.length) ∧
    (∀ pre id post, ids = pre ++ id :: post →
      ∃ laterResults laterErrors,
        (optimizeController.batchOptimize envs ⟨some ids, io⟩ st).response.payload?.map
            (fun p => p.errors)
          = some ((optimizeController.batchLoop io envs pre 0
                { store := st, results := [], errors := [], trace := [], emitted := [] }).errors ++
              (optimizeController.failureOf io (envs pre.length) id
                (optimizeController.batchLoop io envs pre 0
                  { store := st, results := [], errors := [], trace := [],
                    emitted := [] })).toList.map
                (fun message => { jobId := id, error := message }) ++
              laterErrors) ∧
        (optimizeController.batchOptimize envs ⟨some ids, io⟩ st).response.payload?.map
            (fun p => p.results)
          = some ((optimizeController.batchLoop io envs pre 0
                { store := st, results := [], errors := [], trace := [], emitted := [] }).results ++
              (if optimizeController.savedOf (envs pre.length) id
                  (optimizeController.batchLoop io envs pre 0
                    { store := st, results := [], errors := [], trace := [], emitted := [] })
                then [{ jobId := id, status := utf16 "success" }] else []) ++
              laterResults)) := by
  obtain ⟨rs, es, hr, he, hsr, hse, hall, hstatus⟩ :=
    optimizeController.batchLoop_entries io envs ids 0
      { store := st, results := [], errors := [], trace := [], emitted := [] }
  have hunresolved := fun id => optimizeController.batchLoop_unresolved io envs id ids 0
    { store := st, results := [], errors := [], trace := [], emitted := [] }
  rw [optimizeController.batchOptimize_of_nonempty envs io st ids hne]
  refine ⟨⟨_, rfl, ?_, ?_, ?_, ?_, ?_, rfl⟩, ?_⟩
  · simp only [hr, List.nil_append]
    exact hsr
  · simp only [he, List.nil_append]
    exact hse
  · simp only [hr, he, List.nil_append]
    exact hall
  · simp only [hr, List.nil_append]
    exact hstatus
  · intro id hnone
    exact hunresolved id hnone (by simp)
  · intro pre id post hsplit
    obtain ⟨hperr, hpres⟩ := optimizeController.processJob_records io (envs pre.length) id
      (optimizeController.batchLoop io envs pre 0
        { store := st, results := [], errors := [], trace := [], emitted := [] })
    obtain ⟨rs2, es2, hr2, he2, _⟩ := optimizeController.batchLoop_entries io envs post
      (pre.length + 1)
      (optimizeController.processJob io (envs pre.length) id
        (optimizeController.batchLoop io envs pre 0
          { store := st, results := [], errors := [], trace := [], emitted := [] }))
    have hloop : optimizeController.batchLoop io envs ids 0
        { store := st, results := [], errors := [], trace := [], emitted := [] }
        = optimizeController.batchLoop io envs post (pre.length + 1)
            (optimizeController.processJob io (envs pre.length) id
              (optimizeController.batchLoop io envs pre 0
                { store := st, results := [], errors := [], trace := [], emitted := [] })) := by
      rw [hsplit, optimizeController.batchLoop_append, Nat.zero_add]
      rfl
    refine ⟨rs2, es2, ?_, ?_⟩
    · show some (optimizeController.batchLoop io envs ids 0 _).errors = _
      rw [hloop, he2, hperr]
    · show some (optimizeController.batchLoop io envs ids 0 _).results = _
      rw [hloop, hr2, hpres]

set_option maxRecDepth 100000 in
/-- The spec's example for C17: of the job ids 1, 2, 3, where no job has the id 2
and the two others succeed, `results` holds 1 and 3, `errors` holds the one
entry `Job not found` for 2, and `summary.total` is 3. When the summary call of
job 1 is rate-limited, or its `job.save()` fails, `errors` holds its entry with
that message and job 3 is processed and succeeds. -/
theorem batchOptimize_isolation_witness :
    (∃ payload, (optimizeController.batchOptimize optimizeController.sampleBatchEnv
        ⟨some [.valid 1, .valid 2, .valid 3], true⟩
        optimizeController.sampleTwoJobs).response = .ok payload ∧
      (payload.results.map (fun r => r.jobId)).Sublist [.valid 1, .valid 2, .valid 3] ∧
      (payload.errors.map (fun e => e.jobId)).Sublist [.valid 1, .valid 2, .valid 3] ∧
      (∀ id, id ∈ [optimizeController.RequestId.valid 1, .valid 2, .valid 3] →
        id ∈ payload.results.map (fun r => r.jobId) ∨
        id ∈ payload.errors.map (fun e => e.jobId)) ∧
      (∀ r, r ∈ payload.results → r.status = utf16 "success") ∧
      (∀ id, (∀ k, id = .valid k → optimizeController.sampleTwoJobs.findJob k = none) →
        id ∉ payload.results.map (fun r => r.jobId)) ∧
      payload.summary.total = [optimizeController.RequestId.valid 1, .valid 2, .valid 3].length) ∧
    (optimizeController.batchOptimize optimizeController.sampleBatchEnv
      ⟨some [.valid 1, .valid 2, .valid 3], true⟩
      optimizeController.sampleTwoJobs).response.payload?.map (fun p => p.results)
      = some [⟨.valid 1, utf16 "success"⟩, ⟨.valid 3, utf16 "success"⟩] ∧
    (optimizeController.batchOptimize optimizeController.sampleBatchEnv
      ⟨some [.valid 1, .valid 2, .valid 3], true⟩
      optimizeController.sampleTwoJobs).response.payload?.map (fun p => p.errors)
      = some [⟨.valid 2, utf16 "Job not found"⟩] ∧
    (optimizeController.batchOptimize optimizeController.sampleBatchEnv
      ⟨some [.valid 1, .valid 2, .valid 3], true⟩
      optimizeController.sampleTwoJobs).response.payload?.map (fun p => p.summary.total)
      = some 3 ∧
    (∃ laterResults laterErrors,
      (optimizeController.batchOptimize optimizeController.sampleFirstDown
          ⟨some [.valid 1, .valid 3], true⟩
          optimizeController.sampleTwoJobs).response.payload?.map (fun p => p.errors)
        = some ([] ++ [⟨.valid 1, utf16
            "Gemini API call failed after 3 attempts: Request failed with status code 429"⟩] ++
            laterErrors) ∧
      (optimizeController.batchOptimize optimizeController.sampleFirstDown
          ⟨some [.valid 1, .valid 3], true⟩
          optimizeController.sampleTwoJobs).response.payload?.map (fun p => p.results)
        = some ([] ++ [] ++ laterResults)) ∧
    (optimizeController.batchOptimize optimizeController.sampleFirstDown
      ⟨some [.valid 1, .valid 3], true⟩
      optimizeController.sampleTwoJobs).response.payload?.map (fun p => (p.results, p.errors))
      = some ([⟨.valid 3, utf16 "success"⟩], [⟨.valid 1, utf16
          "Gemini API call failed after 3 attempts: Request failed with status code 429"⟩]) ∧
    (optimizeController.batchOptimize optimizeController.sampleFirstSaveDown
      ⟨some [.valid 1, .valid 3], true⟩
      optimizeController.sampleTwoJobs).response.payload?.map (fun p => (p.results, p.errors))
      = some ([⟨.valid 3, utf16 "success"⟩], [⟨.valid 1, utf16 "disk full"⟩]) :=
  ⟨(batchOptimize_isolation optimizeController.sampleBatchEnv true
      optimizeController.sampleTwoJobs [.valid 1, .valid 2, .valid 3] (by simp)).1,
   rfl, rfl, rfl,
   (batchOptimize_isolation optimizeController.sampleFirstDown true
      optimizeController.sampleTwoJobs [.valid 1, .valid 3] (by simp)).2
      [] (.valid 1) [.valid 3] rfl,
   rfl, rfl⟩

set_option maxRecDepth 100000 in
/-- C15 fails on the code: `batchOptimize` creates a new resume for a job that already
has a latest optimized resume. Job 1 of the sample store refers to resume 3;
after the batch the store holds three resumes instead of two, the job refers
to the new resume 4, and resume 3 still holds the former optimized text. -/
theorem batchOptimize_creates_resume :
    optimizeController.sampleOptimizedStore.resumes.length = 2 ∧
    (optimizeController.sampleOptimizedStore.findJob 1).map
        (fun job => job.latestOptimizedResume) = some (some 3) ∧
    (optimizeController.batchOptimize optimizeController.sampleBatchEnv
      ⟨some [.valid 1], true⟩ optimizeController.sampleOptimizedStore).response.payload?.map
        (fun p => p.results) = some [⟨.valid 1, utf16 "success"⟩] ∧
    (optimizeController.batchOptimize optimizeController.sampleBatchEnv
      ⟨some [.valid 1], true⟩ optimizeController.sampleOptimizedStore).store.resumes.length
      = 3 ∧
    ((optimizeController.batchOptimize optimizeController.sampleBatchEnv
      ⟨some [.valid 1], true⟩ optimizeController.sampleOptimizedStore).store.findJob 1).map
        (fun job => job.latestOptimizedResume) = some (some 4) ∧
    ((optimizeController.batchOptimize optimizeController.sampleBatchEnv
      ⟨some [.valid 1], true⟩ optimizeController.sampleOptimizedStore).store.findResume 3).map
        (fun resume => resume.optimizedResumeText)
      = some (some (utf16 "Jane Doe, first pass")) := by
  refine ⟨rfl, rfl, rfl, rfl, rfl, rfl⟩

set_option maxRecDepth 100000 in
/-- C18 fails on the code: the entry in `results` is pushed before the query for the
populated job. When that query fails after `job.save()`, the job id is
recorded in `results` and in `errors`: for one job id the summary is
`total = 1`, `successful = 1`, `failed = 1`. -/
theorem batchOptimize_double_entry :
    (optimizeController.batchOptimize optimizeController.sampleNotifyDown
      ⟨some [.valid 1], true⟩ optimizeController.sampleStore).response.payload?.map
        (fun p => p.results) = some [⟨.valid 1, utf16 "success"⟩] ∧
    (optimizeController.batchOptimize optimizeController.sampleNotifyDown
      ⟨some [.valid 1], true⟩ optimizeController.sampleStore).response.payload?.map
        (fun p => p.errors) = some [⟨.valid 1, utf16 "connection lost"⟩] ∧
    (optimizeController.batchOptimize optimizeController.sampleNotifyDown
      ⟨some [.valid 1], true⟩ optimizeController.sampleStore).response.payload?.map
        (fun p => p.summary) = some ⟨1, 1, 1⟩ ∧
    ¬ ∃ p, (optimizeController.batchOptimize optimizeController.sampleNotifyDown
        ⟨some [.valid 1], true⟩ optimizeController.sampleStore).response.payload? = some p ∧
      p.summary.total = p.summary.successful + p.summary.failed := by
  refine ⟨rfl, rfl, rfl, ?_⟩
  rintro ⟨p, hp, hsum⟩
  have hsummary : (optimizeController.batchOptimize optimizeController.sampleNotifyDown
      ⟨some [.valid 1], true⟩ optimizeController.sampleStore).response.payload?.map
        (fun p => p.summary) = some ⟨1, 1, 1⟩ := rfl
  rw [hp] at hsummary
  simp only [Option.map_some', Option.some.injEq] at hsummary
  rw [hsummary] at hsum
  exact absurd hsum (by decide)

set_option maxRecDepth 100000 in
/-- C19 fails on the code: when the query for the populated job fails after
`job.save()`, the job is recorded in `results` and the pause is skipped, so the
run has one entry in `results` and no pause. -/
theorem batchOptimize_pause_skipped :
    (optimizeController.batchOptimize optimizeController.sampleNotifyDown
      ⟨some [.valid 1], true⟩ optimizeController.sampleStore).response.payload?.map
        (fun p => p.results.length) = some 1 ∧
    optimizeController.countPauses (optimizeController.batchOptimize
      optimizeController.sampleNotifyDown ⟨some [.valid 1], true⟩
      optimizeController.sampleStore).trace = 0 := by
  refine ⟨rfl, rfl⟩

/-- C20. `batchOptimize` answers 400 `VALIDATION_ERROR`, without touching the store,
the AI service or the notification, when `jobIds` is no array or is empty, and
only then: for every non-empty array, whatever happens to the single jobs, it
answers with the payload of `results`, `errors` and `summary`. -/
theorem batchOptimize_validation (envs : Nat → optimizeController.JobEnv)
    (req : optimizeController.BatchRequest) (st : Store) :
    ((req.jobIds = none ∨ req.jobIds = some []) →
      (optimizeController.batchOptimize envs req st).response
        = .error 400 (utf16 "VALIDATION_ERROR") (utf16 "jobIds must be a non-empty array") ∧
      (optimizeController.batchOptimize envs req st).store = st ∧
      (optimizeController.batchOptimize envs req st).trace = [] ∧
      (optimizeController.batchOptimize envs req st).emitted = []) ∧
    (∀ ids, req.jobIds = some ids → ids ≠ [] →
      ∃ payload, (optimizeController.batchOptimize envs req st).response = .ok payload ∧
        payload.message = utf16 "Batch optimization completed" ∧
        payload.summary.total = ids.length ∧
        payload.summary.successful = payload.results.length ∧
        payload.summary.failed = payload.errors.length) ∧
    ((∃ status code message, (optimizeController.batchOptimize envs req st).response
        = .error status code message) ↔ (req.jobIds = none ∨ req.jobIds = some [])) := by
  have hreject : (req.jobIds = none ∨ req.jobIds = some []) →
      optimizeController.batchOptimize envs req st = optimizeController.batchRejected st := by
    intro h
    unfold optimizeController.batchOptimize
    rcases h with h | h <;> simp only [h]
  have haccept : ∀ ids, req.jobIds = some ids → ids ≠ [] →
      ∃ payload, (optimizeController.batchOptimize envs req st).response = .ok payload ∧
        payload.message = utf16 "Batch optimization completed" ∧
        payload.summary.total = ids.length ∧
        payload.summary.successful = payload.results.length ∧
        payload.summary.failed = payload.errors.length := by
    intro ids hids hne
    have hreq : req = ⟨some ids, req.io⟩ := by
      cases req with
      | mk jobIds io => simp only at hids; rw [hids]
    rw [hreq, optimizeController.batchOptimize_of_nonempty envs req.io st ids hne]
    exact ⟨_, rfl, rfl, rfl, rfl, rfl⟩
  refine ⟨?_, haccept, ?_⟩
  · intro h
    rw [hreject h]
    exact ⟨rfl, rfl, rfl, rfl⟩
  · constructor
    · rintro ⟨status, code, message, herr⟩
      cases hids : req.jobIds with
      | none => exact Or.inl rfl
      | some ids =>
        cases ids with
        | nil => exact Or.inr rfl
        | cons jobId rest =>
          obtain ⟨payload, hok, _⟩ := haccept (jobId :: rest) hids (by simp)
          rw [hok] at herr
          exact optimizeController.BatchResponse.noConfusion herr
    · intro h
      rw [hreject h]
      exact ⟨_, _, _, rfl⟩

/-- An empty array is answered with the validation error; a one-element array of an
unknown job id is answered with the payload. -/
theorem batchOptimize_validation_witness :
    ((optimizeController.batchOptimize optimizeController.sampleBatchEnv ⟨some [], true⟩
        optimizeController.sampleStore).response
        = .error 400 (utf16 "VALIDATION_ERROR") (utf16 "jobIds must be a non-empty array") ∧
      (optimizeController.batchOptimize optimizeController.sampleBatchEnv ⟨some [], true⟩
        optimizeController.sampleStore).store = optimizeController.sampleStore ∧
      (optimizeController.batchOptimize optimizeController.sampleBatchEnv ⟨some [], true⟩
        optimizeController.sampleStore).trace = [] ∧
      (optimizeController.batchOptimize optimizeController.sampleBatchEnv ⟨some [], true⟩
        optimizeController.sampleStore).emitted = []) ∧
    (∃ payload, (optimizeController.batchOptimize optimizeController.sampleBatchEnv
        ⟨some [.valid 7], true⟩ optimizeController.sampleStore).response = .ok payload ∧
      payload.message = utf16 "Batch optimization completed" ∧
      payload.summary.total = [optimizeController.RequestId.valid 7].length ∧
      payload.summary.successful = payload.results.length ∧
      payload.summary.failed = payload.errors.length) :=
  ⟨(batchOptimize_validation optimizeController.sampleBatchEnv ⟨some [], true⟩
      optimizeController.sampleStore).1 (Or.inr rfl),
   (batchOptimize_validation optimizeController.sampleBatchEnv ⟨some [.valid 7], true⟩
      optimizeController.sampleStore).2.1 [.valid 7] rfl (by simp)⟩

/-! ### The job invariant -/

set_option maxRecDepth 100000 in
/-- C16 fails on the code: `updateJob` deletes `status` from the top level of the body
only, and the update operator `$set` passes it on to `findByIdAndUpdate`. From
the empty store, `createJob` followed by `updateJob` with the body
`{"$set": {"status": "Optimized"}}` leaves a job with status `Optimized` whose
`latestOptimizedResume` and `optimizedOn` are not set. -/
theorem job_invariant_broken :
    jsonParse (utf16 "\x7b\"$set\": \x7b\"status\": \"Optimized\"\x7d\x7d")
      = some (.obj jobController.sampleSetStatus) ∧
    ∃ st, Reachable st ∧ ∃ job, job ∈ st.jobs ∧ job.status = .optimized ∧
      job.latestOptimizedResume = none ∧ job.optimizedOn = none ∧ ¬ JobInvariant job := by
  refine ⟨rfl, ?_⟩
  have hcreate : Reachable (jobController.createJob jobController.sampleCreateBody
      emptyStore).store := Reachable.createJob emptyStore _ Reachable.empty
  have hupdate := Reachable.updateJob _ (.valid 0) jobController.sampleSetStatus
    { response := .job 200
        { id := 0
          clientName := utf16 "Jane Doe"
          companyName := utf16 "Acme"
          position := utf16 "Data Analyst"
          jobDescription := utf16 "SQL and ETL"
          jobApplicationLink := none
          status := .optimized
          baseResume := none
          latestOptimizedResume := none
          optimizedOn := none
          changesSummary := none }
      store :=
        { jobs :=
            [{ id := 0
               clientName := utf16 "Jane Doe"
               companyName := utf16 "Acme"
               position := utf16 "Data Analyst"
               jobDescription := utf16 "SQL and ETL"
               jobApplicationLink := none
               status := .optimized
               baseResume := none
               latestOptimizedResume := none
               optimizedOn := none
               changesSummary := none }]
          resumes := []
          nextId := 1 } } hcreate rfl
  refine ⟨_, hupdate, _, List.mem_singleton.mpr rfl, rfl, rfl, rfl, ?_⟩
  intro hinv
  have := hinv.mp rfl
  simp at this

/-! ### The end of the retry loop -/

/-- A loop whose last iteration is attempt `retries` ends inside its body: with
the text of an attempt, or with the error raised on attempt `retries`. -/
theorem callGeminiLoop_ends (net : Nat → Outcome) (retries : Nat) :
    ∀ remaining attempt, attempt + remaining = retries →
      (∃ text, (callGeminiLoop net retries (remaining + 1) attempt).2 = .ok text) ∨
      (∃ error, tryAttempt (net retries) = .error error ∧
        (callGeminiLoop net retries (remaining + 1) attempt).2
          = .error (failedAfter retries error.message)) := by
  intro remaining
  induction remaining with
  | zero =>
    intro attempt hsum
    have hlast : attempt = retries := by omega
    subst hlast
    cases h : tryAttempt (net attempt) with
    | ok text =>
      rw [callGeminiLoop_ok net attempt 0 attempt text h]
      exact Or.inl ⟨text, rfl⟩
    | error error =>
      rw [callGeminiLoop_last net attempt 0 error h]
      exact Or.inr ⟨error, rfl, rfl⟩
  | succ n ih =>
    intro attempt hsum
    have hne : attempt ≠ retries := by omega
    have hrec := ih (attempt + 1) (by omega)
    cases h : tryAttempt (net attempt) with
    | ok text =>
      rw [callGeminiLoop_ok net retries (n + 1) attempt text h]
      exact Or.inl ⟨text, rfl⟩
    | error error =>
      by_cases h429 : error.status = some 429
      · rw [callGeminiLoop_rateLimit net retries (n + 1) attempt error h hne h429]
        exact hrec
      · rw [callGeminiLoop_other net retries (n + 1) attempt error h hne h429]
        exact hrec

/-- The message raised on the last attempt is not the message of the `throw` that
follows the loop. -/
theorem failedAfter_ne_maxRetriesExceeded (retries : Nat) (message : JSString) :
    failedAfter retries message ≠ maxRetriesExceeded := by
  intro h
  have hshape : failedAfter retries message
      = utf16 "Gemini API call failed after " ++
        (numberToString retries ++ utf16 " attempts: " ++ message) := by
    simp only [failedAfter, List.append_assoc]
  rw [hshape] at h
  have htake := congrArg (List.take 23) h
  rw [List.take_append_of_le_length (by decide)] at htake
  exact absurd htake (by decide)

/-- The message raised on the last attempt starts with `Gemini API`. -/
theorem indexOf_failedAfter (retries : Nat) (message : JSString) :
    indexOf (failedAfter retries message) (utf16 "Gemini API") = some 0 := by
  have hprefix : utf16 "Gemini API" <+: failedAfter retries message :=
    ⟨utf16 " call failed after " ++ (numberToString retries ++ utf16 " attempts: " ++ message), by
      simp only [failedAfter, List.append_assoc]
      rfl⟩
  exact indexOfFrom_first (utf16 "Gemini API") (failedAfter retries message) 0 0
    (by simpa using hprefix) (fun j hj => absurd hj (Nat.not_lt_zero j))

/-- A call with the default three attempts raises only the error of the last
attempt. -/
theorem callGeminiAPI_default_error (net : Nat → Outcome) (message : JSString)
    (h : (callGeminiAPI net defaultRetries).2 = .error message) :
    ∃ error, tryAttempt (net 3) = .error error ∧ message = failedAfter 3 error.message := by
  rcases callGeminiLoop_ends net 3 2 1 (by decide) with ⟨text, hok⟩ | ⟨error, herr, hres⟩
  · have hok2 : (callGeminiAPI net defaultRetries).2 = .ok text := hok
    rw [hok2] at h
    cases h
  · have hres2 : (callGeminiAPI net defaultRetries).2
        = .error (failedAfter 3 error.message) := hres
    rw [hres2] at h
    exact ⟨error, herr, (Except.error.inj h).symm⟩

/-- The rewrite call raises only what `callGeminiAPI` raises. -/
theorem optimizeResume_error (net : Nat → Outcome) (message : JSString)
    (h : (optimizeResume net).2 = .error message) :
    ∃ error, tryAttempt (net 3) = .error error ∧ message = failedAfter 3 error.message := by
  apply callGeminiAPI_default_error net message
  unfold optimizeResume at h
  rcases hc : callGeminiAPI net defaultRetries with ⟨events, result⟩
  rw [hc] at h
  cases result with
  | ok response => cases h
  | error m => exact h

/-- The summary call raises only what `callGeminiAPI` raises. -/
theorem summarizeChanges_error (parse : JSString → Option Json) (net : Nat → Outcome)
    (message : JSString) (h : (summarizeChanges parse net).2 = .error message) :
    ∃ error, tryAttempt (net 3) = .error error ∧ message = failedAfter 3 error.message := by
  apply callGeminiAPI_default_error net message
  unfold summarizeChanges at h
  rcases hc : callGeminiAPI net defaultRetries with ⟨events, result⟩
  rw [hc] at h
  cases result with
  | ok response => cases h
  | error m =>
    have hm : m = message := Except.error.inj h
    rw [hm]

/-- Every call of the client sends a request. -/
theorem callGeminiAPI_default_events (net : Nat → Outcome) :
    (callGeminiAPI net defaultRetries).1 ≠ [] := by
  obtain ⟨rest, hrest⟩ := callGeminiLoop_head net 3 2 1
  have hrest2 : (callGeminiAPI net defaultRetries).1 = Event.request 1 :: rest := hrest
  rw [hrest2]
  exact List.cons_ne_nil _ _

/-- C30. A call of `callGeminiAPI` with `retries >= 1` ends inside the loop: it
returns the text of an attempt, or the last attempt fails and the call raises
`Gemini API call failed after N attempts: ` followed by the message of that
error; it never raises `Gemini API call failed: max retries exceeded`. That
message is raised exactly when `retries < 1`, and then no request is sent. -/
theorem callGeminiAPI_trailing_throw (net : Nat → Outcome) (retries : Nat) :
    (1 ≤ retries →
      ((∃ text, (callGeminiAPI net retries).2 = .ok text) ∨
        (∃ error, tryAttempt (net retries) = .error error ∧
          (callGeminiAPI net retries).2 = .error (failedAfter retries error.message))) ∧
      (callGeminiAPI net retries).1 ≠ []) ∧
    ((callGeminiAPI net retries).2 = .error maxRetriesExceeded ↔ retries < 1) ∧
    (retries < 1 → callGeminiAPI net retries = ([], .error maxRetriesExceeded)) := by
  have hzero : retries < 1 → callGeminiAPI net retries = ([], .error maxRetriesExceeded) := by
    intro h
    have h0 : retries = 0 := by omega
    subst h0
    rfl
  have hpos : 1 ≤ retries →
      ((∃ text, (callGeminiAPI net retries).2 = .ok text) ∨
        (∃ error, tryAttempt (net retries) = .error error ∧
          (callGeminiAPI net retries).2 = .error (failedAfter retries error.message))) ∧
      (callGeminiAPI net retries).1 ≠ [] := by
    intro h
    obtain ⟨n, hn⟩ : ∃ n, retries = n + 1 := ⟨retries - 1, by omega⟩
    subst hn
    refine ⟨callGeminiLoop_ends net (n + 1) n 1 (by omega), ?_⟩
    obtain ⟨rest, hrest⟩ := callGeminiLoop_head net (n + 1) n 1
    have hrest2 : (callGeminiAPI net (n + 1)).1 = Event.request 1 :: rest := hrest
    rw [hrest2]
    exact List.cons_ne_nil _ _
  refine ⟨hpos, ⟨?_, ?_⟩, hzero⟩
  · intro hmax
    by_contra hge
    rcases (hpos (by omega)).1 with ⟨text, hok⟩ | ⟨error, _, herr⟩
    · rw [hok] at hmax
      cases hmax
    · rw [herr] at hmax
      exact failedAfter_ne_maxRetriesExceeded retries error.message (Except.error.inj hmax)
  · intro h
    rw [hzero h]

/-- With three attempts over a service that is always rate-limited the call
raises the error of the third attempt; with no attempt allowed it raises the
trailing error without a request. -/
theorem callGeminiAPI_trailing_throw_witness :
    (((∃ text, (callGeminiAPI sampleDownNet 3).2 = .ok text) ∨
        (∃ error, tryAttempt (sampleDownNet 3) = .error error ∧
          (callGeminiAPI sampleDownNet 3).2 = .error (failedAfter 3 error.message))) ∧
      (callGeminiAPI sampleDownNet 3).1 ≠ []) ∧
    callGeminiAPI sampleDownNet 0 = ([], .error maxRetriesExceeded) :=
  ⟨(callGeminiAPI_trailing_throw sampleDownNet 3).1 (by decide),
   (callGeminiAPI_trailing_throw sampleDownNet 0).2.2 (by decide)⟩

/-! ### Errors of the AI client in the single-job handler -/

namespace optimizeController

theorem handleError_aiEvents (st : Store) (aiEvents : List Event) (message : JSString) :
    (handleError st aiEvents message).aiEvents = aiEvents := by
  unfold handleError
  split <;> rfl

/-- The `catch` block answers 503 to the error raised on the last attempt. -/
theorem handleError_failedAfter (st : Store) (aiEvents : List Event) (retries : Nat)
    (cause : JSString) :
    (handleError st aiEvents (failedAfter retries cause)).response
      = .error 503 (utf16 "AI_SERVICE_ERROR") (utf16 "AI service temporarily unavailable")
          (some (failedAfter retries cause)) := by
  unfold handleError
  rw [indexOf_failedAfter]
  rfl

/-- The answer after the two AI calls: 200 when both return, 503 when one of them
raises. -/
theorem optimizeAndPersist_answer (env : Env) (io : Bool) (st : Store) (job : Job)
    (populatedBase : Option Resume) (resumeId : Option Id) (baseResumeText : JSString) :
    ((∃ result, (optimizeAndPersist env io st job populatedBase resumeId baseResumeText).response
        = .ok result) ∧
      (∃ text, (ResumeOptimizer.optimizeResume env.rewriteNet).2 = .ok text) ∧
      (∃ summary, (summarizeChanges env.parse env.summaryNet).2 = .ok summary)) ∨
    (∃ message,
      ((ResumeOptimizer.optimizeResume env.rewriteNet).2 = .error message ∨
        ((∃ text, (ResumeOptimizer.optimizeResume env.rewriteNet).2 = .ok text) ∧
          (summarizeChanges env.parse env.summaryNet).2 = .error message)) ∧
      (optimizeAndPersist env io st job populatedBase resumeId baseResumeText).response
        = .error 503 (utf16 "AI_SERVICE_ERROR") (utf16 "AI service temporarily unavailable")
            (some message)) := by
  unfold optimizeAndPersist
  rcases h1 : ResumeOptimizer.optimizeResume env.rewriteNet with ⟨events1, result1⟩
  cases result1 with
  | error message =>
    obtain ⟨error, _, hmsg⟩ := optimizeResume_error env.rewriteNet message (by rw [h1])
    refine Or.inr ⟨message, Or.inl rfl, ?_⟩
    rw [hmsg]
    exact handleError_failedAfter st events1 3 error.message
  | ok optimizedResumeText =>
    rcases h2 : summarizeChanges env.parse env.summaryNet with ⟨events2, result2⟩
    cases result2 with
    | error message =>
      obtain ⟨error, _, hmsg⟩ :=
        summarizeChanges_error env.parse env.summaryNet message (by rw [h2])
      refine Or.inr ⟨message, Or.inr ⟨⟨_, rfl⟩, rfl⟩, ?_⟩
      rw [hmsg]
      exact handleError_failedAfter st (events1 ++ events2) 3 error.message
    | ok changesSummary => exact Or.inl ⟨⟨_, rfl⟩, ⟨_, rfl⟩, ⟨_, rfl⟩⟩

/-- The same for the check of the base text followed by the two AI calls, once a
request has been sent. -/
theorem checkTextAndOptimize_answer (env : Env) (io : Bool) (st : Store) (job : Job)
    (populatedBase : Option Resume) (resumeId : Option Id) (baseResume : Resume)
    (hcalled : (checkTextAndOptimize env io st job populatedBase resumeId baseResume).aiEvents
      ≠ []) :
    ((∃ result, (checkTextAndOptimize env io st job populatedBase resumeId baseResume).response
        = .ok result) ∧
      (∃ text, (ResumeOptimizer.optimizeResume env.rewriteNet).2 = .ok text) ∧
      (∃ summary, (summarizeChanges env.parse env.summaryNet).2 = .ok summary)) ∨
    (∃ message,
      ((ResumeOptimizer.optimizeResume env.rewriteNet).2 = .error message ∨
        ((∃ text, (ResumeOptimizer.optimizeResume env.rewriteNet).2 = .ok text) ∧
          (summarizeChanges env.parse env.summaryNet).2 = .error message)) ∧
      (checkTextAndOptimize env io st job populatedBase resumeId baseResume).response
        = .error 503 (utf16 "AI_SERVICE_ERROR") (utf16 "AI service temporarily unavailable")
            (some message)) := by
  unfold checkTextAndOptimize at hcalled ⊢
  split at hcalled
  · exact absurd rfl hcalled
  · split at hcalled
    · exact absurd rfl hcalled
    · rename_i hnot
      simp only [hnot]
      exact optimizeAndPersist_answer env io st job populatedBase resumeId _

end optimizeController

/-- C21. In a call of the single-job handler that reaches the AI client, either
both AI calls return and the answer is the result, or the rewrite call raises,
or the summary call raises after the rewrite call has returned, and then the
answer is HTTP 503 with the code `AI_SERVICE_ERROR` and the message of the client
as details: no error of the client is answered 500 `OPTIMIZE_ERROR` or 4xx. -/
theorem optimizeResume_ai_failure (env : optimizeController.Env)
    (req : optimizeController.Request) (st : Store)
    (hcalled : (optimizeController.optimizeResume env req st).aiEvents ≠ []) :
    ((∃ result, (optimizeController.optimizeResume env req st).response = .ok result) ∧
      (∃ text, (optimizeResume env.rewriteNet).2 = .ok text) ∧
      (∃ summary, (summarizeChanges env.parse env.summaryNet).2 = .ok summary)) ∨
    (∃ message,
      ((optimizeResume env.rewriteNet).2 = .error message ∨
        ((∃ text, (optimizeResume env.rewriteNet).2 = .ok text) ∧
          (summarizeChanges env.parse env.summaryNet).2 = .error message)) ∧
      (optimizeController.optimizeResume env req st).response
        = .error 503 (utf16 "AI_SERVICE_ERROR") (utf16 "AI service temporarily unavailable")
            (some message)) := by
  rcases req with ⟨jobId, resumeId, io⟩
  cases jobId with
  | absent => exact absurd rfl hcalled
  | malformed message => exact absurd (optimizeController.handleError_aiEvents st [] _) hcalled
  | valid jobId =>
    cases hjob : st.findJob jobId with
    | none =>
      have hrun : optimizeController.optimizeResume env ⟨.valid jobId, resumeId, io⟩ st
          = { response := .error 404 (utf16 "JOB_NOT_FOUND") (utf16 "Job not found") none
              store := st, aiEvents := [], emitted := [] } := by
        unfold optimizeController.optimizeResume
        simp only [hjob]
      rw [hrun] at hcalled
      exact absurd rfl hcalled
    | some job =>
      cases resumeId with
      | malformed message =>
        have hrun : optimizeController.optimizeResume env ⟨.valid jobId, .malformed message, io⟩ st
            = optimizeController.handleError st [] message := by
          unfold optimizeController.optimizeResume
          simp only [hjob]
        rw [hrun] at hcalled
        exact absurd (optimizeController.handleError_aiEvents st [] _) hcalled
      | valid resumeId =>
        cases hbase : st.findResume resumeId with
        | none =>
          have hrun : optimizeController.optimizeResume env ⟨.valid jobId, .valid resumeId, io⟩ st
              = { response := .error 404 (utf16 "RESUME_NOT_FOUND") (utf16 "Resume not found")
                    none
                  store := st, aiEvents := [], emitted := [] } := by
            unfold optimizeController.optimizeResume
            simp only [hjob, hbase]
          rw [hrun] at hcalled
          exact absurd rfl hcalled
        | some baseResume =>
          have hrun : optimizeController.optimizeResume env ⟨.valid jobId, .valid resumeId, io⟩ st
              = optimizeController.checkTextAndOptimize env io st job
                  (job.baseResume.bind st.findResume) (some resumeId) baseResume := by
            unfold optimizeController.optimizeResume
            simp only [hjob, hbase]
          rw [hrun] at hcalled ⊢
          exact optimizeController.checkTextAndOptimize_answer env _ st _ _ _ _ hcalled
      | absent =>
        cases hbase : job.baseResume.bind st.findResume with
        | none =>
          have hrun : optimizeController.optimizeResume env ⟨.valid jobId, .absent, io⟩ st
              = { response := .error 400 (utf16 "NO_RESUME_ERROR")
                    (utf16 "No resume associated with job")
                    (some (utf16 "Job must have a baseResume or provide resumeId"))
                  store := st, aiEvents := [], emitted := [] } := by
            unfold optimizeController.optimizeResume
            simp only [hjob, hbase]
          rw [hrun] at hcalled
          exact absurd rfl hcalled
        | some baseResume =>
          have hrun : optimizeController.optimizeResume env ⟨.valid jobId, .absent, io⟩ st
              = optimizeController.checkTextAndOptimize env io st job (some baseResume) none
                  baseResume := by
            unfold optimizeController.optimizeResume
            simp only [hjob, hbase]
          rw [hrun] at hcalled ⊢
          exact optimizeController.checkTextAndOptimize_answer env _ st _ _ _ _ hcalled

set_option maxRecDepth 100000 in
/-- The summary call is rate-limited three times after a successful rewrite call:
the answer is 503 `AI_SERVICE_ERROR` with the message of the client. -/
theorem optimizeResume_ai_failure_witness :
    (optimizeController.optimizeResume optimizeController.sampleSummaryDown
      ⟨.valid 1, .absent, true⟩ optimizeController.sampleStore).aiEvents ≠ [] ∧
    (optimizeController.optimizeResume optimizeController.sampleSummaryDown
      ⟨.valid 1, .absent, true⟩ optimizeController.sampleStore).response.status = 503 ∧
    (((∃ result, (optimizeController.optimizeResume optimizeController.sampleSummaryDown
          ⟨.valid 1, .absent, true⟩ optimizeController.sampleStore).response = .ok result) ∧
        (∃ text, (optimizeResume optimizeController.sampleSummaryDown.rewriteNet).2
          = .ok text) ∧
        (∃ summary, (summarizeChanges optimizeController.sampleSummaryDown.parse
          optimizeController.sampleSummaryDown.summaryNet).2 = .ok summary)) ∨
      (∃ message,
        ((optimizeResume optimizeController.sampleSummaryDown.rewriteNet).2 = .error message ∨
          ((∃ text, (optimizeResume optimizeController.sampleSummaryDown.rewriteNet).2
              = .ok text) ∧
            (summarizeChanges optimizeController.sampleSummaryDown.parse
              optimizeController.sampleSummaryDown.summaryNet).2 = .error message)) ∧
        (optimizeController.optimizeResume optimizeController.sampleSummaryDown
          ⟨.valid 1, .absent, true⟩ optimizeController.sampleStore).response
          = .error 503 (utf16 "AI_SERVICE_ERROR") (utf16 "AI service temporarily unavailable")
              (some message))) :=
  ⟨by decide, rfl,
   optimizeResume_ai_failure optimizeController.sampleSummaryDown ⟨.valid 1, .absent, true⟩
    optimizeController.sampleStore (by decide)⟩

/-! ### Identical texts and the statistics -/

namespace Diff

/-- Under a reflexive comparison the script from a list of tokens to itself keeps
every token. -/
theorem script_self (eq : JSString → JSString → Bool) (hrefl : ∀ t, eq t t = true) :
    ∀ xs : List JSString, (script eq xs xs).all isKeep = true
  | [] => rfl
  | x :: xs => by
    have ih := script_self eq hrefl xs
    simp only [script, scriptRow, hrefl, if_true, List.all_cons, isKeep, Bool.true_and]
    exact ih

/-- Under a reflexive comparison a text compared with itself gives one unchanged
part. -/
theorem diff_self (eq : JSString → JSString → Bool) (hrefl : ∀ t, eq t t = true)
    (tokenize : JSString → List JSString) (s : JSString) :
    diff eq tokenize s s
      = [⟨(removeEmpty (tokenize s)).flatten, none, none, (removeEmpty (tokenize s)).length⟩] := by
  unfold diff
  simp only [script_self eq hrefl, if_true]

end Diff

/-- The accumulator of `getDiffStats` after a list of segments, started at `acc`:
the three sums grow by the line counts of the added segments, of the removed
segments that are not added, and of the other segments. -/
theorem getDiffStats_fold (lineDiff : List DiffPart) :
    ∀ acc : Nat × Nat × Nat,
      lineDiff.foldl
        (fun (acc : Nat × Nat × Nat) part =>
          if part.added then (acc.1 + lineCount part.value, acc.2.1, acc.2.2)
          else if part.removed then (acc.1, acc.2.1 + lineCount part.value, acc.2.2)
          else (acc.1, acc.2.1, acc.2.2 + lineCount part.value)) acc
      = (acc.1 + ((lineDiff.filter (fun part => part.added)).map
            (fun part => lineCount part.value)).sum,
         acc.2.1 + ((lineDiff.filter (fun part => !part.added && part.removed)).map
            (fun part => lineCount part.value)).sum,
         acc.2.2 + ((lineDiff.filter (fun part => !part.added && !part.removed)).map
            (fun part => lineCount part.value)).sum) := by
  induction lineDiff with
  | nil => intro acc; rfl
  | cons part rest ih =>
    intro acc
    rw [List.foldl_cons, ih]
    cases hadded : part.added <;> cases hremoved : part.removed <;>
      simp [List.filter_cons, hadded, hremoved, Nat.add_assoc]

/-- The three buckets partition the segments: their line counts add up to the line
counts of all segments. -/
theorem bucket_sums (lineDiff : List DiffPart) :
    ((lineDiff.filter (fun part => part.added)).map (fun part => lineCount part.value)).sum +
      ((lineDiff.filter (fun part => !part.added && part.removed)).map
        (fun part => lineCount part.value)).sum +
      ((lineDiff.filter (fun part => !part.added && !part.removed)).map
        (fun part => lineCount part.value)).sum
    = (lineDiff.map (fun part => lineCount part.value)).sum := by
  induction lineDiff with
  | nil => rfl
  | cons part rest ih =>
    cases hadded : part.added <;> cases hremoved : part.removed <;>
      simp [List.filter_cons, hadded, hremoved] <;> omega

/-- C24. For every text `A`, every segment of the line diff of `A` with itself has
`added = false` and `removed = false`, and the statistics of that line diff
have no addition and no deletion. -/
theorem generateDiff_identical (A : JSString) :
    (∀ part ∈ (generateDiff A A).lineDiff, part.added = false ∧ part.removed = false) ∧
    (getDiffStats (generateDiff A A).lineDiff).additions = 0 ∧
    (getDiffStats (generateDiff A A).lineDiff).deletions = 0 := by
  have hline : (generateDiff A A).lineDiff
      = [⟨(Diff.removeEmpty (Diff.tokenizeLines A)).flatten, false, false,
          (Diff.removeEmpty (Diff.tokenizeLines A)).length⟩] := by
    show (Diff.diffLines A A).map formatPart = _
    unfold Diff.diffLines
    rw [Diff.diff_self _ (fun t => by simp) Diff.tokenizeLines A]
    rfl
  rw [hline]
  refine ⟨?_, rfl, rfl⟩
  intro part hpart
  rw [List.mem_singleton] at hpart
  rw [hpart]
  exact ⟨rfl, rfl⟩

/-- C25, as stated, fails: a segment with the empty value counts one line, not
none. -/
theorem getDiffStats_empty_segment :
    lineCount [] = 1 ∧
    getDiffStats [⟨[], false, false, 0⟩] = ⟨0, 0, 1, 1⟩ := by
  decide

/-- C25, amended. Each segment counts the number of line feeds of its value, and 1
when there is none, the empty value included; `additions` sums these counts over
the segments with `added`, `deletions` over the segments with `removed` and
without `added`, `unchanged` over the segments with neither. -/
theorem getDiffStats_counts (lineDiff : List DiffPart) :
    (getDiffStats lineDiff).additions
      = ((lineDiff.filter (fun part => part.added)).map
          (fun part => max (part.value.count 10) 1)).sum ∧
    (getDiffStats lineDiff).deletions
      = ((lineDiff.filter (fun part => !part.added && part.removed)).map
          (fun part => max (part.value.count 10) 1)).sum ∧
    (getDiffStats lineDiff).unchanged
      = ((lineDiff.filter (fun part => !part.added && !part.removed)).map
          (fun part => max (part.value.count 10) 1)).sum := by
  have hcount : (fun part : DiffPart => lineCount part.value)
      = (fun part : DiffPart => max (part.value.count 10) 1) := by
    funext part
    unfold lineCount
    split <;> omega
  refine ⟨?_, ?_, ?_⟩ <;> simp only [getDiffStats, getDiffStats_fold, Nat.zero_add, hcount]

/-- C26. For every list of segments `total = additions + deletions + unchanged`, and
the total is the sum of the line counts of all segments: each segment is counted
in one bucket, a segment flagged both added and removed in `additions` only. -/
theorem getDiffStats_total (lineDiff : List DiffPart) :
    (getDiffStats lineDiff).total
      = (getDiffStats lineDiff).additions + (getDiffStats lineDiff).deletions +
          (getDiffStats lineDiff).unchanged ∧
    (getDiffStats lineDiff).total = (lineDiff.map (fun part => lineCount part.value)).sum ∧
    getDiffStats [] = ⟨0, 0, 0, 0⟩ ∧
    (∀ value count, getDiffStats [⟨value, true, true, count⟩]
      = ⟨lineCount value, 0, 0, lineCount value⟩) := by
  refine ⟨rfl, ?_, rfl, ?_⟩
  · rw [← bucket_sums lineDiff]
    unfold getDiffStats
    simp only [getDiffStats_fold, Nat.zero_add]
  · intro value count
    simp [getDiffStats]

/-! ### The diff of a job -/

namespace optimizeController

/-- An absent text and the empty text are read as the empty text, any other text as
itself. -/
theorem textOrEmpty_getD (text : Option JSString) : textOrEmpty text = text.getD [] := by
  cases text with
  | none => rfl
  | some value =>
    cases value with
    | nil => rfl
    | cons c cs => rfl

end optimizeController

/-- C22. For the identifier of a job, `getDiff` answers 404 `JOB_NOT_FOUND` when no job
has it, 400 `MISSING_RESUMES_ERROR` when the base resume or the latest optimized
resume of the job is missing, and otherwise the diff of the base text and the
optimized text, an absent text being the empty string, with the statistics of
its line diff, the headline of the job and the keywords of the optimized
resume. It answers with a diff exactly when the identifier is that of a job with
both resumes. -/
theorem getDiff_cases (jobId : optimizeController.RequestId) (st : Store) :
    (∀ id, jobId = .valid id → st.findJob id = none →
      optimizeController.getDiff jobId st
        = .error 404 (utf16 "JOB_NOT_FOUND") (utf16 "Job not found") none) ∧
    (∀ id job, jobId = .valid id → st.findJob id = some job →
      (job.baseResume.bind st.findResume = none ∨
        job.latestOptimizedResume.bind st.findResume = none) →
      optimizeController.getDiff jobId st
        = .error 400 (utf16 "MISSING_RESUMES_ERROR")
            (utf16 "Job does not have both base and optimized resumes") none) ∧
    (∀ id job base latest, jobId = .valid id → st.findJob id = some job →
      job.baseResume.bind st.findResume = some base →
      job.latestOptimizedResume.bind st.findResume = some latest →
      optimizeController.getDiff jobId st
        = .ok
            { jobId := job.id
              diff := generateDiff (base.baseResumeText.getD []) (latest.optimizedResumeText.getD [])
              stats := getDiffStats
                (generateDiff (base.baseResumeText.getD [])
                  (latest.optimizedResumeText.getD [])).lineDiff
              changesSummary := job.changesSummary
              keywordsAdded := latest.keywordsAdded }) ∧
    ((∃ payload, optimizeController.getDiff jobId st = .ok payload) ↔
      ∃ id job base latest, jobId = .valid id ∧ st.findJob id = some job ∧
        job.baseResume.bind st.findResume = some base ∧
        job.latestOptimizedResume.bind st.findResume = some latest) := by
  have hok : ∀ id job base latest, jobId = .valid id → st.findJob id = some job →
      job.baseResume.bind st.findResume = some base →
      job.latestOptimizedResume.bind st.findResume = some latest →
      optimizeController.getDiff jobId st
        = .ok
            { jobId := job.id
              diff := generateDiff (base.baseResumeText.getD []) (latest.optimizedResumeText.getD [])
              stats := getDiffStats
                (generateDiff (base.baseResumeText.getD [])
                  (latest.optimizedResumeText.getD [])).lineDiff
              changesSummary := job.changesSummary
              keywordsAdded := latest.keywordsAdded } := by
    intro id job base latest hid hjob hbase hlatest
    subst hid
    unfold optimizeController.getDiff
    simp only [hjob, hbase, hlatest, optimizeController.textOrEmpty_getD]
  have hmissing : ∀ id job, jobId = .valid id → st.findJob id = some job →
      (job.baseResume.bind st.findResume = none ∨
        job.latestOptimizedResume.bind st.findResume = none) →
      optimizeController.getDiff jobId st
        = .error 400 (utf16 "MISSING_RESUMES_ERROR")
            (utf16 "Job does not have both base and optimized resumes") none := by
    intro id job hid hjob hnone
    subst hid
    unfold optimizeController.getDiff
    simp only [hjob]
    rcases hnone with h | h
    · simp only [h]
    · cases hbase : job.baseResume.bind st.findResume <;> simp only [h]
  have hnotfound : ∀ id, jobId = .valid id → st.findJob id = none →
      optimizeController.getDiff jobId st
        = .error 404 (utf16 "JOB_NOT_FOUND") (utf16 "Job not found") none := by
    intro id hid hjob
    subst hid
    unfold optimizeController.getDiff
    simp only [hjob]
  refine ⟨hnotfound, hmissing, hok, ?_, ?_⟩
  · rintro ⟨payload, hpayload⟩
    cases jobId with
    | absent => cases hpayload
    | malformed message => cases hpayload
    | valid id =>
      cases hjob : st.findJob id with
      | none =>
        rw [hnotfound id rfl hjob] at hpayload
        cases hpayload
      | some job =>
        cases hbase : job.baseResume.bind st.findResume with
        | none =>
          rw [hmissing id job rfl hjob (Or.inl hbase)] at hpayload
          cases hpayload
        | some base =>
          cases hlatest : job.latestOptimizedResume.bind st.findResume with
          | none =>
            rw [hmissing id job rfl hjob (Or.inr hlatest)] at hpayload
            cases hpayload
          | some latest => exact ⟨id, job, base, latest, rfl, hjob, hbase, hlatest⟩
  · rintro ⟨id, job, base, latest, hid, hjob, hbase, hlatest⟩
    exact ⟨_, hok id job base latest hid hjob hbase hlatest⟩

set_option maxRecDepth 100000 in
/-- Job 1 of the optimized sample store has both resumes and gets the diff of its
two texts; no job has the identifier 7; the job of the first sample store has
no optimized resume. -/
theorem getDiff_cases_witness :
    ((optimizeController.getDiff (.valid 1) optimizeController.sampleOptimizedStore
      = .ok
          { jobId := 1
            diff := generateDiff (utf16 "Jane Doe Resume") (utf16 "Jane Doe, first pass")
            stats := getDiffStats
              (generateDiff (utf16 "Jane Doe Resume") (utf16 "Jane Doe, first pass")).lineDiff
            changesSummary := some (.str (utf16 "First pass"))
            keywordsAdded := .arr [.str (utf16 "Excel")] }) ∧
      optimizeController.getDiff (.valid 7) optimizeController.sampleOptimizedStore
        = .error 404 (utf16 "JOB_NOT_FOUND") (utf16 "Job not found") none) ∧
    optimizeController.getDiff (.valid 1) optimizeController.sampleStore
      = .error 400 (utf16 "MISSING_RESUMES_ERROR")
          (utf16 "Job does not have both base and optimized resumes") none :=
  ⟨⟨(getDiff_cases (.valid 1) optimizeController.sampleOptimizedStore).2.2.1 1 _ _ _
      rfl rfl rfl rfl,
    (getDiff_cases (.valid 7) optimizeController.sampleOptimizedStore).1 7 rfl rfl⟩,
   (getDiff_cases (.valid 1) optimizeController.sampleStore).2.1 1 _ rfl rfl (Or.inr rfl)⟩

/-! ### The span handed to the JSON reader -/

/-- The units before the first `c` are dropped, `c` and what follows are kept. -/
theorem dropWhile_ne_append (c : Nat) (pre rest : JSString) (h : c ∉ pre) :
    (pre ++ c :: rest).dropWhile (· != c) = c :: rest := by
  induction pre with
  | nil => simp [List.dropWhile]
  | cons d ds ih =>
    have hd : d ≠ c := fun hdc => h (by simp [hdc])
    have hds : c ∉ ds := fun hmem => h (List.mem_cons_of_mem d hmem)
    simp only [List.cons_append, List.dropWhile_cons, bne_iff_ne, ne_eq, hd, not_false_eq_true,
      if_true]
    exact ih hds

/-- A string without `c` is dropped whole; otherwise it splits at the first `c`. -/
theorem split_at_first (c : Nat) (l : JSString) :
    l.dropWhile (· != c) = [] ∨
    ∃ pre rest, c ∉ pre ∧ l = pre ++ c :: rest ∧ l.dropWhile (· != c) = c :: rest := by
  induction l with
  | nil => exact Or.inl rfl
  | cons d ds ih =>
    by_cases hd : d = c
    · subst hd
      exact Or.inr ⟨[], ds, by simp, rfl, by simp [List.dropWhile]⟩
    · rcases ih with hnil | ⟨pre, rest, hpre, hsplit, hdrop⟩
      · left
        simp only [List.dropWhile_cons, bne_iff_ne, ne_eq, hd, not_false_eq_true, if_true]
        exact hnil
      · right
        refine ⟨d :: pre, rest, ?_, by rw [hsplit]; rfl, ?_⟩
        · intro hmem
          rcases List.mem_cons.mp hmem with h | h
          · exact hd h.symm
          · exact hpre h
        · simp only [List.dropWhile_cons, bne_iff_ne, ne_eq, hd, not_false_eq_true, if_true]
          exact hdrop

/-- The match of the regular expression in a response that reads
`pre {mid} post` with no `{` in `pre` and no `}` in `post`. -/
theorem matchBraces_of_split (pre mid post : JSString) (hpre : 123 ∉ pre) (hpost : 125 ∉ post) :
    matchBraces (pre ++ [123] ++ mid ++ [125] ++ post) = some ([123] ++ mid ++ [125]) := by
  have hshape : pre ++ [123] ++ mid ++ [125] ++ post = pre ++ 123 :: (mid ++ 125 :: post) := by
    simp
  have hrev : (123 :: (mid ++ 125 :: post)).reverse
      = post.reverse ++ 125 :: (mid.reverse ++ [123]) := by
    simp
  have hpost2 : 125 ∉ post.reverse := by simpa using hpost
  unfold matchBraces
  rw [hshape, dropWhile_ne_append 123 pre _ hpre, hrev,
    dropWhile_ne_append 125 post.reverse _ hpost2]
  simp

/-- A match of the regular expression runs from the first `{` of the response
through its last `}`. -/
theorem matchBraces_split (response span : JSString) (h : matchBraces response = some span) :
    ∃ pre mid post, 123 ∉ pre ∧ 125 ∉ post ∧
      response = pre ++ [123] ++ mid ++ [125] ++ post ∧ span = [123] ++ mid ++ [125] := by
  rcases split_at_first 123 response with hnil | ⟨pre, rest, hpre, hsplit, hdrop⟩
  · simp [matchBraces, hnil] at h
  · rcases split_at_first 125 (123 :: rest).reverse with hnil2 | ⟨q, u, hq, hsplit2, hdrop2⟩
    · simp only [matchBraces, hdrop, hnil2] at h
      cases h
    · have hback : 123 :: rest = u.reverse ++ [125] ++ q.reverse := by
        have := congrArg List.reverse hsplit2
        simpa using this
      have hspan : span = u.reverse ++ [125] := by
        simp only [matchBraces, hdrop, hdrop2] at h
        have hrev : (125 :: u).reverse = u.reverse ++ [125] := by simp
        rw [hrev] at h
        cases hu : u.reverse ++ [125] with
        | nil => simp at hu
        | cons x xs =>
          rw [hu] at h
          simp only [Option.some.injEq] at h
          exact h.symm
      cases hu : u.reverse with
      | nil =>
        rw [hu] at hback
        simp at hback
      | cons x mid =>
        rw [hu] at hback hspan
        simp only [List.cons_append, List.cons.injEq] at hback
        obtain ⟨hx, hrest⟩ := hback
        subst hx
        refine ⟨pre, mid, q.reverse, hpre, by simpa using hq, ?_, by simpa using hspan⟩
        rw [hsplit, hrest]
        simp

/-- C28. When the response reads `pre {mid} post` with no `{` in `pre` and no `}` in
`post`, that is when its last `}` lies after its first `{`, the span matched
by the regular expression is `{mid}`, line feeds included, and this span is the
text handed to the JSON reader: a reader that returns its argument as the
headline makes the span the headline of the result; when the reader rejects
the span the fallback is returned, when it returns an object the three fields
are read from that object, and the result depends on the reader through its
value on that span only. For every other response nothing is matched and the
fallback is returned whatever the reader is. -/
theorem parseChangeSummary_span (response : JSString) :
    (∀ pre mid post, 123 ∉ pre → 125 ∉ post →
      response = pre ++ [123] ++ mid ++ [125] ++ post →
      matchBraces response = some ([123] ++ mid ++ [125]) ∧
      (parseChangeSummary (fun text => some (.obj [(utf16 "headline", .str text)]))
        response).headline = .str ([123] ++ mid ++ [125]) ∧
      (∀ parse : JSString → Option Json, parse ([123] ++ mid ++ [125]) = none →
        parseChangeSummary parse response = fallbackSummary response) ∧
      (∀ (parse : JSString → Option Json) (members : List (JSString × Json)),
        parse ([123] ++ mid ++ [125]) = some (.obj members) →
        parseChangeSummary parse response
          = { headline := orDefault (Json.member (utf16 "headline") members)
                (.str defaultHeadline)
              summary := orDefault (Json.member (utf16 "summary") members)
                (.str defaultSummary)
              keywordsAdded := orDefault (Json.member (utf16 "keywordsAdded") members)
                (.arr []) }) ∧
      ∀ parse1 parse2 : JSString → Option Json,
        parse1 ([123] ++ mid ++ [125]) = parse2 ([123] ++ mid ++ [125]) →
        parseChangeSummary parse1 response = parseChangeSummary parse2 response) ∧
    ((¬ ∃ pre mid post, 123 ∉ pre ∧ 125 ∉ post ∧
        response = pre ++ [123] ++ mid ++ [125] ++ post) →
      matchBraces response = none ∧
      ∀ parse : JSString → Option Json,
        parseChangeSummary parse response = fallbackSummary response) := by
  constructor
  · intro pre mid post hpre hpost hresponse
    have hmatch : matchBraces response = some ([123] ++ mid ++ [125]) := by
      rw [hresponse]
      exact matchBraces_of_split pre mid post hpre hpost
    have hobj : ∀ (parse : JSString → Option Json) (members : List (JSString × Json)),
        parse ([123] ++ mid ++ [125]) = some (.obj members) →
        parseChangeSummary parse response
          = { headline := orDefault (Json.member (utf16 "headline") members)
                (.str defaultHeadline)
              summary := orDefault (Json.member (utf16 "summary") members)
                (.str defaultSummary)
              keywordsAdded := orDefault (Json.member (utf16 "keywordsAdded") members)
                (.arr []) } := by
      intro parse members hparse
      simp only [parseChangeSummary, hmatch, hparse, Json.get]
    refine ⟨hmatch, ?_, ?_, hobj, ?_⟩
    · rw [hobj _ [(utf16 "headline", .str ([123] ++ mid ++ [125]))] rfl]
      rfl
    · intro parse hparse
      simp only [parseChangeSummary, hmatch, hparse]
    · intro parse1 parse2 hsame
      unfold parseChangeSummary
      simp only [hmatch, hsame]
  · intro hnone
    have hmatch : matchBraces response = none := by
      cases h : matchBraces response with
      | none => rfl
      | some span =>
        obtain ⟨pre, mid, post, hpre, hpost, hresponse, _⟩ := matchBraces_split response span h
        exact absurd ⟨pre, mid, post, hpre, hpost, hresponse⟩ hnone
    refine ⟨hmatch, ?_⟩
    intro parse
    unfold parseChangeSummary
    simp only [hmatch]

set_option maxRecDepth 100000 in
/-- A response with two JSON objects: the span covers both and the text between
them; it is what the reader receives, and, being no JSON text, it is rejected by
the built-in reader, so the fallback is returned. A response whose only `}`
comes before its only `{` has no match. -/
theorem parseChangeSummary_span_witness :
    (matchBraces (utf16 "a \x7b\"headline\":\"x\"\x7d and \x7b\"summary\":\"y\"\x7d b")
        = some (utf16 "\x7b\"headline\":\"x\"\x7d and \x7b\"summary\":\"y\"\x7d") ∧
      (parseChangeSummary (fun text => some (.obj [(utf16 "headline", .str text)]))
        (utf16 "a \x7b\"headline\":\"x\"\x7d and \x7b\"summary\":\"y\"\x7d b")).headline
        = .str (utf16 "\x7b\"headline\":\"x\"\x7d and \x7b\"summary\":\"y\"\x7d") ∧
      jsonParse (utf16 "\x7b\"headline\":\"x\"\x7d and \x7b\"summary\":\"y\"\x7d") = none ∧
      parseChangeSummary jsonParse
          (utf16 "a \x7b\"headline\":\"x\"\x7d and \x7b\"summary\":\"y\"\x7d b")
        = fallbackSummary
            (utf16 "a \x7b\"headline\":\"x\"\x7d and \x7b\"summary\":\"y\"\x7d b")) ∧
    (matchBraces (utf16 "\x7d then \x7b") = none ∧
      ∀ parse : JSString → Option Json,
        parseChangeSummary parse (utf16 "\x7d then \x7b") = fallbackSummary (utf16 "\x7d then \x7b")) :=
  ⟨⟨((parseChangeSummary_span
        (utf16 "a \x7b\"headline\":\"x\"\x7d and \x7b\"summary\":\"y\"\x7d b")).1
      (utf16 "a ") (utf16 "\"headline\":\"x\"\x7d and \x7b\"summary\":\"y\"") (utf16 " b")
      (by decide) (by decide) (by decide)).1,
    ((parseChangeSummary_span
        (utf16 "a \x7b\"headline\":\"x\"\x7d and \x7b\"summary\":\"y\"\x7d b")).1
      (utf16 "a ") (utf16 "\"headline\":\"x\"\x7d and \x7b\"summary\":\"y\"") (utf16 " b")
      (by decide) (by decide) (by decide)).2.1,
    rfl,
    ((parseChangeSummary_span
        (utf16 "a \x7b\"headline\":\"x\"\x7d and \x7b\"summary\":\"y\"\x7d b")).1
      (utf16 "a ") (utf16 "\"headline\":\"x\"\x7d and \x7b\"summary\":\"y\"") (utf16 " b")
      (by decide) (by decide) (by decide)).2.2.1 jsonParse rfl⟩,
   (parseChangeSummary_span (utf16 "\x7d then \x7b")).2 (by
      rintro ⟨pre, mid, post, hpre, hpost, hresponse⟩
      have hmatch := matchBraces_of_split pre mid post hpre hpost
      rw [← hresponse] at hmatch
      have hnone : matchBraces (utf16 "\x7d then \x7b") = none := by decide
      rw [hnone] at hmatch
      cases hmatch)⟩

/-! ### Totality of the two extractions -/

theorem trim_length_le (s : JSString) : (trim s).length ≤ s.length := by
  unfold trim trimEnd trimStart
  rw [List.length_reverse]
  have h1 := (List.dropWhile_suffix isWhiteSpace
    (l := (List.dropWhile isWhiteSpace s).reverse)).length_le
  have h2 := (List.dropWhile_suffix isWhiteSpace (l := s)).length_le
  rw [List.length_reverse] at h1
  omega

theorem substring_length_le (s : JSString) (a b : Nat) : (substring s a b).length ≤ s.length := by
  unfold substring
  simp only [List.length_take, List.length_drop]
  omega

/-- The expression `value || fallback` is truthy when the fallback is. -/
theorem orDefault_truthy (value : Option Json) (fallback : Json)
    (h : fallback.truthy = true) : (orDefault value fallback).truthy = true := by
  unfold orDefault
  cases value with
  | none => exact h
  | some v =>
    by_cases hv : v.truthy = true
    · simp only [hv, if_true]
    · simp only [hv]
      exact h

/-- What is read after `{` is an object. -/
theorem parseMembers_obj :
    ∀ (fuel : Nat) (s : JSString) (acc : List (JSString × Json)) (v : Json) (rest : JSString),
      parseMembers fuel s acc = some (v, rest) → ∃ members, v = .obj members := by
  intro fuel
  induction fuel with
  | zero =>
    intro s acc v rest h
    simp [parseMembers] at h
  | succ fuel ih =>
    intro s acc v rest h
    rw [parseMembers] at h
    split at h
    · split at h
      · cases h
      · split at h
        · split at h
          · cases h
          · split at h
            · exact ih _ _ _ _ h
            · simp only [Option.some.injEq, Prod.mk.injEq] at h
              exact ⟨_, h.1.symm⟩
            · cases h
        · cases h
    · cases h

/-- The built-in reader turns a text that starts with `{` into an object or
rejects it. -/
theorem jsonParse_object (text : JSString) (parsed : Json)
    (h : jsonParse (123 :: text) = some parsed) : ∃ members, parsed = .obj members := by
  unfold jsonParse at h
  have hfuel : 2 * (123 :: text).length + 2 = (2 * (123 :: text).length + 1) + 1 := rfl
  rw [hfuel, parseValue] at h
  have hskip : skipWs (123 :: text) = 123 :: text := by
    simp [skipWs, List.dropWhile]
  rw [hskip] at h
  simp only at h
  split at h
  · rename_i v rest hvalue
    split at hvalue
    · simp only [Option.some.injEq, Prod.mk.injEq] at hvalue
      split at h
      · simp only [Option.some.injEq] at h
        exact ⟨[], by rw [← h, ← hvalue.1]⟩
      · cases h
    · obtain ⟨members, hmembers⟩ := parseMembers_obj _ _ _ _ _ hvalue
      split at h
      · simp only [Option.some.injEq] at h
        exact ⟨members, by rw [← h, hmembers]⟩
      · cases h
  · cases h

/-- C27. The two extractions are defined on every raw response. The marker
extraction returns a part of the response, `substring` clamping its bounds.
The change summary has a truthy headline and a truthy keyword list, and a
summary that is truthy or the first 200 units of the response, whatever
`JSON.parse` does on the matched span: return a value, throw, or return `null`,
whose property reads throw into the same `catch`. With the built-in reader a
span that parses is an object, so the three property reads return. -/
theorem parsing_total (response : JSString) :
    (extractOptimizedText response).length ≤ response.length ∧
    (∀ parse : JSString → Option Json,
      (parseChangeSummary parse response).headline.truthy = true ∧
      (parseChangeSummary parse response).keywordsAdded.truthy = true ∧
      ((parseChangeSummary parse response).summary.truthy = true ∨
        (parseChangeSummary parse response).summary = .str (substring response 0 200))) ∧
    (∀ span parsed, matchBraces response = some span → jsonParse span = some parsed →
      ∃ members, parsed = .obj members ∧
        ∀ key, parsed.get key = .ok (Json.member key members)) := by
  refine ⟨?_, ?_, ?_⟩
  · unfold extractOptimizedText
    split
    · exact (trim_length_le _).trans (substring_length_le _ _ _)
    · exact trim_length_le _
  · intro parse
    have hfallback : (fallbackSummary response).headline.truthy = true ∧
        (fallbackSummary response).keywordsAdded.truthy = true ∧
        ((fallbackSummary response).summary.truthy = true ∨
          (fallbackSummary response).summary = .str (substring response 0 200)) :=
      ⟨rfl, rfl, Or.inr rfl⟩
    unfold parseChangeSummary
    split
    · exact hfallback
    · split
      · exact hfallback
      · split
        · exact ⟨orDefault_truthy _ _ (by decide), orDefault_truthy _ _ rfl,
            Or.inl (orDefault_truthy _ _ (by decide))⟩
        · exact hfallback
  · intro span parsed hmatch hparsed
    obtain ⟨pre, mid, post, _, _, _, hspan⟩ := matchBraces_split response span hmatch
    have hspan2 : span = 123 :: (mid ++ [125]) := by rw [hspan]; simp
    rw [hspan2] at hparsed
    obtain ⟨members, hmembers⟩ := jsonParse_object _ parsed hparsed
    exact ⟨members, hmembers, fun key => by rw [hmembers]; rfl⟩

set_option maxRecDepth 100000 in
/-- The span of the spec's example parses to an object with three members, whose
property `headline` is read. -/
theorem parsing_total_witness :
    matchBraces (utf16 "blah \x7b\"headline\":\"Added SQL keywords\",\"summary\":\"x\",\"keywordsAdded\":[\"SQL\",\"ETL\"]\x7d blah")
      = some (utf16 "\x7b\"headline\":\"Added SQL keywords\",\"summary\":\"x\",\"keywordsAdded\":[\"SQL\",\"ETL\"]\x7d") ∧
    jsonParse (utf16 "\x7b\"headline\":\"Added SQL keywords\",\"summary\":\"x\",\"keywordsAdded\":[\"SQL\",\"ETL\"]\x7d")
      = some (.obj [(utf16 "headline", .str (utf16 "Added SQL keywords")),
          (utf16 "summary", .str (utf16 "x")),
          (utf16 "keywordsAdded", .arr [.str (utf16 "SQL"), .str (utf16 "ETL")])]) ∧
    ∃ members,
      Json.obj [(utf16 "headline", .str (utf16 "Added SQL keywords")),
          (utf16 "summary", .str (utf16 "x")),
          (utf16 "keywordsAdded", .arr [.str (utf16 "SQL"), .str (utf16 "ETL")])]
        = .obj members ∧
      ∀ key, (Json.obj [(utf16 "headline", .str (utf16 "Added SQL keywords")),
          (utf16 "summary", .str (utf16 "x")),
          (utf16 "keywordsAdded", .arr [.str (utf16 "SQL"), .str (utf16 "ETL")])]).get key
        = .ok (Json.member key members) :=
  ⟨rfl, rfl,
   (parsing_total (utf16 "blah \x7b\"headline\":\"Added SQL keywords\",\"summary\":\"x\",\"keywordsAdded\":[\"SQL\",\"ETL\"]\x7d blah")).2.2
    _ _ rfl rfl⟩

/-! ### The guard of `updateJob` -/

set_option maxRecDepth 100000 in
/-- C23 fails on the code: the three `delete` statements of `updateJob` act on the
top level of the body only. A top-level `status` is dropped, but the bodies
`{"$set": {"status": "Optimized"}}` and `{"$set": {"changesSummary": "edited"}}`
change `status` and `changesSummary` of the stored job, and
`{"$set": {"optimizedOn": null}}` clears `optimizedOn` of an optimized job. -/
theorem updateJob_changes_status :
    ((jobController.createJob jobController.sampleCreateBody emptyStore).store.findJob 0).map
        (fun job => (job.status, job.changesSummary)) = some (.pendingOptimization, none) ∧
    ((jobController.updateJob (.valid 0) [(utf16 "status", .str (utf16 "Optimized"))]
        (jobController.createJob jobController.sampleCreateBody emptyStore).store).bind
      (fun result => result.store.findJob 0)).map (fun job => job.status)
      = some .pendingOptimization ∧
    ((jobController.updateJob (.valid 0) jobController.sampleSetStatus
        (jobController.createJob jobController.sampleCreateBody emptyStore).store).bind
      (fun result => result.store.findJob 0)).map (fun job => job.status)
      = some .optimized ∧
    ((jobController.updateJob (.valid 0)
        [(utf16 "$set", .obj [(utf16 "changesSummary", .str (utf16 "edited"))])]
        (jobController.createJob jobController.sampleCreateBody emptyStore).store).bind
      (fun result => result.store.findJob 0)).map (fun job => job.changesSummary)
      = some (some (.str (utf16 "edited"))) ∧
    (optimizeController.sampleOptimizedStore.findJob 1).map (fun job => job.optimizedOn)
      = some (some 900) ∧
    ((jobController.updateJob (.valid 1) [(utf16 "$set", .obj [(utf16 "optimizedOn", .null)])]
        optimizeController.sampleOptimizedStore).bind
      (fun result => result.store.findJob 1)).map (fun job => job.optimizedOn)
      = some none := by
  refine ⟨rfl, rfl, rfl, rfl, rfl, rfl⟩

/-! ### The check of the base text in the batch loop -/

/-- The rewrite call starts with the request of attempt 1. -/
theorem optimizeResume_events (net : Nat → Outcome) :
    ∃ rest, (optimizeResume net).1 = Event.request 1 :: rest := by
  obtain ⟨rest, hrest⟩ := callGeminiLoop_head net 3 2 1
  have hrest2 : (callGeminiAPI net defaultRetries).1 = Event.request 1 :: rest := hrest
  refine ⟨rest, ?_⟩
  unfold optimizeResume
  rcases hc : callGeminiAPI net defaultRetries with ⟨events, result⟩
  rw [hc] at hrest2
  cases result <;> exact hrest2

namespace optimizeController

theorem recordError_trace (jobId : RequestId) (message : JSString) (s : BatchState) :
    (recordError jobId message s).trace = s.trace := rfl

/-- A job with a base text is sent to the AI client: the trace grows by the request
of attempt 1 of the rewrite call and what follows it. -/
theorem batchPersist_trace (io : Bool) (jenv : JobEnv) (jobId : RequestId) (job : Job)
    (baseResumeText : JSString) (s : BatchState) :
    ∃ rest, (batchPersist io jenv jobId job baseResumeText s).trace
      = s.trace ++ BatchEvent.ai (Event.request 1) :: rest := by
  obtain ⟨rest1, hrest1⟩ := optimizeResume_events jenv.env.rewriteNet
  unfold batchPersist
  rcases h1 : ResumeOptimizer.optimizeResume jenv.env.rewriteNet with ⟨events1, result1⟩
  rw [h1] at hrest1
  simp only at hrest1
  subst hrest1
  cases result1 with
  | error message => exact ⟨rest1.map BatchEvent.ai, rfl⟩
  | ok optimizedResumeText =>
    rcases h2 : summarizeChanges jenv.env.parse jenv.env.summaryNet with ⟨events2, result2⟩
    cases result2 with
    | error message => exact ⟨(rest1 ++ events2).map BatchEvent.ai, rfl⟩
    | ok changesSummary =>
      simp only
      cases jenv.faults.saveResume with
      | some message => exact ⟨(rest1 ++ events2).map BatchEvent.ai, rfl⟩
      | none =>
        simp only
        cases jenv.faults.saveJob with
        | some message => exact ⟨(rest1 ++ events2).map BatchEvent.ai, rfl⟩
        | none =>
          simp only
          cases io with
          | false =>
            exact ⟨(rest1 ++ events2).map BatchEvent.ai ++ [BatchEvent.pause 2000], by simp⟩
          | true =>
            simp only [if_true]
            cases jenv.faults.notify with
            | some message => exact ⟨(rest1 ++ events2).map BatchEvent.ai, rfl⟩
            | none =>
              exact ⟨(rest1 ++ events2).map BatchEvent.ai ++ [BatchEvent.pause 2000], by simp⟩

end optimizeController

/-- C29. For a job that the query of the batch loop finds: the loop body records
`No resume text available` without a request to the AI client exactly when the
job has no base resume, or the base resume has no `baseResumeText`, or that
text is the empty string. Any other base text, one made of white space
included, goes through the two AI calls and the writes of the loop body, the
first request being sent. -/
theorem batchOptimize_text_check (io : Bool) (jenv : optimizeController.JobEnv) (id : Id)
    (job : Job) (s : optimizeController.BatchState)
    (hquery : jenv.faults.findJob = none) (hjob : s.store.findJob id = some job) :
    ((optimizeController.processJob io jenv (.valid id) s
        = optimizeController.recordError (.valid id) (utf16 "No resume text available") s) ↔
      (job.baseResume.bind s.store.findResume = none ∨
        ∃ base, job.baseResume.bind s.store.findResume = some base ∧
          (base.baseResumeText = none ∨ base.baseResumeText = some []))) ∧
    ((optimizeController.processJob io jenv (.valid id) s).trace = s.trace ↔
      (job.baseResume.bind s.store.findResume = none ∨
        ∃ base, job.baseResume.bind s.store.findResume = some base ∧
          (base.baseResumeText = none ∨ base.baseResumeText = some []))) ∧
    (∀ base text, job.baseResume.bind s.store.findResume = some base →
      base.baseResumeText = some text → text ≠ [] →
      optimizeController.processJob io jenv (.valid id) s
        = optimizeController.batchPersist io jenv (.valid id) job text s ∧
      ∃ rest, (optimizeController.processJob io jenv (.valid id) s).trace
        = s.trace ++ optimizeController.BatchEvent.ai (Event.request 1) :: rest) := by
  have hsent : ∀ base text, job.baseResume.bind s.store.findResume = some base →
      base.baseResumeText = some text → text ≠ [] →
      optimizeController.processJob io jenv (.valid id) s
        = optimizeController.batchPersist io jenv (.valid id) job text s := by
    intro base text hbase htext hne
    have hempty : text.isEmpty = false := by
      cases text with
      | nil => exact absurd rfl hne
      | cons c cs => rfl
    unfold optimizeController.processJob
    simp only [hquery, hjob, hbase, htext, Option.some_bind, hempty, Bool.false_eq_true,
      if_false]
  have hrejected : (job.baseResume.bind s.store.findResume = none ∨
        ∃ base, job.baseResume.bind s.store.findResume = some base ∧
          (base.baseResumeText = none ∨ base.baseResumeText = some [])) →
      optimizeController.processJob io jenv (.valid id) s
        = optimizeController.recordError (.valid id) (utf16 "No resume text available") s := by
    intro h
    unfold optimizeController.processJob
    rcases h with hnone | ⟨base, hbase, hnone | hnil⟩
    · simp only [hquery, hjob, hnone, Option.none_bind]
    · simp only [hquery, hjob, hbase, hnone, Option.some_bind]
    · simp only [hquery, hjob, hbase, hnil, Option.some_bind, List.isEmpty_nil, if_true]
  have hcases : (job.baseResume.bind s.store.findResume = none ∨
        ∃ base, job.baseResume.bind s.store.findResume = some base ∧
          (base.baseResumeText = none ∨ base.baseResumeText = some [])) ∨
      ∃ base text, job.baseResume.bind s.store.findResume = some base ∧
        base.baseResumeText = some text ∧ text ≠ [] := by
    cases hbase : job.baseResume.bind s.store.findResume with
    | none => exact Or.inl (Or.inl rfl)
    | some base =>
      cases htext : base.baseResumeText with
      | none => exact Or.inl (Or.inr ⟨base, rfl, Or.inl htext⟩)
      | some text =>
        cases text with
        | nil => exact Or.inl (Or.inr ⟨base, rfl, Or.inr htext⟩)
        | cons c cs => exact Or.inr ⟨base, c :: cs, rfl, htext, List.cons_ne_nil c cs⟩
  have htrace : (optimizeController.processJob io jenv (.valid id) s).trace = s.trace →
      (job.baseResume.bind s.store.findResume = none ∨
        ∃ base, job.baseResume.bind s.store.findResume = some base ∧
          (base.baseResumeText = none ∨ base.baseResumeText = some [])) := by
    intro h
    rcases hcases with hyes | ⟨base, text, hbase, htext, hne⟩
    · exact hyes
    · rw [hsent base text hbase htext hne] at h
      obtain ⟨rest, hrest⟩ :=
        optimizeController.batchPersist_trace io jenv (.valid id) job text s
      rw [hrest] at h
      have hlen := congrArg List.length h
      simp only [List.length_append, List.length_cons] at hlen
      omega
  refine ⟨⟨?_, hrejected⟩, ⟨htrace, ?_⟩, ?_⟩
  · intro h
    exact htrace (by rw [h]; rfl)
  · intro h
    rw [hrejected h]
    rfl
  · intro base text hbase htext hne
    refine ⟨hsent base text hbase htext hne, ?_⟩
    rw [hsent base text hbase htext hne]
    exact optimizeController.batchPersist_trace io jenv (.valid id) job text s

set_option maxRecDepth 100000 in
/-- The job whose base text is three spaces: the batch sends it to the AI client
and records a success, while the single-job handler rejects it; the job
without a base resume is rejected by the batch without a request. -/
theorem batchOptimize_text_check_witness :
    (optimizeController.processJob true (optimizeController.sampleBatchEnv 0) (.valid 1)
        ⟨optimizeController.sampleStoreBlankResume, [], [], [], []⟩
        = optimizeController.batchPersist true (optimizeController.sampleBatchEnv 0) (.valid 1)
            { id := 1
              clientName := utf16 "Jane Doe"
              companyName := utf16 "Acme"
              position := utf16 "Data Analyst"
              jobDescription := utf16 "SQL and ETL"
              jobApplicationLink := none
              status := .pendingOptimization
              baseResume := some 2
              latestOptimizedResume := none
              optimizedOn := none
              changesSummary := none }
            (utf16 "   ") ⟨optimizeController.sampleStoreBlankResume, [], [], [], []⟩ ∧
      ∃ rest, (optimizeController.processJob true (optimizeController.sampleBatchEnv 0) (.valid 1)
          ⟨optimizeController.sampleStoreBlankResume, [], [], [], []⟩).trace
        = [] ++ optimizeController.BatchEvent.ai (Event.request 1) :: rest) ∧
    (optimizeController.batchOptimize optimizeController.sampleBatchEnv ⟨some [.valid 1], true⟩
      optimizeController.sampleStoreBlankResume).response.payload?.map
        (fun p => (p.results, p.errors)) = some ([⟨.valid 1, utf16 "success"⟩], []) ∧
    (optimizeController.optimizeResume optimizeController.sampleGoodEnv
      ⟨.valid 1, .absent, true⟩ optimizeController.sampleStoreBlankResume).response.status
      = 400 ∧
    (optimizeController.batchOptimize optimizeController.sampleBatchEnv ⟨some [.valid 1], true⟩
      optimizeController.sampleStoreWithoutResume).response.payload?.map
        (fun p => (p.results, p.errors))
      = some ([], [⟨.valid 1, utf16 "No resume text available"⟩]) ∧
    (optimizeController.batchOptimize optimizeController.sampleBatchEnv ⟨some [.valid 1], true⟩
      optimizeController.sampleStoreWithoutResume).trace = [] :=
  ⟨(batchOptimize_text_check true (optimizeController.sampleBatchEnv 0) 1 _
      ⟨optimizeController.sampleStoreBlankResume, [], [], [], []⟩ rfl rfl).2.2
      { id := 2
        ownerJob := none
        baseResumeText := some (utf16 "   ")
        optimizedResumeText := none
        files := []
        keywordsAdded := .arr [] }
      (utf16 "   ") rfl rfl (by decide),
   rfl, rfl, rfl, rfl⟩

end ResumeOptimizer
